import Mathlib

/-!
Verification of the brace C++ library's Base-N codec engine and incremental
hash-algorithm framework (headers under `include/brace/`): Base16, Base32,
Base32Hex, Base64, Base64Url encoding/decoding and the MD5 / SHA-1 / SHA-2
hash classes.

Shallow-embedding conventions:
* bytes and machine words are `Nat`, with wrap-around made explicit
  (`% 2^32`, `% 2^64`) exactly where the C++ unsigned types wrap;
* C++ bit operators map to `Nat` bit operators (`&&&`, `|||`, `^^^`, `<<<`,
  `>>>`), which agree with the machine operators on in-range values;
* byte/character streams are `List Nat` / `List Char`; the `std::string` /
  `std::vector` overloads of the public API (whose output functors always
  succeed) are the embedded ones;
* C++ functions that throw `brace::BasicParseError` (or return it in a
  `std::variant`) become `Except BasicParseError` values;
* fixed-size C++ arrays holding a live prefix (`_buffer`/`_message_block`
  up to the current index, the `eights`/`quads` accumulation arrays up to
  their position counter) are embedded as the list of live elements; the
  stale tail of those arrays is never read by the source before being
  overwritten.
-/

deriving instance DecidableEq for Except

namespace Brace

/-- brace::BasicParseError: a position-tagged parse diagnostic carrying the
line number, the column position and a message. -/
structure BasicParseError where
  line : Nat
  pos : Nat
  msg : String
deriving Repr, DecidableEq

/-- The `output` lambda shared by `Base16::do_encode` and
`Base32Base::do_encode`: every character is forwarded and, when `wrapat` is
nonzero, a newline is emitted each time the column counter reaches `wrapat`
(the newline itself resets the counter and does not count). -/
def wrap_newlines (wrapat : Nat) : Nat → List Char → List Char
  | _, [] => []
  | pos, ch :: rest =>
    if wrapat ≠ 0 ∧ pos + 1 = wrapat then ch :: '\n' :: wrap_newlines wrapat 0 rest
    else ch :: wrap_newlines wrapat (pos + 1) rest

namespace Base16

/-- Base16::alphabet. -/
def alphabet : List Char :=
  ['0', '1', '2', '3', '4', '5', '6', '7', '8', '9', 'A', 'B', 'C', 'D', 'E', 'F']

/-- Base16::is_valid_character. -/
def is_valid_character (ch : Char) : Bool :=
  decide (('0' ≤ ch ∧ ch ≤ '9') ∨ ('A' ≤ ch ∧ ch ≤ 'F'))

/-- Base16::get_index: the index of `ch` in the alphabet.  The C++ returns
`-1` when `ch` is absent; `do_decode` only calls it on valid characters, and
the embedding returns the list length (16) in the absent case. -/
def get_index (ch : Char) : Nat :=
  alphabet.indexOf ch

/-- The character stream fed to the `output` lambda by `Base16::do_encode`:
two symbols per input byte, high nibble first. -/
def encode_symbols : List Nat → List Char
  | [] => []
  | b :: rest =>
    alphabet.getD ((b >>> 4) &&& 0x0F) ' ' :: alphabet.getD (b &&& 0x0F) ' ' :: encode_symbols rest

/-- Base16::do_encode for the string-producing overloads (whose `out_func`
always succeeds): the symbol stream routed through the wrapping `output`
lambda. -/
def do_encode (input : List Nat) (wrapat : Nat) : List Char :=
  wrap_newlines wrapat 0 (encode_symbols input)

/-- Base16::do_decode, for the overloads whose `out_func` always succeeds.
State: remaining input, the live prefix of the `duo` array, `line` and `pos`.
Note that the source never increments `pos`; it only resets it to 0 on a
newline. -/
def do_decode (handle_newline : Bool) : List Char → List Char → Nat → Nat →
    Except BasicParseError (List Nat)
  | [], duo, line, pos =>
    if duo.length ≠ 0 then .error ⟨line, pos, "Length error"⟩ else .ok []
  | ch :: rest, duo, line, pos =>
    if is_valid_character ch then
      if duo.length = 1 then
        let byte := ((get_index (duo.getD 0 ' ')) <<< 4 ||| (get_index ch &&& 0x0F)) % 256
        (do_decode handle_newline rest [] line pos).map (byte :: ·)
      else
        do_decode handle_newline rest [ch] line pos
    else if ch = '\n' ∧ handle_newline = true then
      do_decode handle_newline rest duo (line + 1) 0
    else
      .error ⟨line, pos, "Invalid character"⟩

/-- Base16::decode (string-to-vector overload): runs `do_decode` from the
initial state (`line = 1`, `pos = 1`, empty `duo`). -/
def decode (s : List Char) (handle_newline : Bool) : Except BasicParseError (List Nat) :=
  do_decode handle_newline s [] 1 1

end Base16

namespace Base32Base

/-- The data a `Base32Base` subclass supplies through its virtual functions:
the alphabet, the decoding table (indexed by character code, `0x64` marking
invalid entries) and the character-validity predicate. -/
structure Params where
  alphabet : List Char
  decode_table : List Nat
  is_valid_character : Char → Bool

/-- Base32Base::decode_eights: eight encoded characters are looked up in the
decoding table, packed into a 40-bit accumulator (most significant symbol
first) and split into five bytes. -/
def decode_eights (p : Params) (s : List Char) : List Nat :=
  let t : Char → Nat := fun ch => p.decode_table.getD ch.toNat 0x64
  let hold :=
    (t (s.getD 0 ' ') <<< 35) ||| (t (s.getD 1 ' ') <<< 30) |||
    (t (s.getD 2 ' ') <<< 25) ||| (t (s.getD 3 ' ') <<< 20) |||
    (t (s.getD 4 ' ') <<< 15) ||| (t (s.getD 5 ' ') <<< 10) |||
    (t (s.getD 6 ' ') <<< 5) ||| t (s.getD 7 ' ')
  [(hold >>> 32) &&& 0xFF, (hold >>> 24) &&& 0xFF, (hold >>> 16) &&& 0xFF,
   (hold >>> 8) &&& 0xFF, hold &&& 0xFF]

/-- The character stream fed to the `output` lambda by
`Base32Base::do_encode`: full 5-byte groups become 8 symbols; the final
partial group (1-4 bytes) becomes 2/4/5/7 symbols padded with `=` to 8. -/
def encode_symbols (p : Params) : List Nat → List Char
  | b0 :: b1 :: b2 :: b3 :: b4 :: rest =>
    p.alphabet.getD ((b0 >>> 3) &&& 0x1F) ' ' ::
    p.alphabet.getD (((b0 &&& 0x07) <<< 2) ||| ((b1 &&& 0xC0) >>> 6)) ' ' ::
    p.alphabet.getD ((b1 &&& 0x3E) >>> 1) ' ' ::
    p.alphabet.getD (((b1 &&& 0x01) <<< 4) ||| ((b2 &&& 0xF0) >>> 4)) ' ' ::
    p.alphabet.getD (((b2 &&& 0x0F) <<< 1) ||| ((b3 &&& 0x80) >>> 7)) ' ' ::
    p.alphabet.getD ((b3 &&& 0x7C) >>> 2) ' ' ::
    p.alphabet.getD (((b3 &&& 0x03) <<< 3) ||| ((b4 &&& 0xE0) >>> 5)) ' ' ::
    p.alphabet.getD (b4 &&& 0x1F) ' ' ::
    encode_symbols p rest
  | [b0, b1, b2, b3] =>
    [p.alphabet.getD ((b0 >>> 3) &&& 0x1F) ' ',
     p.alphabet.getD (((b0 &&& 0x07) <<< 2) ||| ((b1 &&& 0xC0) >>> 6)) ' ',
     p.alphabet.getD ((b1 &&& 0x3E) >>> 1) ' ',
     p.alphabet.getD (((b1 &&& 0x01) <<< 4) ||| ((b2 &&& 0xF0) >>> 4)) ' ',
     p.alphabet.getD (((b2 &&& 0x0F) <<< 1) ||| ((b3 &&& 0x80) >>> 7)) ' ',
     p.alphabet.getD ((b3 &&& 0x7C) >>> 2) ' ',
     p.alphabet.getD ((b3 &&& 0x03) <<< 3) ' ',
     '=']
  | [b0, b1, b2] =>
    [p.alphabet.getD ((b0 >>> 3) &&& 0x1F) ' ',
     p.alphabet.getD (((b0 &&& 0x07) <<< 2) ||| ((b1 &&& 0xC0) >>> 6)) ' ',
     p.alphabet.getD ((b1 &&& 0x3E) >>> 1) ' ',
     p.alphabet.getD (((b1 &&& 0x01) <<< 4) ||| ((b2 &&& 0xF0) >>> 4)) ' ',
     p.alphabet.getD ((b2 &&& 0x0F) <<< 1) ' ',
     '=', '=', '=']
  | [b0, b1] =>
    [p.alphabet.getD ((b0 >>> 3) &&& 0x1F) ' ',
     p.alphabet.getD (((b0 &&& 0x07) <<< 2) ||| ((b1 &&& 0xC0) >>> 6)) ' ',
     p.alphabet.getD ((b1 &&& 0x3E) >>> 1) ' ',
     p.alphabet.getD ((b1 &&& 0x01) <<< 4) ' ',
     '=', '=', '=', '=']
  | [b0] =>
    [p.alphabet.getD ((b0 >>> 3) &&& 0x1F) ' ',
     p.alphabet.getD ((b0 &&& 0x07) <<< 2) ' ',
     '=', '=', '=', '=', '=', '=']
  | [] => []

/-- Base32Base::do_encode for the string-producing overloads. -/
def do_encode (p : Params) (input : List Nat) (wrapat : Nat) : List Char :=
  wrap_newlines wrapat 0 (encode_symbols p input)

/-- End-of-input handling of `Base32Base::do_decode`: the remaining partial
group is filled out with `A` characters and decoded, and a prefix of the
decoded bytes determined by the partial-group length is emitted.  The switch
has no case for a single leftover symbol (`eights_pos == 1`), which therefore
produces no output and no error. -/
def decode_leftover (p : Params) (eights : List Char) : Except BasicParseError (List Nat) :=
  if eights.length = 0 then .ok []
  else
    let s := eights ++ List.replicate (8 - eights.length) 'A'
    let bytes := decode_eights p s
    match eights.length with
    | 2 => .ok (bytes.take 1)
    | 3 => .ok (bytes.take 2)
    | 4 => .ok (bytes.take 2)
    | 5 => .ok (bytes.take 3)
    | 6 => .ok (bytes.take 4)
    | 7 => .ok (bytes.take 4)
    | _ => .ok []

/-- Base32Base::do_decode, for the overloads whose `out_func` always
succeeds.  State: remaining input, live prefix of the `eights` array, `line`,
`pos` and `pad_count`.  The source increments `pos` at the end of every loop
iteration (so the newline branch, which sets it to 0, leaves it at 1). -/
def do_decode (p : Params) (handle_newline : Bool) :
    List Char → List Char → Nat → Nat → Nat → Except BasicParseError (List Nat)
  | [], eights, _line, _pos, _pad_count => decode_leftover p eights
  | ch :: rest, eights, line, pos, pad_count =>
    if p.is_valid_character ch then
      if pad_count ≠ 0 then .error ⟨line, pos, "Invalid character"⟩
      else if eights.length = 7 then
        (do_decode p handle_newline rest [] line (pos + 1) pad_count).map
          (decode_eights p (eights ++ [ch]) ++ ·)
      else do_decode p handle_newline rest (eights ++ [ch]) line (pos + 1) pad_count
    else if ch = '\n' ∧ handle_newline = true then
      do_decode p handle_newline rest eights (line + 1) 1 pad_count
    else if ch = '=' ∧ pad_count + 1 ≤ 6 then
      do_decode p handle_newline rest eights line (pos + 1) (pad_count + 1)
    else .error ⟨line, pos, "Invalid character"⟩

/-- Base32Base::decode (string-to-vector overload): runs `do_decode` from
the initial state (`line = 1`, `pos = 1`, empty `eights`, no pads seen). -/
def decode (p : Params) (s : List Char) (handle_newline : Bool) :
    Except BasicParseError (List Nat) :=
  do_decode p handle_newline s [] 1 1 0

/-- The Base32 subclass: RFC 4648 section 6 alphabet and its decoding
table. -/
def base32 : Params where
  alphabet :=
    ['A', 'B', 'C', 'D', 'E', 'F', 'G', 'H', 'I', 'J', 'K', 'L', 'M', 'N', 'O', 'P',
     'Q', 'R', 'S', 'T', 'U', 'V', 'W', 'X', 'Y', 'Z', '2', '3', '4', '5', '6', '7']
  decode_table :=
    [0x64, 0x64, 0x64, 0x64, 0x64, 0x64, 0x64, 0x64, 0x64, 0x64, 0x64, 0x64, 0x64, 0x64, 0x64, 0x64,
     0x64, 0x64, 0x64, 0x64, 0x64, 0x64, 0x64, 0x64, 0x64, 0x64, 0x64, 0x64, 0x64, 0x64, 0x64, 0x64,
     0x64, 0x64, 0x64, 0x64, 0x64, 0x64, 0x64, 0x64, 0x64, 0x64, 0x64, 0x64, 0x64, 0x64, 0x64, 0x64,
     0x64, 0x64, 0x1A, 0x1B, 0x1C, 0x1D, 0x1E, 0x1F, 0x64, 0x64, 0x64, 0x64, 0x64, 0x64, 0x64, 0x64,
     0x64, 0x00, 0x01, 0x02, 0x03, 0x04, 0x05, 0x06, 0x07, 0x08, 0x09, 0x0A, 0x0B, 0x0C, 0x0D, 0x0E,
     0x0F, 0x10, 0x11, 0x12, 0x13, 0x14, 0x15, 0x16, 0x17, 0x18, 0x19, 0x64, 0x64, 0x64, 0x64, 0x64,
     0x64, 0x64, 0x64, 0x64, 0x64, 0x64, 0x64, 0x64, 0x64, 0x64, 0x64, 0x64, 0x64, 0x64, 0x64, 0x64,
     0x64, 0x64, 0x64, 0x64, 0x64, 0x64, 0x64, 0x64, 0x64, 0x64, 0x64, 0x64, 0x64, 0x64, 0x64, 0x64]
  is_valid_character := fun ch => decide (('A' ≤ ch ∧ ch ≤ 'Z') ∨ ('2' ≤ ch ∧ ch ≤ '7'))

/-- The Base32Hex subclass: RFC 4648 section 7 alphabet and its decoding
table. -/
def base32hex : Params where
  alphabet :=
    ['0', '1', '2', '3', '4', '5', '6', '7', '8', '9', 'A', 'B', 'C', 'D', 'E', 'F',
     'G', 'H', 'I', 'J', 'K', 'L', 'M', 'N', 'O', 'P', 'Q', 'R', 'S', 'T', 'U', 'V']
  decode_table :=
    [0x64, 0x64, 0x64, 0x64, 0x64, 0x64, 0x64, 0x64, 0x64, 0x64, 0x64, 0x64, 0x64, 0x64, 0x64, 0x64,
     0x64, 0x64, 0x64, 0x64, 0x64, 0x64, 0x64, 0x64, 0x64, 0x64, 0x64, 0x64, 0x64, 0x64, 0x64, 0x64,
     0x64, 0x64, 0x64, 0x64, 0x64, 0x64, 0x64, 0x64, 0x64, 0x64, 0x64, 0x64, 0x64, 0x64, 0x64, 0x64,
     0x00, 0x01, 0x02, 0x03, 0x04, 0x05, 0x06, 0x07, 0x08, 0x09, 0x64, 0x64, 0x64, 0x64, 0x64, 0x64,
     0x64, 0x0A, 0x0B, 0x0C, 0x0D, 0x0E, 0x0F, 0x10, 0x11, 0x12, 0x13, 0x14, 0x15, 0x16, 0x17, 0x18,
     0x19, 0x1A, 0x1B, 0x1C, 0x1D, 0x1E, 0x1F, 0x64, 0x64, 0x64, 0x64, 0x64, 0x64, 0x64, 0x64, 0x64,
     0x64, 0x64, 0x64, 0x64, 0x64, 0x64, 0x64, 0x64, 0x64, 0x64, 0x64, 0x64, 0x64, 0x64, 0x64, 0x64,
     0x64, 0x64, 0x64, 0x64, 0x64, 0x64, 0x64, 0x64, 0x64, 0x64, 0x64, 0x64, 0x64, 0x64, 0x64, 0x64]
  is_valid_character := fun ch => decide (('0' ≤ ch ∧ ch ≤ '9') ∨ ('A' ≤ ch ∧ ch ≤ 'V'))

/-- The properties of a concrete Base32 alphabet/table pair that the
round-trip arguments rely on: the decode table inverts the alphabet, every
alphabet character passes the validity test, newline and pad are not valid
characters, and the filler character `A` used for partial groups has a
5-bit table entry.  Both subclasses satisfy this by computation. -/
def Good (p : Params) : Prop :=
  (∀ i, i < 32 → p.decode_table.getD (p.alphabet.getD i ' ').toNat 0x64 = i) ∧
  (∀ i, i < 32 → p.is_valid_character (p.alphabet.getD i ' ') = true) ∧
  p.is_valid_character '\n' = false ∧
  p.is_valid_character '=' = false ∧
  p.decode_table.getD ('A'.toNat) 0x64 < 32

end Base32Base

namespace Base64Base

/-- The data a `Base64Base` subclass supplies through its virtual functions:
the alphabet and the decoding table (indexed by character code, `0x64`
marking invalid entries). -/
structure Params where
  alphabet : List Char
  decode_table : List Nat

/-- Base64Base::is_valid_character: letters and digits are always valid; the
last two alphabet entries distinguish Base64 from Base64Url. -/
def Params.is_valid_character (p : Params) (ch : Char) : Bool :=
  decide (('A' ≤ ch ∧ ch ≤ 'Z') ∨ ('a' ≤ ch ∧ ch ≤ 'z') ∨ ('0' ≤ ch ∧ ch ≤ '9') ∨
    ch = p.alphabet.getD 62 ' ' ∨ ch = p.alphabet.getD 63 ' ')

/-- Base64Base::decode_quad: four encoded characters are looked up in the
decoding table, packed into a 24-bit accumulator (most significant symbol
first) and split into three bytes. -/
def decode_quad (p : Params) (a b c d : Char) : List Nat :=
  let t : Char → Nat := fun ch => p.decode_table.getD ch.toNat 0x64
  let hold := (t a <<< 18) ||| (t b <<< 12) ||| (t c <<< 6) ||| t d
  [(hold >>> 16) &&& 0xFF, (hold >>> 8) &&& 0xFF, hold &&& 0xFF]

/-- Base64Base::do_encode (range-of-bytes to string overload): full 3-byte
groups become 4 symbols; a final 1- or 2-byte group becomes 2 or 3 symbols
padded with `=` to 4. -/
def do_encode (p : Params) : List Nat → List Char
  | b0 :: b1 :: b2 :: rest =>
    p.alphabet.getD ((b0 >>> 2) &&& 0x3F) ' ' ::
    p.alphabet.getD (((b0 &&& 0x03) <<< 4) ||| ((b1 &&& 0xF0) >>> 4)) ' ' ::
    p.alphabet.getD (((b1 &&& 0x0F) <<< 2) ||| ((b2 &&& 0xC0) >>> 6)) ' ' ::
    p.alphabet.getD (b2 &&& 0x3F) ' ' ::
    do_encode p rest
  | [b0, b1] =>
    [p.alphabet.getD ((b0 >>> 2) &&& 0x3F) ' ',
     p.alphabet.getD (((b0 &&& 0x03) <<< 4) ||| ((b1 &&& 0xF0) >>> 4)) ' ',
     p.alphabet.getD ((b1 &&& 0x0F) <<< 2) ' ',
     '=']
  | [b0] =>
    [p.alphabet.getD ((b0 >>> 2) &&& 0x3F) ' ',
     p.alphabet.getD ((b0 &&& 0x03) <<< 4) ' ',
     '=', '=']
  | [] => []

/-- The `std::all_of` scan inside `Base64Base::validate_str`: its `pos`
counter is incremented before each character is tested, so it ends holding
the 1-based position of the first invalid character. -/
def first_invalid_pos (p : Params) : List Char → Nat → Option Nat
  | [], _ => none
  | ch :: rest, pos =>
    if p.is_valid_character ch then first_invalid_pos p rest (pos + 1) else some (pos + 1)

/-- Base64Base::validate_str: length must be a multiple of four; every
character except the last two must be valid; the last two may be a padding
suffix.  Reported error positions use line 0 and a character index (the
C++ adds a wrapped `size_t` of -1 or -2 to the size, embedded here as the
corresponding `Nat` subtraction). -/
def validate_str (p : Params) (s : List Char) : Option BasicParseError :=
  if s.length % 4 ≠ 0 then some ⟨0, s.length, "Invalid length"⟩
  else
    match first_invalid_pos p (s.take (s.length - 2)) 0 with
    | some pos => some ⟨0, pos, "Invalid character"⟩
    | none =>
      let snd := s.getD (s.length - 2) ' '
      let lst := s.getD (s.length - 1) ' '
      if ¬ p.is_valid_character snd ∧ ¬ (snd = '=' ∧ lst = '=') then
        some ⟨0, if snd = '=' then s.length - 1 else s.length - 2, "Invalid character"⟩
      else if p.is_valid_character lst ∨ lst = '=' then none
      else some ⟨0, s.length - 1, "Invalid character"⟩

/-- Base64Base::decode_pure (vector-returning overload): all quads but the
last are decoded to three bytes each; the last quad yields 1, 2 or 3 bytes
according to its padding characters.  Only called on input whose length is a
positive multiple of four. -/
def decode_pure (p : Params) : List Char → List Nat
  | a :: b :: c :: d :: rest =>
    if rest.length = 0 then
      if c = '=' then (decode_quad p a b 'A' 'A').take 1
      else if d = '=' then (decode_quad p a b c 'A').take 2
      else decode_quad p a b c d
    else decode_quad p a b c d ++ decode_pure p rest
  | _ => []

/-- Base64Base::decode_impure (vector-returning overload).  State: remaining
input, live prefix of the `quads` array, the `pad1`/`pad2` characters (as
Booleans: they are only ever 0 or `=`), `line` and `pos`. -/
def decode_impure (p : Params) :
    List Char → List Char → Bool → Bool → Nat → Nat → Except BasicParseError (List Nat)
  | [], quads, pad1, pad2, line, pos =>
    if quads.length ≠ 0 then
      if quads.length = 3 ∧ pad1 = true ∧ pad2 = false then
        .ok ((decode_quad p (quads.getD 0 ' ') (quads.getD 1 ' ') (quads.getD 2 ' ') 'A').take 2)
      else if quads.length = 2 ∧ pad1 = true ∧ pad2 = true then
        .ok ((decode_quad p (quads.getD 0 ' ') (quads.getD 1 ' ') 'A' 'A').take 1)
      else .error ⟨line, pos, "Invalid length or padding"⟩
    else .ok []
  | ch :: rest, quads, pad1, pad2, line, pos =>
    if p.is_valid_character ch then
      if pad1 = true ∨ pad2 = true then
        .error ⟨line, pos - (if pad2 then 2 else 1), "Invalid character"⟩
      else if quads.length = 3 then
        (decode_impure p rest [] pad1 pad2 line (pos + 1)).map
          (decode_quad p (quads.getD 0 ' ') (quads.getD 1 ' ') (quads.getD 2 ' ') ch ++ ·)
      else decode_impure p rest (quads ++ [ch]) pad1 pad2 line (pos + 1)
    else if ch = '\n' then
      decode_impure p rest quads pad1 pad2 (line + 1) 1
    else if ch = '=' then
      if pad1 = true then
        if pad2 = false then decode_impure p rest quads pad1 true line (pos + 1)
        else .error ⟨line, pos, "Invalid character"⟩
      else decode_impure p rest quads true pad2 line (pos + 1)
    else .error ⟨line, pos, "Invalid character"⟩

/-- Base64Base::do_decode (string-to-vector overload): empty input decodes
to nothing; with newline handling off the input is validated and decoded on
the fast pure path, otherwise the character-by-character impure path runs. -/
def do_decode (p : Params) (s : List Char) (ignore_newline : Bool) :
    Except BasicParseError (List Nat) :=
  if s.length = 0 then .ok []
  else if ignore_newline = false then
    match validate_str p s with
    | some e => .error e
    | none => .ok (decode_pure p s)
  else decode_impure p s [] false false 1 1

/-- The Base64 subclass: RFC 4648 section 4 alphabet and its decoding
table. -/
def base64 : Params where
  alphabet :=
    ['A', 'B', 'C', 'D', 'E', 'F', 'G', 'H', 'I', 'J', 'K', 'L', 'M', 'N', 'O', 'P',
     'Q', 'R', 'S', 'T', 'U', 'V', 'W', 'X', 'Y', 'Z', 'a', 'b', 'c', 'd', 'e', 'f',
     'g', 'h', 'i', 'j', 'k', 'l', 'm', 'n', 'o', 'p', 'q', 'r', 's', 't', 'u', 'v',
     'w', 'x', 'y', 'z', '0', '1', '2', '3', '4', '5', '6', '7', '8', '9', '+', '/']
  decode_table :=
    [0x64, 0x64, 0x64, 0x64, 0x64, 0x64, 0x64, 0x64, 0x64, 0x64, 0x64, 0x64, 0x64, 0x64, 0x64, 0x64,
     0x64, 0x64, 0x64, 0x64, 0x64, 0x64, 0x64, 0x64, 0x64, 0x64, 0x64, 0x64, 0x64, 0x64, 0x64, 0x64,
     0x64, 0x64, 0x64, 0x64, 0x64, 0x64, 0x64, 0x64, 0x64, 0x64, 0x64, 0x3E, 0x64, 0x64, 0x64, 0x3F,
     0x34, 0x35, 0x36, 0x37, 0x38, 0x39, 0x3A, 0x3B, 0x3C, 0x3D, 0x64, 0x64, 0x64, 0x64, 0x64, 0x64,
     0x64, 0x00, 0x01, 0x02, 0x03, 0x04, 0x05, 0x06, 0x07, 0x08, 0x09, 0x0A, 0x0B, 0x0C, 0x0D, 0x0E,
     0x0F, 0x10, 0x11, 0x12, 0x13, 0x14, 0x15, 0x16, 0x17, 0x18, 0x19, 0x64, 0x64, 0x64, 0x64, 0x64,
     0x64, 0x1A, 0x1B, 0x1C, 0x1D, 0x1E, 0x1F, 0x20, 0x21, 0x22, 0x23, 0x24, 0x25, 0x26, 0x27, 0x28,
     0x29, 0x2A, 0x2B, 0x2C, 0x2D, 0x2E, 0x2F, 0x30, 0x31, 0x32, 0x33, 0x64, 0x64, 0x64, 0x64, 0x64]

/-- The Base64Url subclass: RFC 4648 section 5 "URL and Filename safe"
alphabet and its decoding table. -/
def base64url : Params where
  alphabet :=
    ['A', 'B', 'C', 'D', 'E', 'F', 'G', 'H', 'I', 'J', 'K', 'L', 'M', 'N', 'O', 'P',
     'Q', 'R', 'S', 'T', 'U', 'V', 'W', 'X', 'Y', 'Z', 'a', 'b', 'c', 'd', 'e', 'f',
     'g', 'h', 'i', 'j', 'k', 'l', 'm', 'n', 'o', 'p', 'q', 'r', 's', 't', 'u', 'v',
     'w', 'x', 'y', 'z', '0', '1', '2', '3', '4', '5', '6', '7', '8', '9', '-', '_']
  decode_table :=
    [0x64, 0x64, 0x64, 0x64, 0x64, 0x64, 0x64, 0x64, 0x64, 0x64, 0x64, 0x64, 0x64, 0x64, 0x64, 0x64,
     0x64, 0x64, 0x64, 0x64, 0x64, 0x64, 0x64, 0x64, 0x64, 0x64, 0x64, 0x64, 0x64, 0x64, 0x64, 0x64,
     0x64, 0x64, 0x64, 0x64, 0x64, 0x64, 0x64, 0x64, 0x64, 0x64, 0x64, 0x64, 0x64, 0x3E, 0x64, 0x64,
     0x34, 0x35, 0x36, 0x37, 0x38, 0x39, 0x3A, 0x3B, 0x3C, 0x3D, 0x64, 0x64, 0x64, 0x64, 0x64, 0x64,
     0x64, 0x00, 0x01, 0x02, 0x03, 0x04, 0x05, 0x06, 0x07, 0x08, 0x09, 0x0A, 0x0B, 0x0C, 0x0D, 0x0E,
     0x0F, 0x10, 0x11, 0x12, 0x13, 0x14, 0x15, 0x16, 0x17, 0x18, 0x19, 0x64, 0x64, 0x64, 0x64, 0x3F,
     0x64, 0x1A, 0x1B, 0x1C, 0x1D, 0x1E, 0x1F, 0x20, 0x21, 0x22, 0x23, 0x24, 0x25, 0x26, 0x27, 0x28,
     0x29, 0x2A, 0x2B, 0x2C, 0x2D, 0x2E, 0x2F, 0x30, 0x31, 0x32, 0x33, 0x64, 0x64, 0x64, 0x64, 0x64]

/-- The properties of a concrete Base64 alphabet/table pair that the
round-trip arguments rely on; the filler character `A` decodes to 0 in
both subclasses. -/
def Good (p : Params) : Prop :=
  (∀ i, i < 64 → p.decode_table.getD (p.alphabet.getD i ' ').toNat 0x64 = i) ∧
  (∀ i, i < 64 → p.is_valid_character (p.alphabet.getD i ' ') = true) ∧
  p.is_valid_character '\n' = false ∧
  p.is_valid_character '=' = false ∧
  (∀ i, i < 64 → p.alphabet.getD i ' ' ≠ '=') ∧
  p.decode_table.getD ('A'.toNat) 0x64 = 0

end Base64Base

/-- brace::rotate_left from bits.h, instantiated at `T = uint32_t`:
`(word << bits) | (word >> (32 - bits))`, with the left shift wrapping in
32 bits. -/
def rotate_left32 (word bits : Nat) : Nat :=
  ((word <<< bits) % 2 ^ 32) ||| (word >>> (32 - bits))

/-- brace::rotate_right from bits.h, instantiated at `T = uint32_t`. -/
def rotate_right32 (word bits : Nat) : Nat :=
  (word >>> bits) ||| ((word <<< (32 - bits)) % 2 ^ 32)

/-- brace::rotate_right from bits.h, instantiated at `T = uint64_t`. -/
def rotate_right64 (word bits : Nat) : Nat :=
  (word >>> bits) ||| ((word <<< (64 - bits)) % 2 ^ 64)

/-- Bitwise complement of a `uint32_t` value: `~x = 0xFFFFFFFF ^ x` for
`x < 2^32`. -/
def not32 (x : Nat) : Nat := 0xFFFFFFFF ^^^ x

/-- Bitwise complement of a `uint64_t` value. -/
def not64 (x : Nat) : Nat := 0xFFFFFFFFFFFFFFFF ^^^ x

namespace HashAlgorithm

/-- The uppercase hexadecimal digits used by
`HashAlgorithm::hash_to_string`. -/
def hex_digits : List Char :=
  ['0', '1', '2', '3', '4', '5', '6', '7', '8', '9', 'A', 'B', 'C', 'D', 'E', 'F']

/-- HashAlgorithm::hash_to_string: each digest byte (always < 256) is
rendered as exactly two uppercase hexadecimal characters, zero-filled. -/
def hash_to_string (hash : List Nat) : List Char :=
  (hash.map (fun b => [hex_digits.getD (b / 16 % 16) ' ', hex_digits.getD (b % 16) ' '])).flatten

/-- HashAlgorithm::HashLength::operator++, for a word width of `w` bits
(`w = 32` for `HashLength64_t`, `w = 64` for `HashLength128_t`): the low
word advances by `CHAR_BIT`; when it wraps to zero the high word is
incremented, and a wrap of the high word throws `std::range_error`. -/
def HashLength_inc (w : Nat) (high low : Nat) : Except String (Nat × Nat) :=
  let low' := (low + 8) % 2 ^ w
  if low' = 0 then
    let high' := (high + 1) % 2 ^ w
    if high' = 0 then .error "Hash maximum length exceeded."
    else .ok (high', low')
  else .ok (high, low')

/-- HashAlgorithm::SHA_Ch at 32 bits. -/
def SHA_Ch32 (x y z : Nat) : Nat := (x &&& y) ^^^ (not32 x &&& z)

/-- HashAlgorithm::SHA_Maj at 32 bits. -/
def SHA_Maj32 (x y z : Nat) : Nat := (x &&& y) ^^^ (x &&& z) ^^^ (y &&& z)

/-- HashAlgorithm::SHA_Parity at 32 bits. -/
def SHA_Parity32 (x y z : Nat) : Nat := x ^^^ y ^^^ z

/-- HashAlgorithm::SHA_Ch at 64 bits. -/
def SHA_Ch64 (x y z : Nat) : Nat := (x &&& y) ^^^ (not64 x &&& z)

/-- HashAlgorithm::SHA_Maj at 64 bits. -/
def SHA_Maj64 (x y z : Nat) : Nat := (x &&& y) ^^^ (x &&& z) ^^^ (y &&& z)

end HashAlgorithm

namespace MD5

/-- The MD5 nonlinear function F. -/
def F (x y z : Nat) : Nat := (x &&& y) ||| (not32 x &&& z)

/-- The MD5 nonlinear function G. -/
def G (x y z : Nat) : Nat := (x &&& z) ||| (y &&& not32 z)

/-- The MD5 nonlinear function H. -/
def H (x y z : Nat) : Nat := x ^^^ y ^^^ z

/-- The MD5 nonlinear function I. -/
def I (x y z : Nat) : Nat := y ^^^ (x ||| not32 z)

/-- The MD5 step function FF; all additions wrap in 32 bits. -/
def FF (a b c d x s ac : Nat) : Nat :=
  (rotate_left32 ((a + F b c d + x + ac) % 2 ^ 32) s + b) % 2 ^ 32

/-- The MD5 step function GG. -/
def GG (a b c d x s ac : Nat) : Nat :=
  (rotate_left32 ((a + G b c d + x + ac) % 2 ^ 32) s + b) % 2 ^ 32

/-- The MD5 step function HH. -/
def HH (a b c d x s ac : Nat) : Nat :=
  (rotate_left32 ((a + H b c d + x + ac) % 2 ^ 32) s + b) % 2 ^ 32

/-- The MD5 step function II. -/
def II (a b c d x s ac : Nat) : Nat :=
  (rotate_left32 ((a + I b c d + x + ac) % 2 ^ 32) s + b) % 2 ^ 32

/-- MD5::decode: little-endian load of 32-bit word `i` from a byte block. -/
def decode_word (block : List Nat) (i : Nat) : Nat :=
  block.getD (4 * i) 0 ||| (block.getD (4 * i + 1) 0 <<< 8) |||
  (block.getD (4 * i + 2) 0 <<< 16) ||| (block.getD (4 * i + 3) 0 <<< 24)

/-- MD5::encode: little-endian serialization of 32-bit words to bytes. -/
def encode_words (ws : List Nat) : List Nat :=
  (ws.map (fun w => [w &&& 0xFF, (w >>> 8) &&& 0xFF, (w >>> 16) &&& 0xFF, (w >>> 24) &&& 0xFF])).flatten

/-- MD5::transform: the four 16-step rounds over one 64-byte block, per
RFC 1321; shift amounts S11..S44 and the sine-derived constants are inlined
from the source. -/
def transform (s0 s1 s2 s3 : Nat) (block : List Nat) : Nat × Nat × Nat × Nat :=
  let x := decode_word block
  let a := s0
  let b := s1
  let c := s2
  let d := s3
  let a := FF a b c d (x 0) 7 0xd76aa478
  let d := FF d a b c (x 1) 12 0xe8c7b756
  let c := FF c d a b (x 2) 17 0x242070db
  let b := FF b c d a (x 3) 22 0xc1bdceee
  let a := FF a b c d (x 4) 7 0xf57c0faf
  let d := FF d a b c (x 5) 12 0x4787c62a
  let c := FF c d a b (x 6) 17 0xa8304613
  let b := FF b c d a (x 7) 22 0xfd469501
  let a := FF a b c d (x 8) 7 0x698098d8
  let d := FF d a b c (x 9) 12 0x8b44f7af
  let c := FF c d a b (x 10) 17 0xffff5bb1
  let b := FF b c d a (x 11) 22 0x895cd7be
  let a := FF a b c d (x 12) 7 0x6b901122
  let d := FF d a b c (x 13) 12 0xfd987193
  let c := FF c d a b (x 14) 17 0xa679438e
  let b := FF b c d a (x 15) 22 0x49b40821
  let a := GG a b c d (x 1) 5 0xf61e2562
  let d := GG d a b c (x 6) 9 0xc040b340
  let c := GG c d a b (x 11) 14 0x265e5a51
  let b := GG b c d a (x 0) 20 0xe9b6c7aa
  let a := GG a b c d (x 5) 5 0xd62f105d
  let d := GG d a b c (x 10) 9 0x2441453
  let c := GG c d a b (x 15) 14 0xd8a1e681
  let b := GG b c d a (x 4) 20 0xe7d3fbc8
  let a := GG a b c d (x 9) 5 0x21e1cde6
  let d := GG d a b c (x 14) 9 0xc33707d6
  let c := GG c d a b (x 3) 14 0xf4d50d87
  let b := GG b c d a (x 8) 20 0x455a14ed
  let a := GG a b c d (x 13) 5 0xa9e3e905
  let d := GG d a b c (x 2) 9 0xfcefa3f8
  let c := GG c d a b (x 7) 14 0x676f02d9
  let b := GG b c d a (x 12) 20 0x8d2a4c8a
  let a := HH a b c d (x 5) 4 0xfffa3942
  let d := HH d a b c (x 8) 11 0x8771f681
  let c := HH c d a b (x 11) 16 0x6d9d6122
  let b := HH b c d a (x 14) 23 0xfde5380c
  let a := HH a b c d (x 1) 4 0xa4beea44
  let d := HH d a b c (x 4) 11 0x4bdecfa9
  let c := HH c d a b (x 7) 16 0xf6bb4b60
  let b := HH b c d a (x 10) 23 0xbebfbc70
  let a := HH a b c d (x 13) 4 0x289b7ec6
  let d := HH d a b c (x 0) 11 0xeaa127fa
  let c := HH c d a b (x 3) 16 0xd4ef3085
  let b := HH b c d a (x 6) 23 0x4881d05
  let a := HH a b c d (x 9) 4 0xd9d4d039
  let d := HH d a b c (x 12) 11 0xe6db99e5
  let c := HH c d a b (x 15) 16 0x1fa27cf8
  let b := HH b c d a (x 2) 23 0xc4ac5665
  let a := II a b c d (x 0) 6 0xf4292244
  let d := II d a b c (x 7) 10 0x432aff97
  let c := II c d a b (x 14) 15 0xab9423a7
  let b := II b c d a (x 5) 21 0xfc93a039
  let a := II a b c d (x 12) 6 0x655b59c3
  let d := II d a b c (x 3) 10 0x8f0ccc92
  let c := II c d a b (x 10) 15 0xffeff47d
  let b := II b c d a (x 1) 21 0x85845dd1
  let a := II a b c d (x 8) 6 0x6fa87e4f
  let d := II d a b c (x 15) 10 0xfe2ce6e0
  let c := II c d a b (x 6) 15 0xa3014314
  let b := II b c d a (x 13) 21 0x4e0811a1
  let a := II a b c d (x 4) 6 0xf7537e82
  let d := II d a b c (x 11) 10 0xbd3af235
  let c := II c d a b (x 2) 15 0x2ad7d2bb
  let b := II b c d a (x 9) 21 0xeb86d391
  ((s0 + a) % 2 ^ 32, (s1 + b) % 2 ^ 32, (s2 + c) % 2 ^ 32, (s3 + d) % 2 ^ 32)

/-- The running MD5 words `_state[0..3]`. -/
structure Core where
  s0 : Nat
  s1 : Nat
  s2 : Nat
  s3 : Nat
deriving Repr, DecidableEq

/-- Apply MD5::transform to a `Core`. -/
def Core.step (core : Core) (block : List Nat) : Core :=
  let pr := transform core.s0 core.s1 core.s2 core.s3 block
  ⟨pr.1, pr.2.1, pr.2.2.1, pr.2.2.2⟩

/-- The loop in `MD5::do_hash` that transforms consecutive full 64-byte
chunks of the input, returning the new state and the leftover bytes.  The
fuel argument (instantiated with the data length, which strictly bounds the
number of iterations) only makes the recursion structural. -/
def chunks_loop : Nat → Core → List Nat → Core × List Nat
  | 0, core, data => (core, data)
  | fuel + 1, core, data =>
    if data.length ≥ 64 then chunks_loop fuel (core.step (data.take 64)) (data.drop 64)
    else (core, data)

/-- The complete per-call state of an `MD5` object. -/
structure State where
  finalized : Bool
  buffer : List Nat
  count0 : Nat
  count1 : Nat
  core : Core
  digest : List Nat
deriving Repr, DecidableEq

/-- MD5::reset: magic initialization constants, zero counters, cleared
buffer.  (`_digest` is uninitialized in the C++ until `finalize_hash` fills
it; it is embedded as zeros and never read before being written.) -/
def reset : State where
  finalized := false
  buffer := []
  count0 := 0
  count1 := 0
  core := ⟨0x67452301, 0xefcdab89, 0x98badcfe, 0x10325476⟩
  digest := List.replicate 16 0

/-- MD5::do_hash.  The bit counter is updated exactly as in the source:
`_count[0] += (length << 3)` truncates the 64-bit product into the 32-bit
low word, the carry test compares that truncated word against the full
64-bit `length << 3`, and `_count[1] += length >> 29` adds the high bits.
Then the buffer is filled to 64 bytes, full chunks are transformed, and the
remainder is buffered. -/
def do_hash (st : State) (input : List Nat) : State :=
  let length := input.length
  let index := st.count0 / 8 % 64
  let shifted := (length <<< 3) % 2 ^ 64
  let c0 := (st.count0 + shifted) % 2 ^ 32
  let c1 := if c0 < shifted then (st.count1 + 1) % 2 ^ 32 else st.count1
  let c1 := (c1 + (length >>> 29)) % 2 ^ 32
  let firstpart := 64 - index
  if length ≥ firstpart then
    let pr := chunks_loop length (st.core.step (st.buffer.take index ++ input.take firstpart))
      (input.drop firstpart)
    { st with count0 := c0, count1 := c1, core := pr.1, buffer := pr.2 }
  else
    { st with count0 := c0, count1 := c1, buffer := st.buffer.take index ++ input }

/-- The static padding array in `MD5::finalize_hash`: `0x80` followed by
zeros. -/
def padding : List Nat := 0x80 :: List.replicate 63 0

/-- MD5::finalize_hash.  When not yet finalized: the bit count is serialized
(little-endian), padding bytes bring the buffer to 56 mod 64, the length is
appended, the state is serialized into `_digest`, the buffer and counters
are zeroized and `_finalized` is latched.  The running state words are NOT
reset.  When already finalized, the cached digest is returned unchanged. -/
def finalize_hash (st : State) : List Nat × State :=
  if st.finalized = false then
    let bits := encode_words [st.count0, st.count1]
    let index := st.count0 / 8 % 64
    let padLen := if index < 56 then 56 - index else 120 - index
    let st1 := do_hash st (padding.take padLen)
    let st2 := do_hash st1 bits
    let digest := encode_words [st2.core.s0, st2.core.s1, st2.core.s2, st2.core.s3]
    (digest, { st2 with
                 buffer := [], count0 := 0, count1 := 0,
                 digest := digest, finalized := true })
  else (st.digest, st)

/-- HashAlgorithm::compute_hash as executed by an MD5 object: one do_hash
call followed by finalize_hash, returning the digest and the object's
state afterwards. -/
def compute_hash (st : State) (input : List Nat) : List Nat × State :=
  finalize_hash (do_hash st input)

end MD5

namespace SHA1

/-- The per-call state of a `SHA1` object: the five running state words,
the overflow-checked bit-length counter (`HashLength64_t`: two 32-bit
words) and the live prefix of `_message_block` (whose length is
`_index`). -/
structure State where
  state : List Nat
  lenHigh : Nat
  lenLow : Nat
  block : List Nat
deriving Repr, DecidableEq

/-- SHA1::reset. -/
def reset : State where
  state := [0x67452301, 0xEFCDAB89, 0x98BADCFE, 0x10325476, 0xC3D2E1F0]
  lenHigh := 0
  lenLow := 0
  block := []

/-- The message-schedule array W of `SHA1::process_message_block`: the
first 16 words are big-endian loads from the block, and words 16..79 are
the XOR-and-rotate-left-1 extension. -/
def schedule (block : List Nat) : List Nat :=
  let w16 := (List.range 16).map (fun i =>
    (block.getD (i * 4) 0 <<< 24) ||| (block.getD (i * 4 + 1) 0 <<< 16) |||
    (block.getD (i * 4 + 2) 0 <<< 8) ||| block.getD (i * 4 + 3) 0)
  (List.range 64).foldl (fun W _ =>
    W ++ [rotate_left32 (W.getD (W.length - 3) 0 ^^^ W.getD (W.length - 8) 0 ^^^
      W.getD (W.length - 14) 0 ^^^ W.getD (W.length - 16) 0) 1]) w16

/-- One step of the four 20-step loops of `SHA1::process_message_block`;
the nonlinear function and constant K are selected by the step index, and
all additions wrap in 32 bits. -/
def step (W : List Nat) (st : Nat × Nat × Nat × Nat × Nat) (i : Nat) :
    Nat × Nat × Nat × Nat × Nat :=
  match st with
  | (a, b, c, d, e) =>
    let f :=
      if i < 20 then HashAlgorithm.SHA_Ch32 b c d
      else if i < 40 then HashAlgorithm.SHA_Parity32 b c d
      else if i < 60 then HashAlgorithm.SHA_Maj32 b c d
      else HashAlgorithm.SHA_Parity32 b c d
    let K :=
      if i < 20 then 0x5A827999
      else if i < 40 then 0x6ED9EBA1
      else if i < 60 then 0x8F1BBCDC
      else 0xCA62C1D6
    let temp := (rotate_left32 a 5 + f + e + W.getD i 0 + K) % 2 ^ 32
    (temp, a, rotate_left32 b 30, c, d)

/-- SHA1::process_message_block: run the 80 steps and add the result into
the state words (wrapping). -/
def process_message_block (state : List Nat) (block : List Nat) : List Nat :=
  let W := schedule block
  let pr := (List.range 80).foldl (step W)
    (state.getD 0 0, state.getD 1 0, state.getD 2 0, state.getD 3 0, state.getD 4 0)
  match pr with
  | (a, b, c, d, e) =>
    [(state.getD 0 0 + a) % 2 ^ 32, (state.getD 1 0 + b) % 2 ^ 32,
     (state.getD 2 0 + c) % 2 ^ 32, (state.getD 3 0 + d) % 2 ^ 32,
     (state.getD 4 0 + e) % 2 ^ 32]

/-- SHA1::do_hash: bytes are appended to the message block one at a time;
each byte increments the overflow-checked length counter (which throws at
its maximum), and a full 64-byte block is transformed. -/
def do_hash : State → List Nat → Except String State
  | st, [] => .ok st
  | st, b :: rest =>
    let block := st.block ++ [b &&& 0xFF]
    match HashAlgorithm.HashLength_inc 32 st.lenHigh st.lenLow with
    | .error e => .error e
    | .ok (h, l) =>
      if block.length = 64 then
        do_hash { state := process_message_block st.state block,
                  lenHigh := h, lenLow := l, block := [] } rest
      else
        do_hash { st with block := block, lenHigh := h, lenLow := l } rest

/-- The big-endian serialization of the length counter written into the
last 8 octets of the final block (each byte truncated to 8 bits). -/
def len_bytes (high low : Nat) : List Nat :=
  [(high >>> 24) &&& 0xFF, (high >>> 16) &&& 0xFF, (high >>> 8) &&& 0xFF, high &&& 0xFF,
   (low >>> 24) &&& 0xFF, (low >>> 16) &&& 0xFF, (low >>> 8) &&& 0xFF, low &&& 0xFF]

/-- SHA1::pad_message: append `0x80`, zero-fill to 56 mod 64 (spilling into
a second block when fewer than 8 bytes remain), write the bit length
big-endian and process; returns the final state words. -/
def pad_message (st : State) : List Nat :=
  if st.block.length ≥ 64 - 8 then
    let s1 := process_message_block st.state
      (st.block ++ 0x80 :: List.replicate (64 - (st.block.length + 1)) 0)
    process_message_block s1 (List.replicate 56 0 ++ len_bytes st.lenHigh st.lenLow)
  else
    process_message_block st.state
      (st.block ++ 0x80 :: List.replicate (56 - (st.block.length + 1)) 0 ++
        len_bytes st.lenHigh st.lenLow)

/-- SHA1::finalize_hash: pad and process the final block(s), extract the
20 digest bytes big-endian, then reset the state. -/
def finalize_hash (st : State) : List Nat × State :=
  let s := pad_message st
  ((List.range 20).map (fun i => (s.getD (i >>> 2) 0 >>> (8 * (3 - (i &&& 0x03)))) &&& 0xFF),
   reset)

/-- HashAlgorithm::compute_hash as executed by a SHA1 object. -/
def compute_hash (st : State) (input : List Nat) : Except String (List Nat × State) :=
  (do_hash st input).map finalize_hash

end SHA1

namespace sha2_32

/-- The per-call state of a `sha2_32` object (SHA-224 / SHA-256): eight
running state words, the `HashLength64_t` counter and the live prefix of
`_message_block`. -/
structure State where
  state : List Nat
  lenHigh : Nat
  lenLow : Nat
  block : List Nat
deriving Repr, DecidableEq

/-- sha2_32::initialize, called by the derived `reset` with the
algorithm-specific initial state words. -/
def init_state (H : List Nat) : State where
  state := H
  lenHigh := 0
  lenLow := 0
  block := []

/-- sha2_32::Sigma0. -/
def Sigma0 (word : Nat) : Nat :=
  rotate_right32 word 2 ^^^ rotate_right32 word 13 ^^^ rotate_right32 word 22

/-- sha2_32::Sigma1. -/
def Sigma1 (word : Nat) : Nat :=
  rotate_right32 word 6 ^^^ rotate_right32 word 11 ^^^ rotate_right32 word 25

/-- sha2_32::sigma0 (lowercase). -/
def sigma0 (word : Nat) : Nat :=
  rotate_right32 word 7 ^^^ rotate_right32 word 18 ^^^ (word >>> 3)

/-- sha2_32::sigma1 (lowercase). -/
def sigma1 (word : Nat) : Nat :=
  rotate_right32 word 17 ^^^ rotate_right32 word 19 ^^^ (word >>> 10)

/-- The 64-entry constant table K of `sha2_32::process_message_block`. -/
def K : List Nat :=
  [0x428a2f98, 0x71374491, 0xb5c0fbcf, 0xe9b5dba5,
   0x3956c25b, 0x59f111f1, 0x923f82a4, 0xab1c5ed5] ++
  [0xd807aa98, 0x12835b01, 0x243185be, 0x550c7dc3,
   0x72be5d74, 0x80deb1fe, 0x9bdc06a7, 0xc19bf174] ++
  [0xe49b69c1, 0xefbe4786, 0x0fc19dc6, 0x240ca1cc,
   0x2de92c6f, 0x4a7484aa, 0x5cb0a9dc, 0x76f988da] ++
  [0x983e5152, 0xa831c66d, 0xb00327c8, 0xbf597fc7,
   0xc6e00bf3, 0xd5a79147, 0x06ca6351, 0x14292967] ++
  [0x27b70a85, 0x2e1b2138, 0x4d2c6dfc, 0x53380d13,
   0x650a7354, 0x766a0abb, 0x81c2c92e, 0x92722c85] ++
  [0xa2bfe8a1, 0xa81a664b, 0xc24b8b70, 0xc76c51a3,
   0xd192e819, 0xd6990624, 0xf40e3585, 0x106aa070] ++
  [0x19a4c116, 0x1e376c08, 0x2748774c, 0x34b0bcb5,
   0x391c0cb3, 0x4ed8aa4a, 0x5b9cca4f, 0x682e6ff3] ++
  [0x748f82ee, 0x78a5636f, 0x84c87814, 0x8cc70208,
   0x90befffa, 0xa4506ceb, 0xbef9a3f7, 0xc67178f2]

/-- The message-schedule array W of `sha2_32::process_message_block`. -/
def schedule (block : List Nat) : List Nat :=
  let w16 := (List.range 16).map (fun i =>
    (block.getD (i * 4) 0 <<< 24) ||| (block.getD (i * 4 + 1) 0 <<< 16) |||
    (block.getD (i * 4 + 2) 0 <<< 8) ||| block.getD (i * 4 + 3) 0)
  (List.range 48).foldl (fun W _ =>
    W ++ [(sigma1 (W.getD (W.length - 2) 0) + W.getD (W.length - 7) 0 +
      sigma0 (W.getD (W.length - 15) 0) + W.getD (W.length - 16) 0) % 2 ^ 32]) w16

/-- One of the 64 steps of `sha2_32::process_message_block`. -/
def step (W : List Nat) (st : Nat × Nat × Nat × Nat × Nat × Nat × Nat × Nat) (t : Nat) :
    Nat × Nat × Nat × Nat × Nat × Nat × Nat × Nat :=
  match st with
  | (a, b, c, d, e, f, g, h) =>
    let temp1 := (h + Sigma1 e + HashAlgorithm.SHA_Ch32 e f g + K.getD t 0 + W.getD t 0) % 2 ^ 32
    let temp2 := (Sigma0 a + HashAlgorithm.SHA_Maj32 a b c) % 2 ^ 32
    ((temp1 + temp2) % 2 ^ 32, a, b, c, (d + temp1) % 2 ^ 32, e, f, g)

/-- sha2_32::process_message_block. -/
def process_message_block (state : List Nat) (block : List Nat) : List Nat :=
  let W := schedule block
  let pr := (List.range 64).foldl (step W)
    (state.getD 0 0, state.getD 1 0, state.getD 2 0, state.getD 3 0,
     state.getD 4 0, state.getD 5 0, state.getD 6 0, state.getD 7 0)
  match pr with
  | (a, b, c, d, e, f, g, h) =>
    [(state.getD 0 0 + a) % 2 ^ 32, (state.getD 1 0 + b) % 2 ^ 32,
     (state.getD 2 0 + c) % 2 ^ 32, (state.getD 3 0 + d) % 2 ^ 32,
     (state.getD 4 0 + e) % 2 ^ 32, (state.getD 5 0 + f) % 2 ^ 32,
     (state.getD 6 0 + g) % 2 ^ 32, (state.getD 7 0 + h) % 2 ^ 32]

/-- sha2_32::do_hash: identical structure to `SHA1::do_hash`. -/
def do_hash : State → List Nat → Except String State
  | st, [] => .ok st
  | st, b :: rest =>
    let block := st.block ++ [b &&& 0xFF]
    match HashAlgorithm.HashLength_inc 32 st.lenHigh st.lenLow with
    | .error e => .error e
    | .ok (h, l) =>
      if block.length = 64 then
        do_hash { state := process_message_block st.state block,
                  lenHigh := h, lenLow := l, block := [] } rest
      else
        do_hash { st with block := block, lenHigh := h, lenLow := l } rest

/-- sha2_32::pad_message: same shape as `SHA1::pad_message`. -/
def pad_message (st : State) : List Nat :=
  if st.block.length ≥ 64 - 8 then
    let s1 := process_message_block st.state
      (st.block ++ 0x80 :: List.replicate (64 - (st.block.length + 1)) 0)
    process_message_block s1 (List.replicate 56 0 ++ SHA1.len_bytes st.lenHigh st.lenLow)
  else
    process_message_block st.state
      (st.block ++ 0x80 :: List.replicate (56 - (st.block.length + 1)) 0 ++
        SHA1.len_bytes st.lenHigh st.lenLow)

/-- sha2_32::finalize_hash: pad, extract `hash_size / 8` digest bytes
big-endian, then reset (to the constants the derived class supplies). -/
def finalize_hash (hash_size : Nat) (H : List Nat) (st : State) : List Nat × State :=
  let s := pad_message st
  ((List.range (hash_size / 8)).map (fun i =>
      (s.getD (i >>> 2) 0 >>> (8 * (3 - (i &&& 0x03)))) &&& 0xFF),
   init_state H)

/-- HashAlgorithm::compute_hash as executed by a sha2_32-derived object
whose hash size is `hash_size` and whose reset constants are `H`. -/
def compute_hash (hash_size : Nat) (H : List Nat) (st : State) (input : List Nat) :
    Except String (List Nat × State) :=
  (do_hash st input).map (finalize_hash hash_size H)

/-- The SHA224 initial state constants. -/
def H224 : List Nat :=
  [0xC1059ED8, 0x367CD507, 0x3070DD17, 0xF70E5939,
   0xFFC00B31, 0x68581511, 0x64F98FA7, 0xBEFA4FA4]

/-- The SHA256 initial state constants. -/
def H256 : List Nat :=
  [0x6A09E667, 0xBB67AE85, 0x3C6EF372, 0xA54FF53A,
   0x510E527F, 0x9B05688C, 0x1F83D9AB, 0x5BE0CD19]

end sha2_32

namespace sha2_64

/-- The per-call state of a `sha2_64` object (SHA-384 / SHA-512): eight
64-bit running state words, the `HashLength128_t` counter (two 64-bit
words) and the live prefix of the 128-byte `_message_block`. -/
structure State where
  state : List Nat
  lenHigh : Nat
  lenLow : Nat
  block : List Nat
deriving Repr, DecidableEq

/-- sha2_64::initialize. -/
def init_state (H : List Nat) : State where
  state := H
  lenHigh := 0
  lenLow := 0
  block := []

/-- sha2_64::Sigma0. -/
def Sigma0 (word : Nat) : Nat :=
  rotate_right64 word 28 ^^^ rotate_right64 word 34 ^^^ rotate_right64 word 39

/-- sha2_64::Sigma1. -/
def Sigma1 (word : Nat) : Nat :=
  rotate_right64 word 14 ^^^ rotate_right64 word 18 ^^^ rotate_right64 word 41

/-- sha2_64::sigma0 (lowercase). -/
def sigma0 (word : Nat) : Nat :=
  rotate_right64 word 1 ^^^ rotate_right64 word 8 ^^^ (word >>> 7)

/-- sha2_64::sigma1 (lowercase). -/
def sigma1 (word : Nat) : Nat :=
  rotate_right64 word 19 ^^^ rotate_right64 word 61 ^^^ (word >>> 6)

/-- The 80-entry constant table K of `sha2_64::process_message_block`. -/
def K : List Nat :=
  [0x428A2F98D728AE22, 0x7137449123EF65CD, 0xB5C0FBCFEC4D3B2F, 0xE9B5DBA58189DBBC,
   0x3956C25BF348B538, 0x59F111F1B605D019, 0x923F82A4AF194F9B, 0xAB1C5ED5DA6D8118] ++
  [0xD807AA98A3030242, 0x12835B0145706FBE, 0x243185BE4EE4B28C, 0x550C7DC3D5FFB4E2,
   0x72BE5D74F27B896F, 0x80DEB1FE3B1696B1, 0x9BDC06A725C71235, 0xC19BF174CF692694] ++
  [0xE49B69C19EF14AD2, 0xEFBE4786384F25E3, 0x0FC19DC68B8CD5B5, 0x240CA1CC77AC9C65,
   0x2DE92C6F592B0275, 0x4A7484AA6EA6E483, 0x5CB0A9DCBD41FBD4, 0x76F988DA831153B5] ++
  [0x983E5152EE66DFAB, 0xA831C66D2DB43210, 0xB00327C898FB213F, 0xBF597FC7BEEF0EE4,
   0xC6E00BF33DA88FC2, 0xD5A79147930AA725, 0x06CA6351E003826F, 0x142929670A0E6E70] ++
  [0x27B70A8546D22FFC, 0x2E1B21385C26C926, 0x4D2C6DFC5AC42AED, 0x53380D139D95B3DF,
   0x650A73548BAF63DE, 0x766A0ABB3C77B2A8, 0x81C2C92E47EDAEE6, 0x92722C851482353B] ++
  [0xA2BFE8A14CF10364, 0xA81A664BBC423001, 0xC24B8B70D0F89791, 0xC76C51A30654BE30,
   0xD192E819D6EF5218, 0xD69906245565A910, 0xF40E35855771202A, 0x106AA07032BBD1B8] ++
  [0x19A4C116B8D2D0C8, 0x1E376C085141AB53, 0x2748774CDF8EEB99, 0x34B0BCB5E19B48A8,
   0x391C0CB3C5C95A63, 0x4ED8AA4AE3418ACB, 0x5B9CCA4F7763E373, 0x682E6FF3D6B2B8A3] ++
  [0x748F82EE5DEFB2FC, 0x78A5636F43172F60, 0x84C87814A1F0AB72, 0x8CC702081A6439EC,
   0x90BEFFFA23631E28, 0xA4506CEBDE82BDE9, 0xBEF9A3F7B2C67915, 0xC67178F2E372532B] ++
  [0xCA273ECEEA26619C, 0xD186B8C721C0C207, 0xEADA7DD6CDE0EB1E, 0xF57D4F7FEE6ED178,
   0x06F067AA72176FBA, 0x0A637DC5A2C898A6, 0x113F9804BEF90DAE, 0x1B710B35131C471B] ++
  [0x28DB77F523047D84, 0x32CAAB7B40C72493, 0x3C9EBE0A15C9BEBC, 0x431D67C49C100D4C,
   0x4CC5D4BECB3E42B6, 0x597F299CFC657E2A, 0x5FCB6FAB3AD6FAEC, 0x6C44198C4A475817]

/-- The message-schedule array W of `sha2_64::process_message_block`:
16 big-endian 64-bit loads extended to 80 words. -/
def schedule (block : List Nat) : List Nat :=
  let w16 := (List.range 16).map (fun i =>
    (block.getD (i * 8) 0 <<< 56) ||| (block.getD (i * 8 + 1) 0 <<< 48) |||
    (block.getD (i * 8 + 2) 0 <<< 40) ||| (block.getD (i * 8 + 3) 0 <<< 32) |||
    (block.getD (i * 8 + 4) 0 <<< 24) ||| (block.getD (i * 8 + 5) 0 <<< 16) |||
    (block.getD (i * 8 + 6) 0 <<< 8) ||| block.getD (i * 8 + 7) 0)
  (List.range 64).foldl (fun W _ =>
    W ++ [(sigma1 (W.getD (W.length - 2) 0) + W.getD (W.length - 7) 0 +
      sigma0 (W.getD (W.length - 15) 0) + W.getD (W.length - 16) 0) % 2 ^ 64]) w16

/-- One of the 80 steps of `sha2_64::process_message_block`. -/
def step (W : List Nat) (st : Nat × Nat × Nat × Nat × Nat × Nat × Nat × Nat) (t : Nat) :
    Nat × Nat × Nat × Nat × Nat × Nat × Nat × Nat :=
  match st with
  | (a, b, c, d, e, f, g, h) =>
    let temp1 := (h + Sigma1 e + HashAlgorithm.SHA_Ch64 e f g + K.getD t 0 + W.getD t 0) % 2 ^ 64
    let temp2 := (Sigma0 a + HashAlgorithm.SHA_Maj64 a b c) % 2 ^ 64
    ((temp1 + temp2) % 2 ^ 64, a, b, c, (d + temp1) % 2 ^ 64, e, f, g)

/-- sha2_64::process_message_block. -/
def process_message_block (state : List Nat) (block : List Nat) : List Nat :=
  let W := schedule block
  let pr := (List.range 80).foldl (step W)
    (state.getD 0 0, state.getD 1 0, state.getD 2 0, state.getD 3 0,
     state.getD 4 0, state.getD 5 0, state.getD 6 0, state.getD 7 0)
  match pr with
  | (a, b, c, d, e, f, g, h) =>
    [(state.getD 0 0 + a) % 2 ^ 64, (state.getD 1 0 + b) % 2 ^ 64,
     (state.getD 2 0 + c) % 2 ^ 64, (state.getD 3 0 + d) % 2 ^ 64,
     (state.getD 4 0 + e) % 2 ^ 64, (state.getD 5 0 + f) % 2 ^ 64,
     (state.getD 6 0 + g) % 2 ^ 64, (state.getD 7 0 + h) % 2 ^ 64]

/-- sha2_64::do_hash: as `SHA1::do_hash`, with a 128-byte block and the
128-bit length counter. -/
def do_hash : State → List Nat → Except String State
  | st, [] => .ok st
  | st, b :: rest =>
    let block := st.block ++ [b &&& 0xFF]
    match HashAlgorithm.HashLength_inc 64 st.lenHigh st.lenLow with
    | .error e => .error e
    | .ok (h, l) =>
      if block.length = 128 then
        do_hash { state := process_message_block st.state block,
                  lenHigh := h, lenLow := l, block := [] } rest
      else
        do_hash { st with block := block, lenHigh := h, lenLow := l } rest

/-- The big-endian serialization of the 128-bit length counter written into
the last 16 octets of the final block. -/
def len_bytes (high low : Nat) : List Nat :=
  [(high >>> 56) &&& 0xFF, (high >>> 48) &&& 0xFF, (high >>> 40) &&& 0xFF, (high >>> 32) &&& 0xFF,
   (high >>> 24) &&& 0xFF, (high >>> 16) &&& 0xFF, (high >>> 8) &&& 0xFF, high &&& 0xFF,
   (low >>> 56) &&& 0xFF, (low >>> 48) &&& 0xFF, (low >>> 40) &&& 0xFF, (low >>> 32) &&& 0xFF,
   (low >>> 24) &&& 0xFF, (low >>> 16) &&& 0xFF, (low >>> 8) &&& 0xFF, low &&& 0xFF]

/-- sha2_64::pad_message: zero-fill to 112 mod 128, write the 16-byte
length, process. -/
def pad_message (st : State) : List Nat :=
  if st.block.length ≥ 128 - 16 then
    let s1 := process_message_block st.state
      (st.block ++ 0x80 :: List.replicate (128 - (st.block.length + 1)) 0)
    process_message_block s1 (List.replicate 112 0 ++ len_bytes st.lenHigh st.lenLow)
  else
    process_message_block st.state
      (st.block ++ 0x80 :: List.replicate (112 - (st.block.length + 1)) 0 ++
        len_bytes st.lenHigh st.lenLow)

/-- sha2_64::finalize_hash: pad, extract `hash_size / 8` digest bytes
big-endian from the 64-bit words, then reset. -/
def finalize_hash (hash_size : Nat) (H : List Nat) (st : State) : List Nat × State :=
  let s := pad_message st
  ((List.range (hash_size / 8)).map (fun i =>
      (s.getD (i >>> 3) 0 >>> (8 * (7 - i % 8))) &&& 0xFF),
   init_state H)

/-- HashAlgorithm::compute_hash as executed by a sha2_64-derived object. -/
def compute_hash (hash_size : Nat) (H : List Nat) (st : State) (input : List Nat) :
    Except String (List Nat × State) :=
  (do_hash st input).map (finalize_hash hash_size H)

/-- The SHA384 initial state constants. -/
def H384 : List Nat :=
  [0xCBBB9D5DC1059ED8, 0x629A292A367CD507, 0x9159015A3070DD17, 0x152FECD8F70E5939,
   0x67332667FFC00B31, 0x8EB44A8768581511, 0xDB0C2E0D64F98FA7, 0x47B5481DBEFA4FA4]

/-- The SHA512 initial state constants. -/
def H512 : List Nat :=
  [0x6A09E667F3BCC908, 0xBB67AE8584CAA73B, 0x3C6EF372FE94F82B, 0xA54FF53A5F1D36F1,
   0x510E527FADE682D1, 0x9B05688C2B3E6C1F, 0x1F83D9ABFB41BD6B, 0x5BE0CD19137E2179]

end sha2_64

end Brace



namespace Brace

/-! ### Arithmetic readings of the machine bit operations

The codec sources pack and unpack bit fields with `&`, `|`, `<<` and `>>`.
The following lemmas restate those operations over `Nat` as division,
remainder, multiplication and addition, which is the form the round-trip
arguments use. -/

theorem lor_eq_add {k a b : Nat} (ha : a % 2 ^ k = 0) (hb : b < 2 ^ k) :
    a ||| b = a + b := by
  obtain ⟨q, rfl⟩ := Nat.dvd_of_mod_eq_zero ha
  exact (Nat.mul_add_lt_is_or hb q).symm

theorem shiftLeft_lor_eq_add {b : Nat} (a k : Nat) (hb : b < 2 ^ k) :
    (a <<< k) ||| b = a * 2 ^ k + b := by
  rw [Nat.shiftLeft_eq]
  exact lor_eq_add (Nat.mul_mod_left a (2 ^ k)) hb

theorem land_shiftLeft_shiftRight (x m k : Nat) :
    (x &&& (m <<< k)) >>> k = (x >>> k) &&& m := by
  apply Nat.eq_of_testBit_eq
  intro i
  have h1 : k + i - k = i := by omega
  have h2 : k ≤ k + i := by omega
  simp [Nat.testBit_and, Nat.testBit_shiftRight, Nat.testBit_shiftLeft, h1, h2]

theorem masked_shift (x k j : Nat) :
    (x &&& ((2 ^ j - 1) <<< k)) >>> k = x / 2 ^ k % 2 ^ j := by
  rw [land_shiftLeft_shiftRight, Nat.shiftRight_eq_div_pow,
    Nat.and_pow_two_sub_one_eq_mod]

theorem land1 (x : Nat) : x &&& 1 = x % 2 := Nat.and_one_is_mod x

theorem land3 (x : Nat) : x &&& 3 = x % 4 := by
  simpa using Nat.and_pow_two_sub_one_eq_mod x 2

theorem land7 (x : Nat) : x &&& 7 = x % 8 := by
  simpa using Nat.and_pow_two_sub_one_eq_mod x 3

theorem land15 (x : Nat) : x &&& 15 = x % 16 := by
  simpa using Nat.and_pow_two_sub_one_eq_mod x 4

theorem land31 (x : Nat) : x &&& 31 = x % 32 := by
  simpa using Nat.and_pow_two_sub_one_eq_mod x 5

theorem land63 (x : Nat) : x &&& 63 = x % 64 := by
  simpa using Nat.and_pow_two_sub_one_eq_mod x 6

theorem land255 (x : Nat) : x &&& 255 = x % 256 := by
  simpa using Nat.and_pow_two_sub_one_eq_mod x 8

theorem shr1 (x : Nat) : x >>> 1 = x / 2 := by
  simpa using Nat.shiftRight_eq_div_pow x 1

theorem shr2 (x : Nat) : x >>> 2 = x / 4 := by
  simpa using Nat.shiftRight_eq_div_pow x 2

theorem shr3 (x : Nat) : x >>> 3 = x / 8 := by
  simpa using Nat.shiftRight_eq_div_pow x 3

theorem shr4 (x : Nat) : x >>> 4 = x / 16 := by
  simpa using Nat.shiftRight_eq_div_pow x 4

theorem shr8 (x : Nat) : x >>> 8 = x / 256 := by
  simpa using Nat.shiftRight_eq_div_pow x 8

theorem shr16 (x : Nat) : x >>> 16 = x / 65536 := by
  simpa using Nat.shiftRight_eq_div_pow x 16

theorem shr24 (x : Nat) : x >>> 24 = x / 16777216 := by
  simpa using Nat.shiftRight_eq_div_pow x 24

theorem shr32 (x : Nat) : x >>> 32 = x / 4294967296 := by
  simpa using Nat.shiftRight_eq_div_pow x 32

theorem shl_mask192 (x : Nat) : (x &&& 0xC0) >>> 6 = x / 64 % 4 := by
  simpa using masked_shift x 6 2

theorem shl_mask240 (x : Nat) : (x &&& 0xF0) >>> 4 = x / 16 % 16 := by
  simpa using masked_shift x 4 4

theorem shl_mask62 (x : Nat) : (x &&& 0x3E) >>> 1 = x / 2 % 32 := by
  simpa using masked_shift x 1 5

theorem shl_mask128 (x : Nat) : (x &&& 0x80) >>> 7 = x / 128 % 2 := by
  simpa using masked_shift x 7 1

theorem shl_mask124 (x : Nat) : (x &&& 0x7C) >>> 2 = x / 4 % 32 := by
  simpa using masked_shift x 2 5

theorem shl_mask224 (x : Nat) : (x &&& 0xE0) >>> 5 = x / 32 % 8 := by
  simpa using masked_shift x 5 3

/-- Inversion of `Except.map` on a success value. -/
theorem except_map_ok {e : Type} {a b : Type} (f : a → b) (x : Except e a) (v : b) :
    x.map f = .ok v ↔ ∃ u, x = .ok u ∧ f u = v := by
  cases x <;> simp [Except.map]

/-! ### Base16 round-trip -/

theorem base16_valid_alpha {v : Nat} (hv : v < 16) :
    Base16.is_valid_character (Base16.alphabet.getD v ' ') = true := by
  interval_cases v <;> decide

theorem base16_get_index_alpha {v : Nat} (hv : v < 16) :
    Base16.get_index (Base16.alphabet.getD v ' ') = v := by
  interval_cases v <;> decide

theorem base16_newline_invalid : Base16.is_valid_character '\n' = false := by decide

theorem base16_step_acc {c : Char} (hc : Base16.is_valid_character c = true)
    {duo : List Char} (hd : duo.length ≠ 1) (hn : Bool) (rest : List Char) (l pos : Nat) :
    Base16.do_decode hn (c :: rest) duo l pos = Base16.do_decode hn rest [c] l pos := by
  rw [Base16.do_decode]
  simp [hc, hd]

theorem base16_step_second {c : Char} (hc : Base16.is_valid_character c = true)
    (hn : Bool) (c0 : Char) (rest : List Char) (l pos : Nat) :
    Base16.do_decode hn (c :: rest) [c0] l pos =
      (Base16.do_decode hn rest [] l pos).map
        ((((Base16.get_index c0) <<< 4 ||| (Base16.get_index c &&& 0x0F)) % 256) :: ·) := by
  rw [Base16.do_decode]
  simp [hc]

theorem base16_step_newline (rest : List Char) (duo : List Char) (l pos : Nat) :
    Base16.do_decode true ('\n' :: rest) duo l pos =
      Base16.do_decode true rest duo (l + 1) 0 := by
  rw [Base16.do_decode]
  simp [base16_newline_invalid]

theorem base16_step_invalid {c : Char} (hc : Base16.is_valid_character c = false)
    (hnl : c ≠ '\n') (rest : List Char) (duo : List Char) (l pos : Nat) :
    Base16.do_decode true (c :: rest) duo l pos = .error ⟨l, pos, "Invalid character"⟩ := by
  rw [Base16.do_decode]
  simp [hc, hnl]

/-- Decoding the raw symbol stream of `Base16::do_encode` recovers the
input bytes, from any line/position state and for both newline flags. -/
theorem base16_decode_encode_symbols :
    ∀ bytes : List Nat, (∀ b ∈ bytes, b < 256) → ∀ (hn : Bool) (l pos : Nat),
      Base16.do_decode hn (Base16.encode_symbols bytes) [] l pos = .ok bytes := by
  intro bytes
  induction bytes with
  | nil => intro _ _ _ _; rfl
  | cons b rest ih =>
    intro h hn l pos
    have hb : b < 256 := h b (by simp)
    have hhi : (b >>> 4) &&& 0x0F = b / 16 % 16 := by rw [shr4, land15]
    have hlo : b &&& 0x0F = b % 16 := land15 b
    rw [Base16.encode_symbols]
    rw [base16_step_acc (by rw [hhi]; exact base16_valid_alpha (by omega)) (by simp)]
    rw [base16_step_second (by rw [hlo]; exact base16_valid_alpha (by omega))]
    rw [ih (fun x hx => h x (by simp [hx])) hn l pos]
    have hv : Base16.get_index (Base16.alphabet.getD ((b >>> 4) &&& 0x0F) ' ') <<< 4 |||
        (Base16.get_index (Base16.alphabet.getD (b &&& 0x0F) ' ') &&& 0x0F) = b := by
      rw [hhi, hlo, base16_get_index_alpha (by omega), base16_get_index_alpha (by omega),
        land15, shiftLeft_lor_eq_add _ _ (by omega)]
      omega
    simp only [Except.map]
    rw [hv, Nat.mod_eq_of_lt hb]

/-- A successful Base16 decode is preserved by inserting the line wraps of
the encoder's `output` lambda (when newline handling is on), and its
success value does not depend on the line/position state. -/
theorem base16_decode_wrap :
    ∀ (s : List Char) (duo : List Char) (v : List Nat) (l1 p1 w q l2 p2 : Nat),
      Base16.do_decode true s duo l1 p1 = .ok v →
      Base16.do_decode true (wrap_newlines w q s) duo l2 p2 = .ok v := by
  intro s
  induction s with
  | nil =>
    intro duo v l1 p1 w q l2 p2 hok
    rw [wrap_newlines]
    rw [Base16.do_decode] at hok ⊢
    by_cases hd : duo.length ≠ 0
    · simp [hd] at hok
    · simp [hd] at hok ⊢
      exact hok
  | cons c rest ih =>
    intro duo v l1 p1 w q l2 p2 hok
    rw [wrap_newlines]
    by_cases hc : Base16.is_valid_character c = true
    · by_cases hd : duo.length = 1
      · obtain ⟨c0, rfl⟩ := List.length_eq_one.mp hd
        rw [base16_step_second hc, except_map_ok] at hok
        obtain ⟨u, hu, hv⟩ := hok
        by_cases hw : w ≠ 0 ∧ q + 1 = w
        · rw [if_pos hw, base16_step_second hc, base16_step_newline, except_map_ok]
          exact ⟨u, ih [] u l1 p1 w 0 (l2 + 1) 0 hu, hv⟩
        · rw [if_neg hw, base16_step_second hc, except_map_ok]
          exact ⟨u, ih [] u l1 p1 w (q + 1) l2 p2 hu, hv⟩
      · rw [base16_step_acc hc hd] at hok
        by_cases hw : w ≠ 0 ∧ q + 1 = w
        · rw [if_pos hw, base16_step_acc hc hd, base16_step_newline]
          exact ih [c] v l1 p1 w 0 (l2 + 1) 0 hok
        · rw [if_neg hw, base16_step_acc hc hd]
          exact ih [c] v l1 p1 w (q + 1) l2 p2 hok
    · have hc' : Base16.is_valid_character c = false := by
        exact Bool.not_eq_true _ ▸ (by simpa using hc)
      by_cases hnl : c = '\n'
      · subst hnl
        rw [base16_step_newline] at hok
        by_cases hw : w ≠ 0 ∧ q + 1 = w
        · rw [if_pos hw, base16_step_newline, base16_step_newline]
          exact ih duo v (l1 + 1) 0 w 0 (l2 + 2) 0 hok
        · rw [if_neg hw, base16_step_newline]
          exact ih duo v (l1 + 1) 0 w (q + 1) (l2 + 1) 0 hok
      · rw [base16_step_invalid hc' hnl] at hok
        exact absurd hok (by simp)

/-- With `wrapat = 0` the wrapping `output` lambda is the identity. -/
theorem wrap_newlines_zero : ∀ (s : List Char) (q : Nat), wrap_newlines 0 q s = s := by
  intro s
  induction s with
  | nil => intro q; rfl
  | cons c rest ih => intro q; rw [wrap_newlines]; simp [ih]

/-! ### Base32 round-trip -/

theorem b32_step_acc {p : Base32Base.Params} {c : Char}
    (hv : p.is_valid_character c = true) {eights : List Char} (h7 : eights.length ≠ 7)
    (hn : Bool) (rest : List Char) (l pos : Nat) :
    Base32Base.do_decode p hn (c :: rest) eights l pos 0 =
      Base32Base.do_decode p hn rest (eights ++ [c]) l (pos + 1) 0 := by
  rw [Base32Base.do_decode]
  simp [hv, h7]

theorem b32_step_flush {p : Base32Base.Params} {c : Char}
    (hv : p.is_valid_character c = true) {eights : List Char} (h7 : eights.length = 7)
    (hn : Bool) (rest : List Char) (l pos : Nat) :
    Base32Base.do_decode p hn (c :: rest) eights l pos 0 =
      (Base32Base.do_decode p hn rest [] l (pos + 1) 0).map
        (Base32Base.decode_eights p (eights ++ [c]) ++ ·) := by
  rw [Base32Base.do_decode]
  simp [hv, h7]

theorem b32_step_newline {p : Base32Base.Params}
    (hnl : p.is_valid_character '\n' = false) (rest : List Char) (eights : List Char)
    (l pos pad : Nat) :
    Base32Base.do_decode p true ('\n' :: rest) eights l pos pad =
      Base32Base.do_decode p true rest eights (l + 1) 1 pad := by
  rw [Base32Base.do_decode]
  simp [hnl]

theorem b32_step_pad {p : Base32Base.Params}
    (heq : p.is_valid_character '=' = false) {pad : Nat} (hpad : pad + 1 ≤ 6)
    (hn : Bool) (rest : List Char) (eights : List Char) (l pos : Nat) :
    Base32Base.do_decode p hn ('=' :: rest) eights l pos pad =
      Base32Base.do_decode p hn rest eights l (pos + 1) (pad + 1) := by
  rw [Base32Base.do_decode]
  simp [heq, hpad]

theorem b32_step_pad7 {p : Base32Base.Params}
    (heq : p.is_valid_character '=' = false) (hn : Bool) (rest : List Char)
    (eights : List Char) (l pos : Nat) :
    Base32Base.do_decode p hn ('=' :: rest) eights l pos 6 =
      .error ⟨l, pos, "Invalid character"⟩ := by
  rw [Base32Base.do_decode]
  simp [heq]

theorem b32_step_mixed_pad {p : Base32Base.Params} {c : Char}
    (hv : p.is_valid_character c = true) {pad : Nat} (hpad : pad ≠ 0)
    (hn : Bool) (rest : List Char) (eights : List Char) (l pos : Nat) :
    Base32Base.do_decode p hn (c :: rest) eights l pos pad =
      .error ⟨l, pos, "Invalid character"⟩ := by
  rw [Base32Base.do_decode]
  simp [hv, hpad]

theorem b32_step_invalid {p : Base32Base.Params} {c : Char}
    (hv : p.is_valid_character c = false) (hnl : c ≠ '\n') (heq : c ≠ '=')
    (hn : Bool) (rest : List Char) (eights : List Char) (l pos pad : Nat) :
    Base32Base.do_decode p hn (c :: rest) eights l pos pad =
      .error ⟨l, pos, "Invalid character"⟩ := by
  rw [Base32Base.do_decode]
  simp [hv, hnl, heq]

/-- Value of `Base32Base::decode_eights` on eight characters with known
5-bit table entries: the packed 40-bit accumulator splits into five
bytes. -/
theorem decode_eights_val (p : Base32Base.Params) (c0 c1 c2 c3 c4 c5 c6 c7 : Char)
    (u0 u1 u2 u3 u4 u5 u6 u7 : Nat)
    (h0 : p.decode_table.getD c0.toNat 0x64 = u0)
    (h1 : p.decode_table.getD c1.toNat 0x64 = u1)
    (h2 : p.decode_table.getD c2.toNat 0x64 = u2)
    (h3 : p.decode_table.getD c3.toNat 0x64 = u3)
    (h4 : p.decode_table.getD c4.toNat 0x64 = u4)
    (h5 : p.decode_table.getD c5.toNat 0x64 = u5)
    (h6 : p.decode_table.getD c6.toNat 0x64 = u6)
    (h7 : p.decode_table.getD c7.toNat 0x64 = u7)
    (w0 : u0 < 32) (w1 : u1 < 32) (w2 : u2 < 32) (w3 : u3 < 32)
    (w4 : u4 < 32) (w5 : u5 < 32) (w6 : u6 < 32) (w7 : u7 < 32) :
    Base32Base.decode_eights p [c0, c1, c2, c3, c4, c5, c6, c7] =
      [(u0 * 2 ^ 35 + u1 * 2 ^ 30 + u2 * 2 ^ 25 + u3 * 2 ^ 20 + u4 * 2 ^ 15 +
          u5 * 2 ^ 10 + u6 * 2 ^ 5 + u7) / 2 ^ 32 % 256,
       (u0 * 2 ^ 35 + u1 * 2 ^ 30 + u2 * 2 ^ 25 + u3 * 2 ^ 20 + u4 * 2 ^ 15 +
          u5 * 2 ^ 10 + u6 * 2 ^ 5 + u7) / 2 ^ 24 % 256,
       (u0 * 2 ^ 35 + u1 * 2 ^ 30 + u2 * 2 ^ 25 + u3 * 2 ^ 20 + u4 * 2 ^ 15 +
          u5 * 2 ^ 10 + u6 * 2 ^ 5 + u7) / 2 ^ 16 % 256,
       (u0 * 2 ^ 35 + u1 * 2 ^ 30 + u2 * 2 ^ 25 + u3 * 2 ^ 20 + u4 * 2 ^ 15 +
          u5 * 2 ^ 10 + u6 * 2 ^ 5 + u7) / 2 ^ 8 % 256,
       (u0 * 2 ^ 35 + u1 * 2 ^ 30 + u2 * 2 ^ 25 + u3 * 2 ^ 20 + u4 * 2 ^ 15 +
          u5 * 2 ^ 10 + u6 * 2 ^ 5 + u7) % 256] := by
  have key : (p.decode_table.getD c0.toNat 0x64 <<< 35) |||
      (p.decode_table.getD c1.toNat 0x64 <<< 30) |||
      (p.decode_table.getD c2.toNat 0x64 <<< 25) |||
      (p.decode_table.getD c3.toNat 0x64 <<< 20) |||
      (p.decode_table.getD c4.toNat 0x64 <<< 15) |||
      (p.decode_table.getD c5.toNat 0x64 <<< 10) |||
      (p.decode_table.getD c6.toNat 0x64 <<< 5) |||
      p.decode_table.getD c7.toNat 0x64 =
      u0 * 2 ^ 35 + u1 * 2 ^ 30 + u2 * 2 ^ 25 + u3 * 2 ^ 20 + u4 * 2 ^ 15 +
        u5 * 2 ^ 10 + u6 * 2 ^ 5 + u7 := by
    rw [h0, h1, h2, h3, h4, h5, h6, h7]
    simp only [Nat.shiftLeft_eq]
    have e1 : u0 * 2 ^ 35 ||| u1 * 2 ^ 30 = u0 * 2 ^ 35 + u1 * 2 ^ 30 :=
      lor_eq_add (k := 35) (by omega) (by omega)
    rw [e1]
    have e2 : u0 * 2 ^ 35 + u1 * 2 ^ 30 ||| u2 * 2 ^ 25 =
        u0 * 2 ^ 35 + u1 * 2 ^ 30 + u2 * 2 ^ 25 :=
      lor_eq_add (k := 30) (by omega) (by omega)
    rw [e2]
    have e3 : u0 * 2 ^ 35 + u1 * 2 ^ 30 + u2 * 2 ^ 25 ||| u3 * 2 ^ 20 =
        u0 * 2 ^ 35 + u1 * 2 ^ 30 + u2 * 2 ^ 25 + u3 * 2 ^ 20 :=
      lor_eq_add (k := 25) (by omega) (by omega)
    rw [e3]
    have e4 : u0 * 2 ^ 35 + u1 * 2 ^ 30 + u2 * 2 ^ 25 + u3 * 2 ^ 20 ||| u4 * 2 ^ 15 =
        u0 * 2 ^ 35 + u1 * 2 ^ 30 + u2 * 2 ^ 25 + u3 * 2 ^ 20 + u4 * 2 ^ 15 :=
      lor_eq_add (k := 20) (by omega) (by omega)
    rw [e4]
    have e5 : u0 * 2 ^ 35 + u1 * 2 ^ 30 + u2 * 2 ^ 25 + u3 * 2 ^ 20 + u4 * 2 ^ 15 |||
        u5 * 2 ^ 10 =
        u0 * 2 ^ 35 + u1 * 2 ^ 30 + u2 * 2 ^ 25 + u3 * 2 ^ 20 + u4 * 2 ^ 15 + u5 * 2 ^ 10 :=
      lor_eq_add (k := 15) (by omega) (by omega)
    rw [e5]
    have e6 : u0 * 2 ^ 35 + u1 * 2 ^ 30 + u2 * 2 ^ 25 + u3 * 2 ^ 20 + u4 * 2 ^ 15 +
        u5 * 2 ^ 10 ||| u6 * 2 ^ 5 =
        u0 * 2 ^ 35 + u1 * 2 ^ 30 + u2 * 2 ^ 25 + u3 * 2 ^ 20 + u4 * 2 ^ 15 + u5 * 2 ^ 10 +
          u6 * 2 ^ 5 :=
      lor_eq_add (k := 10) (by omega) (by omega)
    rw [e6]
    have e7 : u0 * 2 ^ 35 + u1 * 2 ^ 30 + u2 * 2 ^ 25 + u3 * 2 ^ 20 + u4 * 2 ^ 15 +
        u5 * 2 ^ 10 + u6 * 2 ^ 5 ||| u7 =
        u0 * 2 ^ 35 + u1 * 2 ^ 30 + u2 * 2 ^ 25 + u3 * 2 ^ 20 + u4 * 2 ^ 15 + u5 * 2 ^ 10 +
          u6 * 2 ^ 5 + u7 :=
      lor_eq_add (k := 5) (by omega) (by omega)
    rw [e7]
  dsimp only [Base32Base.decode_eights]
  simp only [List.getD_cons_zero, List.getD_cons_succ]
  rw [key, shr32, shr24, shr16, shr8, land255, land255, land255, land255, land255]
  norm_num

theorem b32_step_done (p : Base32Base.Params) (hn : Bool) (eights : List Char)
    (l pos pad : Nat) :
    Base32Base.do_decode p hn [] eights l pos pad = Base32Base.decode_leftover p eights := rfl

theorem b32_leftover_two (p : Base32Base.Params) (c0 c1 : Char) :
    Base32Base.decode_leftover p [c0, c1] =
      .ok ((Base32Base.decode_eights p [c0, c1, 'A', 'A', 'A', 'A', 'A', 'A']).take 1) := rfl

theorem b32_leftover_four (p : Base32Base.Params) (c0 c1 c2 c3 : Char) :
    Base32Base.decode_leftover p [c0, c1, c2, c3] =
      .ok ((Base32Base.decode_eights p [c0, c1, c2, c3, 'A', 'A', 'A', 'A']).take 2) := rfl

theorem b32_leftover_five (p : Base32Base.Params) (c0 c1 c2 c3 c4 : Char) :
    Base32Base.decode_leftover p [c0, c1, c2, c3, c4] =
      .ok ((Base32Base.decode_eights p [c0, c1, c2, c3, c4, 'A', 'A', 'A']).take 3) := rfl

theorem b32_leftover_seven (p : Base32Base.Params) (c0 c1 c2 c3 c4 c5 c6 : Char) :
    Base32Base.decode_leftover p [c0, c1, c2, c3, c4, c5, c6] =
      .ok ((Base32Base.decode_eights p [c0, c1, c2, c3, c4, c5, c6, 'A']).take 4) := rfl

theorem except_map_ok_val {e a b : Type} (f : a → b) (x : a) :
    (Except.ok x : Except e a).map f = .ok (f x) := rfl

theorem byte_extract (k q b r : Nat) {S : Nat} (hb : b < 256) (hr : r < 2 ^ k)
    (hS : S = (q * 2 ^ 8 + b) * 2 ^ k + r) : S / 2 ^ k % 256 = b := by
  have h2 : (q * 2 ^ 8 + b) * 2 ^ k + r = r + 2 ^ k * (q * 2 ^ 8 + b) := by ring
  rw [hS, h2, Nat.add_mul_div_left _ _ (pow_pos (by norm_num) k), Nat.div_eq_of_lt hr]
  omega

theorem byte_extract0 (q b : Nat) {S : Nat} (hb : b < 256) (hS : S = q * 2 ^ 8 + b) :
    S % 256 = b := by
  subst hS
  omega

theorem b32_sum_bytes (u0 u1 u2 u3 u4 u5 u6 u7 : Nat)
    (w0 : u0 < 32) (w1 : u1 < 32) (w2 : u2 < 32) (w3 : u3 < 32)
    (w4 : u4 < 32) (w5 : u5 < 32) (w6 : u6 < 32) (w7 : u7 < 32) :
    (u0 * 2 ^ 35 + u1 * 2 ^ 30 + u2 * 2 ^ 25 + u3 * 2 ^ 20 + u4 * 2 ^ 15 +
        u5 * 2 ^ 10 + u6 * 2 ^ 5 + u7) / 2 ^ 32 % 256 = u0 * 8 + u1 / 4 ∧
    (u0 * 2 ^ 35 + u1 * 2 ^ 30 + u2 * 2 ^ 25 + u3 * 2 ^ 20 + u4 * 2 ^ 15 +
        u5 * 2 ^ 10 + u6 * 2 ^ 5 + u7) / 2 ^ 24 % 256 = u1 % 4 * 64 + u2 * 2 + u3 / 16 ∧
    (u0 * 2 ^ 35 + u1 * 2 ^ 30 + u2 * 2 ^ 25 + u3 * 2 ^ 20 + u4 * 2 ^ 15 +
        u5 * 2 ^ 10 + u6 * 2 ^ 5 + u7) / 2 ^ 16 % 256 = u3 % 16 * 16 + u4 / 2 ∧
    (u0 * 2 ^ 35 + u1 * 2 ^ 30 + u2 * 2 ^ 25 + u3 * 2 ^ 20 + u4 * 2 ^ 15 +
        u5 * 2 ^ 10 + u6 * 2 ^ 5 + u7) / 2 ^ 8 % 256 = u4 % 2 * 128 + u5 * 4 + u6 / 8 ∧
    (u0 * 2 ^ 35 + u1 * 2 ^ 30 + u2 * 2 ^ 25 + u3 * 2 ^ 20 + u4 * 2 ^ 15 +
        u5 * 2 ^ 10 + u6 * 2 ^ 5 + u7) % 256 = u6 % 8 * 32 + u7 := by
  refine ⟨?_, ?_, ?_, ?_, ?_⟩
  · exact byte_extract 32 0 (u0 * 8 + u1 / 4)
      (u1 % 4 * 2 ^ 30 + u2 * 2 ^ 25 + u3 * 2 ^ 20 + u4 * 2 ^ 15 + u5 * 2 ^ 10 +
        u6 * 2 ^ 5 + u7) (by omega) (by omega) (by omega)
  · exact byte_extract 24 (u0 * 8 + u1 / 4) (u1 % 4 * 64 + u2 * 2 + u3 / 16)
      (u3 % 16 * 2 ^ 20 + u4 * 2 ^ 15 + u5 * 2 ^ 10 + u6 * 2 ^ 5 + u7)
      (by omega) (by omega) (by omega)
  · exact byte_extract 16 (u0 * 2 ^ 11 + u1 * 2 ^ 6 + u2 * 2 + u3 / 16)
      (u3 % 16 * 16 + u4 / 2) (u4 % 2 * 2 ^ 15 + u5 * 2 ^ 10 + u6 * 2 ^ 5 + u7)
      (by omega) (by omega) (by omega)
  · exact byte_extract 8 (u0 * 2 ^ 19 + u1 * 2 ^ 14 + u2 * 2 ^ 9 + u3 * 2 ^ 4 + u4 / 2)
      (u4 % 2 * 128 + u5 * 4 + u6 / 8) (u6 % 8 * 2 ^ 5 + u7)
      (by omega) (by omega) (by omega)
  · exact byte_extract0
      (u0 * 2 ^ 27 + u1 * 2 ^ 22 + u2 * 2 ^ 17 + u3 * 2 ^ 12 + u4 * 2 ^ 7 + u5 * 2 ^ 2 + u6 / 8)
      (u6 % 8 * 32 + u7) (by omega) (by omega)


set_option maxHeartbeats 1000000 in
theorem b32_eights_full {p : Base32Base.Params}
    (hinv : ∀ i, i < 32 → p.decode_table.getD (p.alphabet.getD i ' ').toNat 0x64 = i)
    (b0 b1 b2 b3 b4 : Nat) (hb0 : b0 < 256) (hb1 : b1 < 256) (hb2 : b2 < 256)
    (hb3 : b3 < 256) (hb4 : b4 < 256) :
    Base32Base.decode_eights p
      [p.alphabet.getD ((b0 >>> 3) &&& 0x1F) ' ',
       p.alphabet.getD (((b0 &&& 0x07) <<< 2) ||| ((b1 &&& 0xC0) >>> 6)) ' ',
       p.alphabet.getD ((b1 &&& 0x3E) >>> 1) ' ',
       p.alphabet.getD (((b1 &&& 0x01) <<< 4) ||| ((b2 &&& 0xF0) >>> 4)) ' ',
       p.alphabet.getD (((b2 &&& 0x0F) <<< 1) ||| ((b3 &&& 0x80) >>> 7)) ' ',
       p.alphabet.getD ((b3 &&& 0x7C) >>> 2) ' ',
       p.alphabet.getD (((b3 &&& 0x03) <<< 3) ||| ((b4 &&& 0xE0) >>> 5)) ' ',
       p.alphabet.getD (b4 &&& 0x1F) ' '] = [b0, b1, b2, b3, b4] := by
  have hs0 : (b0 >>> 3) &&& 0x1F = b0 / 8 % 32 := by rw [shr3, land31]
  have hs1 : ((b0 &&& 0x07) <<< 2) ||| ((b1 &&& 0xC0) >>> 6) =
      b0 % 8 * 2 ^ 2 + b1 / 64 % 4 := by
    rw [land7, shl_mask192, Nat.shiftLeft_eq]
    exact lor_eq_add (k := 2) (by omega) (by omega)
  have hs2 : (b1 &&& 0x3E) >>> 1 = b1 / 2 % 32 := shl_mask62 b1
  have hs3 : ((b1 &&& 0x01) <<< 4) ||| ((b2 &&& 0xF0) >>> 4) =
      b1 % 2 * 2 ^ 4 + b2 / 16 % 16 := by
    rw [land1, shl_mask240, Nat.shiftLeft_eq]
    exact lor_eq_add (k := 4) (by omega) (by omega)
  have hs4 : ((b2 &&& 0x0F) <<< 1) ||| ((b3 &&& 0x80) >>> 7) =
      b2 % 16 * 2 ^ 1 + b3 / 128 % 2 := by
    rw [land15, shl_mask128, Nat.shiftLeft_eq]
    exact lor_eq_add (k := 1) (by omega) (by omega)
  have hs5 : (b3 &&& 0x7C) >>> 2 = b3 / 4 % 32 := shl_mask124 b3
  have hs6 : ((b3 &&& 0x03) <<< 3) ||| ((b4 &&& 0xE0) >>> 5) =
      b3 % 4 * 2 ^ 3 + b4 / 32 % 8 := by
    rw [land3, shl_mask224, Nat.shiftLeft_eq]
    exact lor_eq_add (k := 3) (by omega) (by omega)
  have hs7 : b4 &&& 0x1F = b4 % 32 := land31 b4
  rw [decode_eights_val p _ _ _ _ _ _ _ _
    (b0 / 8 % 32) (b0 % 8 * 2 ^ 2 + b1 / 64 % 4) (b1 / 2 % 32)
    (b1 % 2 * 2 ^ 4 + b2 / 16 % 16) (b2 % 16 * 2 ^ 1 + b3 / 128 % 2) (b3 / 4 % 32)
    (b3 % 4 * 2 ^ 3 + b4 / 32 % 8) (b4 % 32)
    (by rw [hs0]; exact hinv _ (by omega)) (by rw [hs1]; exact hinv _ (by omega))
    (by rw [hs2]; exact hinv _ (by omega)) (by rw [hs3]; exact hinv _ (by omega))
    (by rw [hs4]; exact hinv _ (by omega)) (by rw [hs5]; exact hinv _ (by omega))
    (by rw [hs6]; exact hinv _ (by omega)) (by rw [hs7]; exact hinv _ (by omega))
    (by omega) (by omega) (by omega) (by omega) (by omega) (by omega) (by omega)
    (by omega)]
  clear hs0 hs1 hs2 hs3 hs4 hs5 hs6 hs7
  obtain ⟨d0, d1, d2, d3, d4⟩ := b32_sum_bytes (b0 / 8 % 32)
    (b0 % 8 * 2 ^ 2 + b1 / 64 % 4) (b1 / 2 % 32) (b1 % 2 * 2 ^ 4 + b2 / 16 % 16)
    (b2 % 16 * 2 ^ 1 + b3 / 128 % 2) (b3 / 4 % 32) (b3 % 4 * 2 ^ 3 + b4 / 32 % 8)
    (b4 % 32)
    (by omega) (by omega) (by omega) (by omega) (by omega) (by omega) (by omega)
    (by omega)
  rw [d0, d1, d2, d3, d4]
  clear d0 d1 d2 d3 d4
  simp only [List.cons.injEq, and_true]
  refine ⟨by omega, by omega, by omega, by omega, by omega⟩

theorem b32_eights_one {p : Base32Base.Params}
    (hinv : ∀ i, i < 32 → p.decode_table.getD (p.alphabet.getD i ' ').toNat 0x64 = i)
    (hA : p.decode_table.getD ('A'.toNat) 0x64 < 32) (b0 : Nat) (hb0 : b0 < 256) :
    (Base32Base.decode_eights p
      [p.alphabet.getD ((b0 >>> 3) &&& 0x1F) ' ',
       p.alphabet.getD ((b0 &&& 0x07) <<< 2) ' ',
       'A', 'A', 'A', 'A', 'A', 'A']).take 1 = [b0] := by
  have hs0 : (b0 >>> 3) &&& 0x1F = b0 / 8 % 32 := by rw [shr3, land31]
  have hs1 : (b0 &&& 0x07) <<< 2 = b0 % 8 * 2 ^ 2 := by rw [land7, Nat.shiftLeft_eq]
  rw [decode_eights_val p _ _ 'A' 'A' 'A' 'A' 'A' 'A'
    (b0 / 8 % 32) (b0 % 8 * 2 ^ 2)
    (p.decode_table.getD ('A'.toNat) 0x64) (p.decode_table.getD ('A'.toNat) 0x64)
    (p.decode_table.getD ('A'.toNat) 0x64) (p.decode_table.getD ('A'.toNat) 0x64)
    (p.decode_table.getD ('A'.toNat) 0x64) (p.decode_table.getD ('A'.toNat) 0x64)
    (by rw [hs0]; exact hinv _ (by omega)) (by rw [hs1]; exact hinv _ (by omega))
    rfl rfl rfl rfl rfl rfl
    (by omega) (by omega) hA hA hA hA hA hA]
  clear hs0 hs1
  obtain ⟨d0, d1, d2, d3, d4⟩ := b32_sum_bytes (b0 / 8 % 32) (b0 % 8 * 2 ^ 2)
    (p.decode_table.getD ('A'.toNat) 0x64) (p.decode_table.getD ('A'.toNat) 0x64)
    (p.decode_table.getD ('A'.toNat) 0x64) (p.decode_table.getD ('A'.toNat) 0x64)
    (p.decode_table.getD ('A'.toNat) 0x64) (p.decode_table.getD ('A'.toNat) 0x64)
    (by omega) (by omega) hA hA hA hA hA hA
  simp only [List.take_succ_cons, List.take_zero, List.cons.injEq, and_true]
  rw [d0]
  clear d0 d1 d2 d3 d4
  omega

theorem b32_eights_two {p : Base32Base.Params}
    (hinv : ∀ i, i < 32 → p.decode_table.getD (p.alphabet.getD i ' ').toNat 0x64 = i)
    (hA : p.decode_table.getD ('A'.toNat) 0x64 < 32) (b0 b1 : Nat)
    (hb0 : b0 < 256) (hb1 : b1 < 256) :
    (Base32Base.decode_eights p
      [p.alphabet.getD ((b0 >>> 3) &&& 0x1F) ' ',
       p.alphabet.getD (((b0 &&& 0x07) <<< 2) ||| ((b1 &&& 0xC0) >>> 6)) ' ',
       p.alphabet.getD ((b1 &&& 0x3E) >>> 1) ' ',
       p.alphabet.getD ((b1 &&& 0x01) <<< 4) ' ',
       'A', 'A', 'A', 'A']).take 2 = [b0, b1] := by
  have hs0 : (b0 >>> 3) &&& 0x1F = b0 / 8 % 32 := by rw [shr3, land31]
  have hs1 : ((b0 &&& 0x07) <<< 2) ||| ((b1 &&& 0xC0) >>> 6) =
      b0 % 8 * 2 ^ 2 + b1 / 64 % 4 := by
    rw [land7, shl_mask192, Nat.shiftLeft_eq]
    exact lor_eq_add (k := 2) (by omega) (by omega)
  have hs2 : (b1 &&& 0x3E) >>> 1 = b1 / 2 % 32 := shl_mask62 b1
  have hs3 : (b1 &&& 0x01) <<< 4 = b1 % 2 * 2 ^ 4 := by rw [land1, Nat.shiftLeft_eq]
  rw [decode_eights_val p _ _ _ _ 'A' 'A' 'A' 'A'
    (b0 / 8 % 32) (b0 % 8 * 2 ^ 2 + b1 / 64 % 4) (b1 / 2 % 32) (b1 % 2 * 2 ^ 4)
    (p.decode_table.getD ('A'.toNat) 0x64) (p.decode_table.getD ('A'.toNat) 0x64)
    (p.decode_table.getD ('A'.toNat) 0x64) (p.decode_table.getD ('A'.toNat) 0x64)
    (by rw [hs0]; exact hinv _ (by omega)) (by rw [hs1]; exact hinv _ (by omega))
    (by rw [hs2]; exact hinv _ (by omega)) (by rw [hs3]; exact hinv _ (by omega))
    rfl rfl rfl rfl
    (by omega) (by omega) (by omega) (by omega) hA hA hA hA]
  clear hs0 hs1 hs2 hs3
  obtain ⟨d0, d1, d2, d3, d4⟩ := b32_sum_bytes (b0 / 8 % 32)
    (b0 % 8 * 2 ^ 2 + b1 / 64 % 4) (b1 / 2 % 32) (b1 % 2 * 2 ^ 4)
    (p.decode_table.getD ('A'.toNat) 0x64) (p.decode_table.getD ('A'.toNat) 0x64)
    (p.decode_table.getD ('A'.toNat) 0x64) (p.decode_table.getD ('A'.toNat) 0x64)
    (by omega) (by omega) (by omega) (by omega) hA hA hA hA
  simp only [List.take_succ_cons, List.take_zero, List.cons.injEq, and_true]
  rw [d0, d1]
  clear d0 d1 d2 d3 d4
  exact ⟨by omega, by omega⟩

theorem b32_eights_three {p : Base32Base.Params}
    (hinv : ∀ i, i < 32 → p.decode_table.getD (p.alphabet.getD i ' ').toNat 0x64 = i)
    (hA : p.decode_table.getD ('A'.toNat) 0x64 < 32) (b0 b1 b2 : Nat)
    (hb0 : b0 < 256) (hb1 : b1 < 256) (hb2 : b2 < 256) :
    (Base32Base.decode_eights p
      [p.alphabet.getD ((b0 >>> 3) &&& 0x1F) ' ',
       p.alphabet.getD (((b0 &&& 0x07) <<< 2) ||| ((b1 &&& 0xC0) >>> 6)) ' ',
       p.alphabet.getD ((b1 &&& 0x3E) >>> 1) ' ',
       p.alphabet.getD (((b1 &&& 0x01) <<< 4) ||| ((b2 &&& 0xF0) >>> 4)) ' ',
       p.alphabet.getD ((b2 &&& 0x0F) <<< 1) ' ',
       'A', 'A', 'A']).take 3 = [b0, b1, b2] := by
  have hs0 : (b0 >>> 3) &&& 0x1F = b0 / 8 % 32 := by rw [shr3, land31]
  have hs1 : ((b0 &&& 0x07) <<< 2) ||| ((b1 &&& 0xC0) >>> 6) =
      b0 % 8 * 2 ^ 2 + b1 / 64 % 4 := by
    rw [land7, shl_mask192, Nat.shiftLeft_eq]
    exact lor_eq_add (k := 2) (by omega) (by omega)
  have hs2 : (b1 &&& 0x3E) >>> 1 = b1 / 2 % 32 := shl_mask62 b1
  have hs3 : ((b1 &&& 0x01) <<< 4) ||| ((b2 &&& 0xF0) >>> 4) =
      b1 % 2 * 2 ^ 4 + b2 / 16 % 16 := by
    rw [land1, shl_mask240, Nat.shiftLeft_eq]
    exact lor_eq_add (k := 4) (by omega) (by omega)
  have hs4 : (b2 &&& 0x0F) <<< 1 = b2 % 16 * 2 ^ 1 := by rw [land15, Nat.shiftLeft_eq]
  rw [decode_eights_val p _ _ _ _ _ 'A' 'A' 'A'
    (b0 / 8 % 32) (b0 % 8 * 2 ^ 2 + b1 / 64 % 4) (b1 / 2 % 32)
    (b1 % 2 * 2 ^ 4 + b2 / 16 % 16) (b2 % 16 * 2 ^ 1)
    (p.decode_table.getD ('A'.toNat) 0x64) (p.decode_table.getD ('A'.toNat) 0x64)
    (p.decode_table.getD ('A'.toNat) 0x64)
    (by rw [hs0]; exact hinv _ (by omega)) (by rw [hs1]; exact hinv _ (by omega))
    (by rw [hs2]; exact hinv _ (by omega)) (by rw [hs3]; exact hinv _ (by omega))
    (by rw [hs4]; exact hinv _ (by omega))
    rfl rfl rfl
    (by omega) (by omega) (by omega) (by omega) (by omega) hA hA hA]
  clear hs0 hs1 hs2 hs3 hs4
  obtain ⟨d0, d1, d2, d3, d4⟩ := b32_sum_bytes (b0 / 8 % 32)
    (b0 % 8 * 2 ^ 2 + b1 / 64 % 4) (b1 / 2 % 32) (b1 % 2 * 2 ^ 4 + b2 / 16 % 16)
    (b2 % 16 * 2 ^ 1)
    (p.decode_table.getD ('A'.toNat) 0x64) (p.decode_table.getD ('A'.toNat) 0x64)
    (p.decode_table.getD ('A'.toNat) 0x64)
    (by omega) (by omega) (by omega) (by omega) (by omega) hA hA hA
  simp only [List.take_succ_cons, List.take_zero, List.cons.injEq, and_true]
  rw [d0, d1, d2]
  clear d0 d1 d2 d3 d4
  exact ⟨by omega, by omega, by omega⟩

set_option maxHeartbeats 1000000 in
theorem b32_eights_four {p : Base32Base.Params}
    (hinv : ∀ i, i < 32 → p.decode_table.getD (p.alphabet.getD i ' ').toNat 0x64 = i)
    (hA : p.decode_table.getD ('A'.toNat) 0x64 < 32) (b0 b1 b2 b3 : Nat)
    (hb0 : b0 < 256) (hb1 : b1 < 256) (hb2 : b2 < 256) (hb3 : b3 < 256) :
    (Base32Base.decode_eights p
      [p.alphabet.getD ((b0 >>> 3) &&& 0x1F) ' ',
       p.alphabet.getD (((b0 &&& 0x07) <<< 2) ||| ((b1 &&& 0xC0) >>> 6)) ' ',
       p.alphabet.getD ((b1 &&& 0x3E) >>> 1) ' ',
       p.alphabet.getD (((b1 &&& 0x01) <<< 4) ||| ((b2 &&& 0xF0) >>> 4)) ' ',
       p.alphabet.getD (((b2 &&& 0x0F) <<< 1) ||| ((b3 &&& 0x80) >>> 7)) ' ',
       p.alphabet.getD ((b3 &&& 0x7C) >>> 2) ' ',
       p.alphabet.getD ((b3 &&& 0x03) <<< 3) ' ',
       'A']).take 4 = [b0, b1, b2, b3] := by
  have hs0 : (b0 >>> 3) &&& 0x1F = b0 / 8 % 32 := by rw [shr3, land31]
  have hs1 : ((b0 &&& 0x07) <<< 2) ||| ((b1 &&& 0xC0) >>> 6) =
      b0 % 8 * 2 ^ 2 + b1 / 64 % 4 := by
    rw [land7, shl_mask192, Nat.shiftLeft_eq]
    exact lor_eq_add (k := 2) (by omega) (by omega)
  have hs2 : (b1 &&& 0x3E) >>> 1 = b1 / 2 % 32 := shl_mask62 b1
  have hs3 : ((b1 &&& 0x01) <<< 4) ||| ((b2 &&& 0xF0) >>> 4) =
      b1 % 2 * 2 ^ 4 + b2 / 16 % 16 := by
    rw [land1, shl_mask240, Nat.shiftLeft_eq]
    exact lor_eq_add (k := 4) (by omega) (by omega)
  have hs4 : ((b2 &&& 0x0F) <<< 1) ||| ((b3 &&& 0x80) >>> 7) =
      b2 % 16 * 2 ^ 1 + b3 / 128 % 2 := by
    rw [land15, shl_mask128, Nat.shiftLeft_eq]
    exact lor_eq_add (k := 1) (by omega) (by omega)
  have hs5 : (b3 &&& 0x7C) >>> 2 = b3 / 4 % 32 := shl_mask124 b3
  have hs6 : (b3 &&& 0x03) <<< 3 = b3 % 4 * 2 ^ 3 := by rw [land3, Nat.shiftLeft_eq]
  rw [decode_eights_val p _ _ _ _ _ _ _ 'A'
    (b0 / 8 % 32) (b0 % 8 * 2 ^ 2 + b1 / 64 % 4) (b1 / 2 % 32)
    (b1 % 2 * 2 ^ 4 + b2 / 16 % 16) (b2 % 16 * 2 ^ 1 + b3 / 128 % 2) (b3 / 4 % 32)
    (b3 % 4 * 2 ^ 3) (p.decode_table.getD ('A'.toNat) 0x64)
    (by rw [hs0]; exact hinv _ (by omega)) (by rw [hs1]; exact hinv _ (by omega))
    (by rw [hs2]; exact hinv _ (by omega)) (by rw [hs3]; exact hinv _ (by omega))
    (by rw [hs4]; exact hinv _ (by omega)) (by rw [hs5]; exact hinv _ (by omega))
    (by rw [hs6]; exact hinv _ (by omega)) rfl
    (by omega) (by omega) (by omega) (by omega) (by omega) (by omega) (by omega) hA]
  clear hs0 hs1 hs2 hs3 hs4 hs5 hs6
  obtain ⟨d0, d1, d2, d3, d4⟩ := b32_sum_bytes (b0 / 8 % 32)
    (b0 % 8 * 2 ^ 2 + b1 / 64 % 4) (b1 / 2 % 32) (b1 % 2 * 2 ^ 4 + b2 / 16 % 16)
    (b2 % 16 * 2 ^ 1 + b3 / 128 % 2) (b3 / 4 % 32) (b3 % 4 * 2 ^ 3)
    (p.decode_table.getD ('A'.toNat) 0x64)
    (by omega) (by omega) (by omega) (by omega) (by omega) (by omega) (by omega) hA
  simp only [List.take_succ_cons, List.take_zero, List.cons.injEq, and_true]
  rw [d0, d1, d2, d3]
  clear d0 d1 d2 d3 d4
  exact ⟨by omega, by omega, by omega, by omega⟩

theorem b32_rt_one {p : Base32Base.Params}
    (hinv : ∀ i, i < 32 → p.decode_table.getD (p.alphabet.getD i ' ').toNat 0x64 = i)
    (hval : ∀ i, i < 32 → p.is_valid_character (p.alphabet.getD i ' ') = true)
    (heqv : p.is_valid_character '=' = false)
    (hA : p.decode_table.getD ('A'.toNat) 0x64 < 32)
    (b0 : Nat) (hb0 : b0 < 256) (hn : Bool) (l pos : Nat) :
    Base32Base.do_decode p hn (Base32Base.encode_symbols p [b0]) [] l pos 0 =
      .ok [b0] := by
  have hs0 : (b0 >>> 3) &&& 0x1F = b0 / 8 % 32 := by rw [shr3, land31]
  have hs1 : (b0 &&& 0x07) <<< 2 = b0 % 8 * 2 ^ 2 := by rw [land7, Nat.shiftLeft_eq]
  rw [Base32Base.encode_symbols]
  rw [b32_step_acc (by rw [hs0]; exact hval _ (by omega)) (by simp)]
  rw [b32_step_acc (by rw [hs1]; exact hval _ (by omega)) (by simp)]
  rw [b32_step_pad heqv (by omega), b32_step_pad heqv (by omega),
    b32_step_pad heqv (by omega), b32_step_pad heqv (by omega),
    b32_step_pad heqv (by omega), b32_step_pad heqv (by omega)]
  rw [b32_step_done]
  simp only [List.nil_append, List.singleton_append, List.cons_append]
  rw [b32_leftover_two]
  rw [b32_eights_one hinv hA b0 hb0]

theorem b32_rt_two {p : Base32Base.Params}
    (hinv : ∀ i, i < 32 → p.decode_table.getD (p.alphabet.getD i ' ').toNat 0x64 = i)
    (hval : ∀ i, i < 32 → p.is_valid_character (p.alphabet.getD i ' ') = true)
    (heqv : p.is_valid_character '=' = false)
    (hA : p.decode_table.getD ('A'.toNat) 0x64 < 32)
    (b0 b1 : Nat) (hb0 : b0 < 256) (hb1 : b1 < 256) (hn : Bool) (l pos : Nat) :
    Base32Base.do_decode p hn (Base32Base.encode_symbols p [b0, b1]) [] l pos 0 =
      .ok [b0, b1] := by
  have hs0 : (b0 >>> 3) &&& 0x1F = b0 / 8 % 32 := by rw [shr3, land31]
  have hs1 : ((b0 &&& 0x07) <<< 2) ||| ((b1 &&& 0xC0) >>> 6) =
      b0 % 8 * 2 ^ 2 + b1 / 64 % 4 := by
    rw [land7, shl_mask192, Nat.shiftLeft_eq]
    exact lor_eq_add (k := 2) (by omega) (by omega)
  have hs2 : (b1 &&& 0x3E) >>> 1 = b1 / 2 % 32 := shl_mask62 b1
  have hs3 : (b1 &&& 0x01) <<< 4 = b1 % 2 * 2 ^ 4 := by rw [land1, Nat.shiftLeft_eq]
  rw [Base32Base.encode_symbols]
  rw [b32_step_acc (by rw [hs0]; exact hval _ (by omega)) (by simp)]
  rw [b32_step_acc (by rw [hs1]; exact hval _ (by omega)) (by simp)]
  rw [b32_step_acc (by rw [hs2]; exact hval _ (by omega)) (by simp)]
  rw [b32_step_acc (by rw [hs3]; exact hval _ (by omega)) (by simp)]
  rw [b32_step_pad heqv (by omega), b32_step_pad heqv (by omega),
    b32_step_pad heqv (by omega), b32_step_pad heqv (by omega)]
  rw [b32_step_done]
  simp only [List.nil_append, List.singleton_append, List.cons_append]
  rw [b32_leftover_four]
  rw [b32_eights_two hinv hA b0 b1 hb0 hb1]

theorem b32_rt_three {p : Base32Base.Params}
    (hinv : ∀ i, i < 32 → p.decode_table.getD (p.alphabet.getD i ' ').toNat 0x64 = i)
    (hval : ∀ i, i < 32 → p.is_valid_character (p.alphabet.getD i ' ') = true)
    (heqv : p.is_valid_character '=' = false)
    (hA : p.decode_table.getD ('A'.toNat) 0x64 < 32)
    (b0 b1 b2 : Nat) (hb0 : b0 < 256) (hb1 : b1 < 256) (hb2 : b2 < 256)
    (hn : Bool) (l pos : Nat) :
    Base32Base.do_decode p hn (Base32Base.encode_symbols p [b0, b1, b2]) [] l pos 0 =
      .ok [b0, b1, b2] := by
  have hs0 : (b0 >>> 3) &&& 0x1F = b0 / 8 % 32 := by rw [shr3, land31]
  have hs1 : ((b0 &&& 0x07) <<< 2) ||| ((b1 &&& 0xC0) >>> 6) =
      b0 % 8 * 2 ^ 2 + b1 / 64 % 4 := by
    rw [land7, shl_mask192, Nat.shiftLeft_eq]
    exact lor_eq_add (k := 2) (by omega) (by omega)
  have hs2 : (b1 &&& 0x3E) >>> 1 = b1 / 2 % 32 := shl_mask62 b1
  have hs3 : ((b1 &&& 0x01) <<< 4) ||| ((b2 &&& 0xF0) >>> 4) =
      b1 % 2 * 2 ^ 4 + b2 / 16 % 16 := by
    rw [land1, shl_mask240, Nat.shiftLeft_eq]
    exact lor_eq_add (k := 4) (by omega) (by omega)
  have hs4 : (b2 &&& 0x0F) <<< 1 = b2 % 16 * 2 ^ 1 := by rw [land15, Nat.shiftLeft_eq]
  rw [Base32Base.encode_symbols]
  rw [b32_step_acc (by rw [hs0]; exact hval _ (by omega)) (by simp)]
  rw [b32_step_acc (by rw [hs1]; exact hval _ (by omega)) (by simp)]
  rw [b32_step_acc (by rw [hs2]; exact hval _ (by omega)) (by simp)]
  rw [b32_step_acc (by rw [hs3]; exact hval _ (by omega)) (by simp)]
  rw [b32_step_acc (by rw [hs4]; exact hval _ (by omega)) (by simp)]
  rw [b32_step_pad heqv (by omega), b32_step_pad heqv (by omega),
    b32_step_pad heqv (by omega)]
  rw [b32_step_done]
  simp only [List.nil_append, List.singleton_append, List.cons_append]
  rw [b32_leftover_five]
  rw [b32_eights_three hinv hA b0 b1 b2 hb0 hb1 hb2]

theorem b32_rt_four {p : Base32Base.Params}
    (hinv : ∀ i, i < 32 → p.decode_table.getD (p.alphabet.getD i ' ').toNat 0x64 = i)
    (hval : ∀ i, i < 32 → p.is_valid_character (p.alphabet.getD i ' ') = true)
    (heqv : p.is_valid_character '=' = false)
    (hA : p.decode_table.getD ('A'.toNat) 0x64 < 32)
    (b0 b1 b2 b3 : Nat) (hb0 : b0 < 256) (hb1 : b1 < 256) (hb2 : b2 < 256)
    (hb3 : b3 < 256) (hn : Bool) (l pos : Nat) :
    Base32Base.do_decode p hn (Base32Base.encode_symbols p [b0, b1, b2, b3]) [] l pos 0 =
      .ok [b0, b1, b2, b3] := by
  have hs0 : (b0 >>> 3) &&& 0x1F = b0 / 8 % 32 := by rw [shr3, land31]
  have hs1 : ((b0 &&& 0x07) <<< 2) ||| ((b1 &&& 0xC0) >>> 6) =
      b0 % 8 * 2 ^ 2 + b1 / 64 % 4 := by
    rw [land7, shl_mask192, Nat.shiftLeft_eq]
    exact lor_eq_add (k := 2) (by omega) (by omega)
  have hs2 : (b1 &&& 0x3E) >>> 1 = b1 / 2 % 32 := shl_mask62 b1
  have hs3 : ((b1 &&& 0x01) <<< 4) ||| ((b2 &&& 0xF0) >>> 4) =
      b1 % 2 * 2 ^ 4 + b2 / 16 % 16 := by
    rw [land1, shl_mask240, Nat.shiftLeft_eq]
    exact lor_eq_add (k := 4) (by omega) (by omega)
  have hs4 : ((b2 &&& 0x0F) <<< 1) ||| ((b3 &&& 0x80) >>> 7) =
      b2 % 16 * 2 ^ 1 + b3 / 128 % 2 := by
    rw [land15, shl_mask128, Nat.shiftLeft_eq]
    exact lor_eq_add (k := 1) (by omega) (by omega)
  have hs5 : (b3 &&& 0x7C) >>> 2 = b3 / 4 % 32 := shl_mask124 b3
  have hs6 : (b3 &&& 0x03) <<< 3 = b3 % 4 * 2 ^ 3 := by rw [land3, Nat.shiftLeft_eq]
  rw [Base32Base.encode_symbols]
  rw [b32_step_acc (by rw [hs0]; exact hval _ (by omega)) (by simp)]
  rw [b32_step_acc (by rw [hs1]; exact hval _ (by omega)) (by simp)]
  rw [b32_step_acc (by rw [hs2]; exact hval _ (by omega)) (by simp)]
  rw [b32_step_acc (by rw [hs3]; exact hval _ (by omega)) (by simp)]
  rw [b32_step_acc (by rw [hs4]; exact hval _ (by omega)) (by simp)]
  rw [b32_step_acc (by rw [hs5]; exact hval _ (by omega)) (by simp)]
  rw [b32_step_acc (by rw [hs6]; exact hval _ (by omega)) (by simp)]
  rw [b32_step_pad heqv (by omega)]
  rw [b32_step_done]
  simp only [List.nil_append, List.singleton_append, List.cons_append]
  rw [b32_leftover_seven]
  rw [b32_eights_four hinv hA b0 b1 b2 b3 hb0 hb1 hb2 hb3]

theorem b32_rt_step {p : Base32Base.Params}
    (hinv : ∀ i, i < 32 → p.decode_table.getD (p.alphabet.getD i ' ').toNat 0x64 = i)
    (hval : ∀ i, i < 32 → p.is_valid_character (p.alphabet.getD i ' ') = true)
    (b0 b1 b2 b3 b4 : Nat) (rest : List Nat)
    (hb0 : b0 < 256) (hb1 : b1 < 256) (hb2 : b2 < 256) (hb3 : b3 < 256)
    (hb4 : b4 < 256) (hn : Bool) (l pos : Nat) :
    Base32Base.do_decode p hn
        (Base32Base.encode_symbols p (b0 :: b1 :: b2 :: b3 :: b4 :: rest)) [] l pos 0 =
      (Base32Base.do_decode p hn (Base32Base.encode_symbols p rest) [] l (pos + 8) 0).map
        ([b0, b1, b2, b3, b4] ++ ·) := by
  have hs0 : (b0 >>> 3) &&& 0x1F = b0 / 8 % 32 := by rw [shr3, land31]
  have hs1 : ((b0 &&& 0x07) <<< 2) ||| ((b1 &&& 0xC0) >>> 6) =
      b0 % 8 * 2 ^ 2 + b1 / 64 % 4 := by
    rw [land7, shl_mask192, Nat.shiftLeft_eq]
    exact lor_eq_add (k := 2) (by omega) (by omega)
  have hs2 : (b1 &&& 0x3E) >>> 1 = b1 / 2 % 32 := shl_mask62 b1
  have hs3 : ((b1 &&& 0x01) <<< 4) ||| ((b2 &&& 0xF0) >>> 4) =
      b1 % 2 * 2 ^ 4 + b2 / 16 % 16 := by
    rw [land1, shl_mask240, Nat.shiftLeft_eq]
    exact lor_eq_add (k := 4) (by omega) (by omega)
  have hs4 : ((b2 &&& 0x0F) <<< 1) ||| ((b3 &&& 0x80) >>> 7) =
      b2 % 16 * 2 ^ 1 + b3 / 128 % 2 := by
    rw [land15, shl_mask128, Nat.shiftLeft_eq]
    exact lor_eq_add (k := 1) (by omega) (by omega)
  have hs5 : (b3 &&& 0x7C) >>> 2 = b3 / 4 % 32 := shl_mask124 b3
  have hs6 : ((b3 &&& 0x03) <<< 3) ||| ((b4 &&& 0xE0) >>> 5) =
      b3 % 4 * 2 ^ 3 + b4 / 32 % 8 := by
    rw [land3, shl_mask224, Nat.shiftLeft_eq]
    exact lor_eq_add (k := 3) (by omega) (by omega)
  have hs7 : b4 &&& 0x1F = b4 % 32 := land31 b4
  rw [Base32Base.encode_symbols]
  rw [b32_step_acc (by rw [hs0]; exact hval _ (by omega)) (by simp)]
  rw [b32_step_acc (by rw [hs1]; exact hval _ (by omega)) (by simp)]
  rw [b32_step_acc (by rw [hs2]; exact hval _ (by omega)) (by simp)]
  rw [b32_step_acc (by rw [hs3]; exact hval _ (by omega)) (by simp)]
  rw [b32_step_acc (by rw [hs4]; exact hval _ (by omega)) (by simp)]
  rw [b32_step_acc (by rw [hs5]; exact hval _ (by omega)) (by simp)]
  rw [b32_step_acc (by rw [hs6]; exact hval _ (by omega)) (by simp)]
  rw [b32_step_flush (by rw [hs7]; exact hval _ (by omega)) (by simp)]
  have hpos : pos + 1 + 1 + 1 + 1 + 1 + 1 + 1 + 1 = pos + 8 := by omega
  rw [hpos]
  simp only [List.nil_append, List.singleton_append, List.cons_append]
  rw [b32_eights_full hinv b0 b1 b2 b3 b4 hb0 hb1 hb2 hb3 hb4]
  simp only [List.cons_append, List.nil_append]

/-- Decoding the raw symbol stream of `Base32Base::do_encode` recovers the
input bytes, for any good alphabet/table pair, from any line/position
state and for both newline flags. -/
theorem b32_decode_encode_symbols {p : Base32Base.Params} (hp : Base32Base.Good p) :
    ∀ bytes : List Nat, (∀ b ∈ bytes, b < 256) → ∀ (hn : Bool) (l pos : Nat),
      Base32Base.do_decode p hn (Base32Base.encode_symbols p bytes) [] l pos 0 =
        .ok bytes := by
  obtain ⟨hinv, hval, hnl, heqv, hA⟩ := hp
  have main : ∀ n (bytes : List Nat), bytes.length ≤ n → (∀ b ∈ bytes, b < 256) →
      ∀ (hn : Bool) (l pos : Nat),
      Base32Base.do_decode p hn (Base32Base.encode_symbols p bytes) [] l pos 0 =
        .ok bytes := by
    intro n
    induction n with
    | zero =>
      intro bytes hlen _ hn l pos
      match bytes, hlen with
      | [], _ => rfl
    | succ n ihn =>
      intro bytes hlen h hn l pos
      match bytes with
      | [] => rfl
      | [b0] => exact b32_rt_one hinv hval heqv hA b0 (h b0 (by simp)) hn l pos
      | [b0, b1] =>
        exact b32_rt_two hinv hval heqv hA b0 b1 (h b0 (by simp)) (h b1 (by simp)) hn l pos
      | [b0, b1, b2] =>
        exact b32_rt_three hinv hval heqv hA b0 b1 b2 (h b0 (by simp)) (h b1 (by simp))
          (h b2 (by simp)) hn l pos
      | [b0, b1, b2, b3] =>
        exact b32_rt_four hinv hval heqv hA b0 b1 b2 b3 (h b0 (by simp)) (h b1 (by simp))
          (h b2 (by simp)) (h b3 (by simp)) hn l pos
      | b0 :: b1 :: b2 :: b3 :: b4 :: rest =>
        rw [b32_rt_step hinv hval b0 b1 b2 b3 b4 rest (h b0 (by simp)) (h b1 (by simp))
          (h b2 (by simp)) (h b3 (by simp)) (h b4 (by simp)) hn l pos]
        rw [ihn rest (by simp at hlen; omega) (fun x hx => h x (by simp [hx]))]
        rw [except_map_ok_val]
        simp only [List.cons_append, List.nil_append]
  exact fun bytes => main bytes.length bytes le_rfl

/-- Inserting newlines with `wrap_newlines` anywhere in the encoded stream
does not change a successful Base32 decode when newline handling is on: the
newline branch only updates `line`/`pos`, which never influence an `ok`
result. -/
theorem b32_decode_wrap {p : Base32Base.Params}
    (hnl : p.is_valid_character '\n' = false) :
    ∀ (s eights : List Char) (v : List Nat) (l1 p1 pad w q l2 p2 : Nat),
      Base32Base.do_decode p true s eights l1 p1 pad = .ok v →
      Base32Base.do_decode p true (wrap_newlines w q s) eights l2 p2 pad = .ok v := by
  intro s
  induction s with
  | nil =>
    intro eights v l1 p1 pad w q l2 p2 hok
    rw [wrap_newlines]
    rw [b32_step_done] at hok ⊢
    exact hok
  | cons c rest ih =>
    intro eights v l1 p1 pad w q l2 p2 hok
    rw [wrap_newlines]
    by_cases hc : p.is_valid_character c = true
    · by_cases hpad : pad = 0
      · subst hpad
        by_cases h7 : eights.length = 7
        · rw [b32_step_flush hc h7, except_map_ok] at hok
          obtain ⟨u, hu, hv⟩ := hok
          by_cases hw : w ≠ 0 ∧ q + 1 = w
          · rw [if_pos hw, b32_step_flush hc h7, b32_step_newline hnl, except_map_ok]
            exact ⟨u, ih [] u l1 (p1 + 1) 0 w 0 (l2 + 1) 1 hu, hv⟩
          · rw [if_neg hw, b32_step_flush hc h7, except_map_ok]
            exact ⟨u, ih [] u l1 (p1 + 1) 0 w (q + 1) l2 (p2 + 1) hu, hv⟩
        · rw [b32_step_acc hc h7] at hok
          by_cases hw : w ≠ 0 ∧ q + 1 = w
          · rw [if_pos hw, b32_step_acc hc h7, b32_step_newline hnl]
            exact ih (eights ++ [c]) v l1 (p1 + 1) 0 w 0 (l2 + 1) 1 hok
          · rw [if_neg hw, b32_step_acc hc h7]
            exact ih (eights ++ [c]) v l1 (p1 + 1) 0 w (q + 1) l2 (p2 + 1) hok
      · rw [b32_step_mixed_pad hc hpad] at hok
        exact absurd hok (by simp)
    · have hc' : p.is_valid_character c = false := by simpa using hc
      by_cases hnlc : c = '\n'
      · subst hnlc
        rw [b32_step_newline hnl] at hok
        by_cases hw : w ≠ 0 ∧ q + 1 = w
        · rw [if_pos hw, b32_step_newline hnl, b32_step_newline hnl]
          exact ih eights v (l1 + 1) 1 pad w 0 (l2 + 2) 1 hok
        · rw [if_neg hw, b32_step_newline hnl]
          exact ih eights v (l1 + 1) 1 pad w (q + 1) (l2 + 1) 1 hok
      · by_cases heqc : c = '='
        · subst heqc
          by_cases hple : pad + 1 ≤ 6
          · rw [b32_step_pad hc' hple] at hok
            by_cases hw : w ≠ 0 ∧ q + 1 = w
            · rw [if_pos hw, b32_step_pad hc' hple, b32_step_newline hnl]
              exact ih eights v l1 (p1 + 1) (pad + 1) w 0 (l2 + 1) 1 hok
            · rw [if_neg hw, b32_step_pad hc' hple]
              exact ih eights v l1 (p1 + 1) (pad + 1) w (q + 1) l2 (p2 + 1) hok
          · rw [Base32Base.do_decode] at hok
            simp [hc', hple] at hok
        · rw [b32_step_invalid hc' hnlc heqc] at hok
          exact absurd hok (by simp)

theorem b32_good_base32 : Base32Base.Good Base32Base.base32 := by
  refine ⟨?_, ?_, by decide, by decide, by decide⟩ <;> decide

theorem b32_good_base32hex : Base32Base.Good Base32Base.base32hex := by
  refine ⟨?_, ?_, by decide, by decide, by decide⟩ <;> decide

/-- Base32 decode(encode) at any wrap width, newline handling on. -/
theorem b32_round_trip_wrapped {p : Base32Base.Params} (hp : Base32Base.Good p)
    (bytes : List Nat) (hb : ∀ b ∈ bytes, b < 256) (wrapat : Nat) :
    Base32Base.decode p (Base32Base.do_encode p bytes wrapat) true = .ok bytes := by
  unfold Base32Base.decode Base32Base.do_encode
  exact b32_decode_wrap hp.2.2.1 _ [] bytes 1 1 0 wrapat 0 1 1
    (b32_decode_encode_symbols hp bytes hb true 1 1)

/-- Base32 decode(encode) without wrapping, for either newline flag. -/
theorem b32_round_trip_plain {p : Base32Base.Params} (hp : Base32Base.Good p)
    (bytes : List Nat) (hb : ∀ b ∈ bytes, b < 256) (hn : Bool) :
    Base32Base.decode p (Base32Base.do_encode p bytes 0) hn = .ok bytes := by
  unfold Base32Base.decode Base32Base.do_encode
  rw [wrap_newlines_zero]
  exact b32_decode_encode_symbols hp bytes hb hn 1 1

/-! ### Base64 round-trip -/

theorem decode_quad_val (p : Base64Base.Params) (c0 c1 c2 c3 : Char)
    (u0 u1 u2 u3 : Nat)
    (h0 : p.decode_table.getD c0.toNat 0x64 = u0)
    (h1 : p.decode_table.getD c1.toNat 0x64 = u1)
    (h2 : p.decode_table.getD c2.toNat 0x64 = u2)
    (h3 : p.decode_table.getD c3.toNat 0x64 = u3)
    (w0 : u0 < 64) (w1 : u1 < 64) (w2 : u2 < 64) (w3 : u3 < 64) :
    Base64Base.decode_quad p c0 c1 c2 c3 =
      [(u0 * 2 ^ 18 + u1 * 2 ^ 12 + u2 * 2 ^ 6 + u3) / 2 ^ 16 % 256,
       (u0 * 2 ^ 18 + u1 * 2 ^ 12 + u2 * 2 ^ 6 + u3) / 2 ^ 8 % 256,
       (u0 * 2 ^ 18 + u1 * 2 ^ 12 + u2 * 2 ^ 6 + u3) % 256] := by
  have key : (p.decode_table.getD c0.toNat 0x64 <<< 18) |||
      (p.decode_table.getD c1.toNat 0x64 <<< 12) |||
      (p.decode_table.getD c2.toNat 0x64 <<< 6) |||
      p.decode_table.getD c3.toNat 0x64 =
      u0 * 2 ^ 18 + u1 * 2 ^ 12 + u2 * 2 ^ 6 + u3 := by
    rw [h0, h1, h2, h3]
    simp only [Nat.shiftLeft_eq]
    have e1 : u0 * 2 ^ 18 ||| u1 * 2 ^ 12 = u0 * 2 ^ 18 + u1 * 2 ^ 12 :=
      lor_eq_add (k := 18) (by omega) (by omega)
    rw [e1]
    have e2 : u0 * 2 ^ 18 + u1 * 2 ^ 12 ||| u2 * 2 ^ 6 =
        u0 * 2 ^ 18 + u1 * 2 ^ 12 + u2 * 2 ^ 6 :=
      lor_eq_add (k := 12) (by omega) (by omega)
    rw [e2]
    have e3 : u0 * 2 ^ 18 + u1 * 2 ^ 12 + u2 * 2 ^ 6 ||| u3 =
        u0 * 2 ^ 18 + u1 * 2 ^ 12 + u2 * 2 ^ 6 + u3 :=
      lor_eq_add (k := 6) (by omega) (by omega)
    rw [e3]
  dsimp only [Base64Base.decode_quad]
  rw [key, shr16, shr8, land255, land255, land255]
  norm_num

theorem b64_sum_bytes (u0 u1 u2 u3 : Nat)
    (w0 : u0 < 64) (w1 : u1 < 64) (w2 : u2 < 64) (w3 : u3 < 64) :
    (u0 * 2 ^ 18 + u1 * 2 ^ 12 + u2 * 2 ^ 6 + u3) / 2 ^ 16 % 256 =
      u0 * 4 + u1 / 16 ∧
    (u0 * 2 ^ 18 + u1 * 2 ^ 12 + u2 * 2 ^ 6 + u3) / 2 ^ 8 % 256 =
      u1 % 16 * 16 + u2 / 4 ∧
    (u0 * 2 ^ 18 + u1 * 2 ^ 12 + u2 * 2 ^ 6 + u3) % 256 = u2 % 4 * 64 + u3 := by
  refine ⟨?_, ?_, ?_⟩
  · exact byte_extract 16 0 (u0 * 4 + u1 / 16)
      (u1 % 16 * 2 ^ 12 + u2 * 2 ^ 6 + u3) (by omega) (by omega) (by omega)
  · exact byte_extract 8 (u0 * 4 + u1 / 16) (u1 % 16 * 16 + u2 / 4)
      (u2 % 4 * 2 ^ 6 + u3) (by omega) (by omega) (by omega)
  · exact byte_extract0 (u0 * 2 ^ 10 + u1 * 2 ^ 4 + u2 / 4) (u2 % 4 * 64 + u3)
      (by omega) (by omega)

theorem b64_quad_full {p : Base64Base.Params}
    (hinv : ∀ i, i < 64 → p.decode_table.getD (p.alphabet.getD i ' ').toNat 0x64 = i)
    (b0 b1 b2 : Nat) (hb0 : b0 < 256) (hb1 : b1 < 256) (hb2 : b2 < 256) :
    Base64Base.decode_quad p
      (p.alphabet.getD ((b0 >>> 2) &&& 0x3F) ' ')
      (p.alphabet.getD (((b0 &&& 0x03) <<< 4) ||| ((b1 &&& 0xF0) >>> 4)) ' ')
      (p.alphabet.getD (((b1 &&& 0x0F) <<< 2) ||| ((b2 &&& 0xC0) >>> 6)) ' ')
      (p.alphabet.getD (b2 &&& 0x3F) ' ') = [b0, b1, b2] := by
  have hs0 : (b0 >>> 2) &&& 0x3F = b0 / 4 % 64 := by rw [shr2, land63]
  have hs1 : ((b0 &&& 0x03) <<< 4) ||| ((b1 &&& 0xF0) >>> 4) =
      b0 % 4 * 2 ^ 4 + b1 / 16 % 16 := by
    rw [land3, shl_mask240, Nat.shiftLeft_eq]
    exact lor_eq_add (k := 4) (by omega) (by omega)
  have hs2 : ((b1 &&& 0x0F) <<< 2) ||| ((b2 &&& 0xC0) >>> 6) =
      b1 % 16 * 2 ^ 2 + b2 / 64 % 4 := by
    rw [land15, shl_mask192, Nat.shiftLeft_eq]
    exact lor_eq_add (k := 2) (by omega) (by omega)
  have hs3 : b2 &&& 0x3F = b2 % 64 := land63 b2
  rw [decode_quad_val p _ _ _ _
    (b0 / 4 % 64) (b0 % 4 * 2 ^ 4 + b1 / 16 % 16) (b1 % 16 * 2 ^ 2 + b2 / 64 % 4)
    (b2 % 64)
    (by rw [hs0]; exact hinv _ (by omega)) (by rw [hs1]; exact hinv _ (by omega))
    (by rw [hs2]; exact hinv _ (by omega)) (by rw [hs3]; exact hinv _ (by omega))
    (by omega) (by omega) (by omega) (by omega)]
  clear hs0 hs1 hs2 hs3
  obtain ⟨d0, d1, d2⟩ := b64_sum_bytes (b0 / 4 % 64) (b0 % 4 * 2 ^ 4 + b1 / 16 % 16)
    (b1 % 16 * 2 ^ 2 + b2 / 64 % 4) (b2 % 64)
    (by omega) (by omega) (by omega) (by omega)
  rw [d0, d1, d2]
  clear d0 d1 d2
  simp only [List.cons.injEq, and_true]
  refine ⟨by omega, by omega, by omega⟩

theorem b64_quad_one {p : Base64Base.Params}
    (hinv : ∀ i, i < 64 → p.decode_table.getD (p.alphabet.getD i ' ').toNat 0x64 = i)
    (hA0 : p.decode_table.getD ('A'.toNat) 0x64 = 0)
    (b0 : Nat) (hb0 : b0 < 256) :
    (Base64Base.decode_quad p
      (p.alphabet.getD ((b0 >>> 2) &&& 0x3F) ' ')
      (p.alphabet.getD ((b0 &&& 0x03) <<< 4) ' ') 'A' 'A').take 1 = [b0] := by
  have hs0 : (b0 >>> 2) &&& 0x3F = b0 / 4 % 64 := by rw [shr2, land63]
  have hs1 : (b0 &&& 0x03) <<< 4 = b0 % 4 * 2 ^ 4 := by rw [land3, Nat.shiftLeft_eq]
  rw [decode_quad_val p _ _ 'A' 'A' (b0 / 4 % 64) (b0 % 4 * 2 ^ 4) 0 0
    (by rw [hs0]; exact hinv _ (by omega)) (by rw [hs1]; exact hinv _ (by omega))
    hA0 hA0 (by omega) (by omega) (by omega) (by omega)]
  clear hs0 hs1
  simp only [List.take_succ_cons, List.take_zero, List.cons.injEq, and_true]
  omega

theorem b64_quad_two {p : Base64Base.Params}
    (hinv : ∀ i, i < 64 → p.decode_table.getD (p.alphabet.getD i ' ').toNat 0x64 = i)
    (hA0 : p.decode_table.getD ('A'.toNat) 0x64 = 0)
    (b0 b1 : Nat) (hb0 : b0 < 256) (hb1 : b1 < 256) :
    (Base64Base.decode_quad p
      (p.alphabet.getD ((b0 >>> 2) &&& 0x3F) ' ')
      (p.alphabet.getD (((b0 &&& 0x03) <<< 4) ||| ((b1 &&& 0xF0) >>> 4)) ' ')
      (p.alphabet.getD ((b1 &&& 0x0F) <<< 2) ' ') 'A').take 2 = [b0, b1] := by
  have hs0 : (b0 >>> 2) &&& 0x3F = b0 / 4 % 64 := by rw [shr2, land63]
  have hs1 : ((b0 &&& 0x03) <<< 4) ||| ((b1 &&& 0xF0) >>> 4) =
      b0 % 4 * 2 ^ 4 + b1 / 16 % 16 := by
    rw [land3, shl_mask240, Nat.shiftLeft_eq]
    exact lor_eq_add (k := 4) (by omega) (by omega)
  have hs2 : (b1 &&& 0x0F) <<< 2 = b1 % 16 * 2 ^ 2 := by rw [land15, Nat.shiftLeft_eq]
  rw [decode_quad_val p _ _ _ 'A'
    (b0 / 4 % 64) (b0 % 4 * 2 ^ 4 + b1 / 16 % 16) (b1 % 16 * 2 ^ 2) 0
    (by rw [hs0]; exact hinv _ (by omega)) (by rw [hs1]; exact hinv _ (by omega))
    (by rw [hs2]; exact hinv _ (by omega)) hA0
    (by omega) (by omega) (by omega) (by omega)]
  clear hs0 hs1 hs2
  obtain ⟨d0, d1, d2⟩ := b64_sum_bytes (b0 / 4 % 64) (b0 % 4 * 2 ^ 4 + b1 / 16 % 16)
    (b1 % 16 * 2 ^ 2) 0 (by omega) (by omega) (by omega) (by omega)
  simp only [List.take_succ_cons, List.take_zero, List.cons.injEq, and_true]
  rw [d0, d1]
  clear d0 d1 d2
  exact ⟨by omega, by omega⟩

theorem b64_step_acc {p : Base64Base.Params} {c : Char}
    (hv : p.is_valid_character c = true) {quads : List Char} (h3 : quads.length ≠ 3)
    (rest : List Char) (l pos : Nat) :
    Base64Base.decode_impure p (c :: rest) quads false false l pos =
      Base64Base.decode_impure p rest (quads ++ [c]) false false l (pos + 1) := by
  rw [Base64Base.decode_impure]
  simp [hv, h3]

theorem b64_step_flush {p : Base64Base.Params} {c : Char}
    (hv : p.is_valid_character c = true) {quads : List Char} (h3 : quads.length = 3)
    (rest : List Char) (l pos : Nat) :
    Base64Base.decode_impure p (c :: rest) quads false false l pos =
      (Base64Base.decode_impure p rest [] false false l (pos + 1)).map
        (Base64Base.decode_quad p (quads.getD 0 ' ') (quads.getD 1 ' ')
          (quads.getD 2 ' ') c ++ ·) := by
  rw [Base64Base.decode_impure]
  simp [hv, h3]

theorem b64_step_newline {p : Base64Base.Params}
    (hnl : p.is_valid_character '\n' = false) (rest quads : List Char)
    (pad1 pad2 : Bool) (l pos : Nat) :
    Base64Base.decode_impure p ('\n' :: rest) quads pad1 pad2 l pos =
      Base64Base.decode_impure p rest quads pad1 pad2 (l + 1) 1 := by
  rw [Base64Base.decode_impure]
  simp [hnl]

theorem b64_step_pad1 {p : Base64Base.Params}
    (heqv : p.is_valid_character '=' = false) (rest quads : List Char)
    (pad2 : Bool) (l pos : Nat) :
    Base64Base.decode_impure p ('=' :: rest) quads false pad2 l pos =
      Base64Base.decode_impure p rest quads true pad2 l (pos + 1) := by
  rw [Base64Base.decode_impure]
  simp [heqv]

theorem b64_step_pad2 {p : Base64Base.Params}
    (heqv : p.is_valid_character '=' = false) (rest quads : List Char) (l pos : Nat) :
    Base64Base.decode_impure p ('=' :: rest) quads true false l pos =
      Base64Base.decode_impure p rest quads true true l (pos + 1) := by
  rw [Base64Base.decode_impure]
  simp [heqv]

theorem b64_done_empty (p : Base64Base.Params) (pad1 pad2 : Bool) (l pos : Nat) :
    Base64Base.decode_impure p [] [] pad1 pad2 l pos = .ok [] := rfl

theorem b64_done_two (p : Base64Base.Params) (q0 q1 : Char) (l pos : Nat) :
    Base64Base.decode_impure p [] [q0, q1] true true l pos =
      .ok ((Base64Base.decode_quad p q0 q1 'A' 'A').take 1) := rfl

theorem b64_done_three (p : Base64Base.Params) (q0 q1 q2 : Char) (l pos : Nat) :
    Base64Base.decode_impure p [] [q0, q1, q2] true false l pos =
      .ok ((Base64Base.decode_quad p q0 q1 q2 'A').take 2) := rfl

theorem b64_rt_one {p : Base64Base.Params}
    (hinv : ∀ i, i < 64 → p.decode_table.getD (p.alphabet.getD i ' ').toNat 0x64 = i)
    (hval : ∀ i, i < 64 → p.is_valid_character (p.alphabet.getD i ' ') = true)
    (heqv : p.is_valid_character '=' = false)
    (hA0 : p.decode_table.getD ('A'.toNat) 0x64 = 0)
    (b0 : Nat) (hb0 : b0 < 256) (l pos : Nat) :
    Base64Base.decode_impure p (Base64Base.do_encode p [b0]) [] false false l pos =
      .ok [b0] := by
  have hs0 : (b0 >>> 2) &&& 0x3F = b0 / 4 % 64 := by rw [shr2, land63]
  have hs1 : (b0 &&& 0x03) <<< 4 = b0 % 4 * 2 ^ 4 := by rw [land3, Nat.shiftLeft_eq]
  rw [Base64Base.do_encode]
  rw [b64_step_acc (by rw [hs0]; exact hval _ (by omega)) (by simp)]
  rw [b64_step_acc (by rw [hs1]; exact hval _ (by omega)) (by simp)]
  rw [b64_step_pad1 heqv, b64_step_pad2 heqv]
  simp only [List.nil_append, List.singleton_append, List.cons_append]
  rw [b64_done_two]
  rw [b64_quad_one hinv hA0 b0 hb0]

theorem b64_rt_two {p : Base64Base.Params}
    (hinv : ∀ i, i < 64 → p.decode_table.getD (p.alphabet.getD i ' ').toNat 0x64 = i)
    (hval : ∀ i, i < 64 → p.is_valid_character (p.alphabet.getD i ' ') = true)
    (heqv : p.is_valid_character '=' = false)
    (hA0 : p.decode_table.getD ('A'.toNat) 0x64 = 0)
    (b0 b1 : Nat) (hb0 : b0 < 256) (hb1 : b1 < 256) (l pos : Nat) :
    Base64Base.decode_impure p (Base64Base.do_encode p [b0, b1]) [] false false l pos =
      .ok [b0, b1] := by
  have hs0 : (b0 >>> 2) &&& 0x3F = b0 / 4 % 64 := by rw [shr2, land63]
  have hs1 : ((b0 &&& 0x03) <<< 4) ||| ((b1 &&& 0xF0) >>> 4) =
      b0 % 4 * 2 ^ 4 + b1 / 16 % 16 := by
    rw [land3, shl_mask240, Nat.shiftLeft_eq]
    exact lor_eq_add (k := 4) (by omega) (by omega)
  have hs2 : (b1 &&& 0x0F) <<< 2 = b1 % 16 * 2 ^ 2 := by rw [land15, Nat.shiftLeft_eq]
  rw [Base64Base.do_encode]
  rw [b64_step_acc (by rw [hs0]; exact hval _ (by omega)) (by simp)]
  rw [b64_step_acc (by rw [hs1]; exact hval _ (by omega)) (by simp)]
  rw [b64_step_acc (by rw [hs2]; exact hval _ (by omega)) (by simp)]
  rw [b64_step_pad1 heqv]
  simp only [List.nil_append, List.singleton_append, List.cons_append]
  rw [b64_done_three]
  rw [b64_quad_two hinv hA0 b0 b1 hb0 hb1]

theorem b64_rt_step {p : Base64Base.Params}
    (hinv : ∀ i, i < 64 → p.decode_table.getD (p.alphabet.getD i ' ').toNat 0x64 = i)
    (hval : ∀ i, i < 64 → p.is_valid_character (p.alphabet.getD i ' ') = true)
    (b0 b1 b2 : Nat) (rest : List Nat)
    (hb0 : b0 < 256) (hb1 : b1 < 256) (hb2 : b2 < 256) (l pos : Nat) :
    Base64Base.decode_impure p (Base64Base.do_encode p (b0 :: b1 :: b2 :: rest))
        [] false false l pos =
      (Base64Base.decode_impure p (Base64Base.do_encode p rest) [] false false
          l (pos + 4)).map ([b0, b1, b2] ++ ·) := by
  have hs0 : (b0 >>> 2) &&& 0x3F = b0 / 4 % 64 := by rw [shr2, land63]
  have hs1 : ((b0 &&& 0x03) <<< 4) ||| ((b1 &&& 0xF0) >>> 4) =
      b0 % 4 * 2 ^ 4 + b1 / 16 % 16 := by
    rw [land3, shl_mask240, Nat.shiftLeft_eq]
    exact lor_eq_add (k := 4) (by omega) (by omega)
  have hs2 : ((b1 &&& 0x0F) <<< 2) ||| ((b2 &&& 0xC0) >>> 6) =
      b1 % 16 * 2 ^ 2 + b2 / 64 % 4 := by
    rw [land15, shl_mask192, Nat.shiftLeft_eq]
    exact lor_eq_add (k := 2) (by omega) (by omega)
  have hs3 : b2 &&& 0x3F = b2 % 64 := land63 b2
  rw [Base64Base.do_encode]
  rw [b64_step_acc (by rw [hs0]; exact hval _ (by omega)) (by simp)]
  rw [b64_step_acc (by rw [hs1]; exact hval _ (by omega)) (by simp)]
  rw [b64_step_acc (by rw [hs2]; exact hval _ (by omega)) (by simp)]
  rw [b64_step_flush (by rw [hs3]; exact hval _ (by omega)) (by simp)]
  have hpos : pos + 1 + 1 + 1 + 1 = pos + 4 := by omega
  rw [hpos]
  simp only [List.nil_append, List.singleton_append, List.cons_append,
    List.getD_cons_zero, List.getD_cons_succ]
  rw [b64_quad_full hinv b0 b1 b2 hb0 hb1 hb2]
  simp only [List.cons_append, List.nil_append]

/-- Decoding the symbol stream of `Base64Base::do_encode` on the impure
(newline-handling) path recovers the input bytes, from any line/position
state. -/
theorem b64_decode_encode_impure {p : Base64Base.Params} (hp : Base64Base.Good p) :
    ∀ bytes : List Nat, (∀ b ∈ bytes, b < 256) → ∀ (l pos : Nat),
      Base64Base.decode_impure p (Base64Base.do_encode p bytes) [] false false l pos =
        .ok bytes := by
  obtain ⟨hinv, hval, hnl, heqv, hne, hA0⟩ := hp
  have main : ∀ n (bytes : List Nat), bytes.length ≤ n → (∀ b ∈ bytes, b < 256) →
      ∀ (l pos : Nat),
      Base64Base.decode_impure p (Base64Base.do_encode p bytes) [] false false l pos =
        .ok bytes := by
    intro n
    induction n with
    | zero =>
      intro bytes hlen _ l pos
      match bytes, hlen with
      | [], _ => rfl
    | succ n ihn =>
      intro bytes hlen h l pos
      match bytes with
      | [] => rfl
      | [b0] => exact b64_rt_one hinv hval heqv hA0 b0 (h b0 (by simp)) l pos
      | [b0, b1] =>
        exact b64_rt_two hinv hval heqv hA0 b0 b1 (h b0 (by simp)) (h b1 (by simp)) l pos
      | b0 :: b1 :: b2 :: rest =>
        rw [b64_rt_step hinv hval b0 b1 b2 rest (h b0 (by simp)) (h b1 (by simp))
          (h b2 (by simp)) l pos]
        rw [ihn rest (by simp at hlen; omega) (fun x hx => h x (by simp [hx]))]
        rw [except_map_ok_val]
        simp only [List.cons_append, List.nil_append]
  exact fun bytes => main bytes.length bytes le_rfl

theorem b64_encode_length (p : Base64Base.Params) :
    ∀ bytes : List Nat,
      (Base64Base.do_encode p bytes).length = 4 * ((bytes.length + 2) / 3) := by
  have main : ∀ n (bytes : List Nat), bytes.length ≤ n →
      (Base64Base.do_encode p bytes).length = 4 * ((bytes.length + 2) / 3) := by
    intro n
    induction n with
    | zero =>
      intro bytes hlen
      match bytes, hlen with
      | [], _ => rfl
    | succ n ihn =>
      intro bytes hlen
      match bytes with
      | [] => rfl
      | [b0] =>
        rw [Base64Base.do_encode]
        simp
      | [b0, b1] =>
        rw [Base64Base.do_encode]
        simp
      | b0 :: b1 :: b2 :: rest =>
        rw [Base64Base.do_encode]
        simp only [List.length_cons]
        rw [ihn rest (by simp at hlen; omega)]
        omega
  exact fun bytes => main bytes.length bytes le_rfl

theorem b64_first_invalid_none {p : Base64Base.Params} :
    ∀ s : List Char, (∀ c ∈ s, p.is_valid_character c = true) → ∀ pos,
      Base64Base.first_invalid_pos p s pos = none := by
  intro s
  induction s with
  | nil => intro _ pos; rfl
  | cons c rest ih =>
    intro h pos
    rw [Base64Base.first_invalid_pos]
    rw [if_pos (h c (by simp))]
    exact ih (fun x hx => h x (by simp [hx])) (pos + 1)

/-- The shape of a nonempty Base64 encoding: a run of valid characters
followed by a final two-character block that is valid-valid, valid-pad or
pad-pad. -/
theorem b64_encode_split {p : Base64Base.Params}
    (hval : ∀ i, i < 64 → p.is_valid_character (p.alphabet.getD i ' ') = true) :
    ∀ bytes : List Nat, (∀ b ∈ bytes, b < 256) → bytes ≠ [] →
      ∃ v x y, Base64Base.do_encode p bytes = v ++ [x, y] ∧
        (∀ c ∈ v, p.is_valid_character c = true) ∧
        ((p.is_valid_character x = true ∧ p.is_valid_character y = true) ∨
         (p.is_valid_character x = true ∧ y = '=') ∨ (x = '=' ∧ y = '=')) := by
  have main : ∀ n (bytes : List Nat), bytes.length ≤ n → (∀ b ∈ bytes, b < 256) →
      bytes ≠ [] →
      ∃ v x y, Base64Base.do_encode p bytes = v ++ [x, y] ∧
        (∀ c ∈ v, p.is_valid_character c = true) ∧
        ((p.is_valid_character x = true ∧ p.is_valid_character y = true) ∨
         (p.is_valid_character x = true ∧ y = '=') ∨ (x = '=' ∧ y = '=')) := by
    intro n
    induction n with
    | zero =>
      intro bytes hlen _ hne
      match bytes, hlen with
      | [], _ => exact absurd rfl hne
    | succ n ihn =>
      intro bytes hlen h hne
      match bytes with
      | [] => exact absurd rfl hne
      | [b0] =>
        have hb0 : b0 < 256 := h b0 (by simp)
        have hs0 : (b0 >>> 2) &&& 0x3F = b0 / 4 % 64 := by rw [shr2, land63]
        have hs1 : (b0 &&& 0x03) <<< 4 = b0 % 4 * 2 ^ 4 := by
          rw [land3, Nat.shiftLeft_eq]
        refine ⟨[p.alphabet.getD ((b0 >>> 2) &&& 0x3F) ' ',
                 p.alphabet.getD ((b0 &&& 0x03) <<< 4) ' '], '=', '=',
          by rw [Base64Base.do_encode]; rfl, ?_, Or.inr (Or.inr ⟨rfl, rfl⟩)⟩
        intro c hc
        simp only [List.mem_cons, List.not_mem_nil, or_false] at hc
        rcases hc with rfl | rfl
        · rw [hs0]; exact hval _ (by omega)
        · rw [hs1]; exact hval _ (by omega)
      | [b0, b1] =>
        have hb0 : b0 < 256 := h b0 (by simp)
        have hb1 : b1 < 256 := h b1 (by simp)
        have hs0 : (b0 >>> 2) &&& 0x3F = b0 / 4 % 64 := by rw [shr2, land63]
        have hs1 : ((b0 &&& 0x03) <<< 4) ||| ((b1 &&& 0xF0) >>> 4) =
            b0 % 4 * 2 ^ 4 + b1 / 16 % 16 := by
          rw [land3, shl_mask240, Nat.shiftLeft_eq]
          exact lor_eq_add (k := 4) (by omega) (by omega)
        have hs2 : (b1 &&& 0x0F) <<< 2 = b1 % 16 * 2 ^ 2 := by
          rw [land15, Nat.shiftLeft_eq]
        refine ⟨[p.alphabet.getD ((b0 >>> 2) &&& 0x3F) ' ',
                 p.alphabet.getD (((b0 &&& 0x03) <<< 4) ||| ((b1 &&& 0xF0) >>> 4)) ' '],
          p.alphabet.getD ((b1 &&& 0x0F) <<< 2) ' ', '=',
          by rw [Base64Base.do_encode]; rfl, ?_,
          Or.inr (Or.inl ⟨by rw [hs2]; exact hval _ (by omega), rfl⟩)⟩
        intro c hc
        simp only [List.mem_cons, List.not_mem_nil, or_false] at hc
        rcases hc with rfl | rfl
        · rw [hs0]; exact hval _ (by omega)
        · rw [hs1]; exact hval _ (by omega)
      | [b0, b1, b2] =>
        have hb0 : b0 < 256 := h b0 (by simp)
        have hb1 : b1 < 256 := h b1 (by simp)
        have hb2 : b2 < 256 := h b2 (by simp)
        have hs0 : (b0 >>> 2) &&& 0x3F = b0 / 4 % 64 := by rw [shr2, land63]
        have hs1 : ((b0 &&& 0x03) <<< 4) ||| ((b1 &&& 0xF0) >>> 4) =
            b0 % 4 * 2 ^ 4 + b1 / 16 % 16 := by
          rw [land3, shl_mask240, Nat.shiftLeft_eq]
          exact lor_eq_add (k := 4) (by omega) (by omega)
        have hs2 : ((b1 &&& 0x0F) <<< 2) ||| ((b2 &&& 0xC0) >>> 6) =
            b1 % 16 * 2 ^ 2 + b2 / 64 % 4 := by
          rw [land15, shl_mask192, Nat.shiftLeft_eq]
          exact lor_eq_add (k := 2) (by omega) (by omega)
        have hs3 : b2 &&& 0x3F = b2 % 64 := land63 b2
        refine ⟨[p.alphabet.getD ((b0 >>> 2) &&& 0x3F) ' ',
                 p.alphabet.getD (((b0 &&& 0x03) <<< 4) ||| ((b1 &&& 0xF0) >>> 4)) ' '],
          p.alphabet.getD (((b1 &&& 0x0F) <<< 2) ||| ((b2 &&& 0xC0) >>> 6)) ' ',
          p.alphabet.getD (b2 &&& 0x3F) ' ',
          by rw [Base64Base.do_encode]; rfl, ?_,
          Or.inl ⟨by rw [hs2]; exact hval _ (by omega),
                  by rw [hs3]; exact hval _ (by omega)⟩⟩
        intro c hc
        simp only [List.mem_cons, List.not_mem_nil, or_false] at hc
        rcases hc with rfl | rfl
        · rw [hs0]; exact hval _ (by omega)
        · rw [hs1]; exact hval _ (by omega)
      | b0 :: b1 :: b2 :: b3 :: rest2 =>
        have hb0 : b0 < 256 := h b0 (by simp)
        have hb1 : b1 < 256 := h b1 (by simp)
        have hb2 : b2 < 256 := h b2 (by simp)
        have hs0 : (b0 >>> 2) &&& 0x3F = b0 / 4 % 64 := by rw [shr2, land63]
        have hs1 : ((b0 &&& 0x03) <<< 4) ||| ((b1 &&& 0xF0) >>> 4) =
            b0 % 4 * 2 ^ 4 + b1 / 16 % 16 := by
          rw [land3, shl_mask240, Nat.shiftLeft_eq]
          exact lor_eq_add (k := 4) (by omega) (by omega)
        have hs2 : ((b1 &&& 0x0F) <<< 2) ||| ((b2 &&& 0xC0) >>> 6) =
            b1 % 16 * 2 ^ 2 + b2 / 64 % 4 := by
          rw [land15, shl_mask192, Nat.shiftLeft_eq]
          exact lor_eq_add (k := 2) (by omega) (by omega)
        have hs3 : b2 &&& 0x3F = b2 % 64 := land63 b2
        obtain ⟨v, x, y, hEq, hv, hcase⟩ :=
          ihn (b3 :: rest2) (by simp at hlen ⊢; omega)
            (fun z hz => h z (by simp at hz ⊢; tauto)) (by simp)
        refine ⟨p.alphabet.getD ((b0 >>> 2) &&& 0x3F) ' ' ::
          p.alphabet.getD (((b0 &&& 0x03) <<< 4) ||| ((b1 &&& 0xF0) >>> 4)) ' ' ::
          p.alphabet.getD (((b1 &&& 0x0F) <<< 2) ||| ((b2 &&& 0xC0) >>> 6)) ' ' ::
          p.alphabet.getD (b2 &&& 0x3F) ' ' :: v, x, y,
          by rw [Base64Base.do_encode, hEq]; simp, ?_, hcase⟩
        intro c hc
        simp only [List.mem_cons] at hc
        rcases hc with rfl | rfl | rfl | rfl | hc
        · rw [hs0]; exact hval _ (by omega)
        · rw [hs1]; exact hval _ (by omega)
        · rw [hs2]; exact hval _ (by omega)
        · rw [hs3]; exact hval _ (by omega)
        · exact hv c hc
  exact fun bytes => main bytes.length bytes le_rfl

/-- `validate_str` accepts every nonempty encoder output. -/
theorem b64_validate_encode_none {p : Base64Base.Params} (hp : Base64Base.Good p)
    (bytes : List Nat) (hb : ∀ b ∈ bytes, b < 256) (hne0 : bytes ≠ []) :
    Base64Base.validate_str p (Base64Base.do_encode p bytes) = none := by
  obtain ⟨hinv, hval, hnl, heqv, hne, hA0⟩ := hp
  obtain ⟨v, x, y, hEq, hv, hcase⟩ := b64_encode_split hval bytes hb hne0
  have hlen4 : (Base64Base.do_encode p bytes).length % 4 = 0 := by
    rw [b64_encode_length]
    omega
  rw [hEq] at hlen4
  rw [hEq, Base64Base.validate_str]
  rw [if_neg (by omega)]
  have hsub : (v ++ [x, y]).length - 2 = v.length := by simp
  rw [hsub, List.take_left, b64_first_invalid_none v hv 0]
  have hx : (v ++ [x, y]).getD v.length ' ' = x := by
    rw [List.getD_append_right _ _ _ _ le_rfl]
    simp
  have hy : (v ++ [x, y]).getD (v.length + 1) ' ' = y := by
    rw [List.getD_append_right _ _ _ _ (by omega)]
    simp
  have hsub1 : (v ++ [x, y]).length - 1 = v.length + 1 := by simp
  rw [hsub1, hx, hy]
  rcases hcase with ⟨hvx, hvy⟩ | ⟨hvx, rfl⟩ | ⟨rfl, rfl⟩
  · rw [if_neg (by simp [hvx]), if_pos (Or.inl hvy)]
  · rw [if_neg (by simp [hvx]), if_pos (Or.inr rfl)]
  · rw [if_neg (by simp), if_pos (Or.inr rfl)]

/-- `decode_pure` inverts the encoder on every nonempty input. -/
theorem b64_decode_pure_encode {p : Base64Base.Params} (hp : Base64Base.Good p) :
    ∀ bytes : List Nat, (∀ b ∈ bytes, b < 256) → bytes ≠ [] →
      Base64Base.decode_pure p (Base64Base.do_encode p bytes) = bytes := by
  obtain ⟨hinv, hval, hnl, heqv, hne, hA0⟩ := hp
  have main : ∀ n (bytes : List Nat), bytes.length ≤ n → (∀ b ∈ bytes, b < 256) →
      bytes ≠ [] →
      Base64Base.decode_pure p (Base64Base.do_encode p bytes) = bytes := by
    intro n
    induction n with
    | zero =>
      intro bytes hlen _ hne0
      match bytes, hlen with
      | [], _ => exact absurd rfl hne0
    | succ n ihn =>
      intro bytes hlen h hne0
      match bytes with
      | [] => exact absurd rfl hne0
      | [b0] =>
        have hb0 : b0 < 256 := h b0 (by simp)
        rw [Base64Base.do_encode, Base64Base.decode_pure]
        rw [if_pos (by simp), if_pos rfl]
        exact b64_quad_one hinv hA0 b0 hb0
      | [b0, b1] =>
        have hb0 : b0 < 256 := h b0 (by simp)
        have hb1 : b1 < 256 := h b1 (by simp)
        have hs2 : (b1 &&& 0x0F) <<< 2 = b1 % 16 * 2 ^ 2 := by
          rw [land15, Nat.shiftLeft_eq]
        rw [Base64Base.do_encode, Base64Base.decode_pure]
        rw [if_pos (by simp), if_neg (by rw [hs2]; exact hne _ (by omega)), if_pos rfl]
        exact b64_quad_two hinv hA0 b0 b1 hb0 hb1
      | [b0, b1, b2] =>
        have hb0 : b0 < 256 := h b0 (by simp)
        have hb1 : b1 < 256 := h b1 (by simp)
        have hb2 : b2 < 256 := h b2 (by simp)
        have hs2 : ((b1 &&& 0x0F) <<< 2) ||| ((b2 &&& 0xC0) >>> 6) =
            b1 % 16 * 2 ^ 2 + b2 / 64 % 4 := by
          rw [land15, shl_mask192, Nat.shiftLeft_eq]
          exact lor_eq_add (k := 2) (by omega) (by omega)
        have hs3 : b2 &&& 0x3F = b2 % 64 := land63 b2
        rw [Base64Base.do_encode]
        rw [show Base64Base.do_encode p [] = [] from rfl]
        rw [Base64Base.decode_pure]
        rw [if_pos (by simp), if_neg (by rw [hs2]; exact hne _ (by omega)),
          if_neg (by rw [hs3]; exact hne _ (by omega))]
        exact b64_quad_full hinv b0 b1 b2 hb0 hb1 hb2
      | b0 :: b1 :: b2 :: b3 :: rest2 =>
        have hb0 : b0 < 256 := h b0 (by simp)
        have hb1 : b1 < 256 := h b1 (by simp)
        have hb2 : b2 < 256 := h b2 (by simp)
        have htail : (Base64Base.do_encode p (b3 :: rest2)).length ≠ 0 := by
          rw [b64_encode_length]
          simp only [List.length_cons]
          omega
        rw [Base64Base.do_encode, Base64Base.decode_pure]
        rw [if_neg htail]
        rw [b64_quad_full hinv b0 b1 b2 hb0 hb1 hb2]
        rw [ihn (b3 :: rest2) (by simp at hlen ⊢; omega)
          (fun z hz => h z (by simp at hz ⊢; tauto)) (by simp)]
        simp only [List.cons_append, List.nil_append]
  exact fun bytes => main bytes.length bytes le_rfl

/-- Base64 decode(encode) on the default (validate + pure) path. -/
theorem b64_round_trip_pure {p : Base64Base.Params} (hp : Base64Base.Good p)
    (bytes : List Nat) (hb : ∀ b ∈ bytes, b < 256) :
    Base64Base.do_decode p (Base64Base.do_encode p bytes) false = .ok bytes := by
  match bytes with
  | [] => rfl
  | b :: rest =>
    have hlen : (Base64Base.do_encode p (b :: rest)).length ≠ 0 := by
      rw [b64_encode_length]
      simp only [List.length_cons]
      omega
    unfold Base64Base.do_decode
    rw [if_neg hlen, if_pos rfl, b64_validate_encode_none hp (b :: rest) hb (by simp)]
    rw [b64_decode_pure_encode hp (b :: rest) hb (by simp)]

/-- Base64 decode(encode) on the newline-handling (impure) path. -/
theorem b64_round_trip_impure {p : Base64Base.Params} (hp : Base64Base.Good p)
    (bytes : List Nat) (hb : ∀ b ∈ bytes, b < 256) :
    Base64Base.do_decode p (Base64Base.do_encode p bytes) true = .ok bytes := by
  match bytes with
  | [] => rfl
  | b :: rest =>
    have hlen : (Base64Base.do_encode p (b :: rest)).length ≠ 0 := by
      rw [b64_encode_length]
      simp only [List.length_cons]
      omega
    unfold Base64Base.do_decode
    rw [if_neg hlen, if_neg (by simp)]
    exact b64_decode_encode_impure hp (b :: rest) hb 1 1

theorem b64_good_base64 : Base64Base.Good Base64Base.base64 := by
  refine ⟨?_, ?_, by decide, by decide, ?_, by decide⟩ <;> decide

theorem b64_good_base64url : Base64Base.Good Base64Base.base64url := by
  refine ⟨?_, ?_, by decide, by decide, ?_, by decide⟩ <;> decide

theorem base16_round_trip_wrapped (bytes : List Nat) (hb : ∀ b ∈ bytes, b < 256)
    (wrapat : Nat) :
    Base16.decode (Base16.do_encode bytes wrapat) true = .ok bytes := by
  unfold Base16.decode Base16.do_encode
  exact base16_decode_wrap _ [] bytes 1 1 wrapat 0 1 1
    (base16_decode_encode_symbols bytes hb true 1 1)

theorem base16_round_trip_plain (bytes : List Nat) (hb : ∀ b ∈ bytes, b < 256)
    (hn : Bool) :
    Base16.decode (Base16.do_encode bytes 0) hn = .ok bytes := by
  unfold Base16.decode Base16.do_encode
  rw [wrap_newlines_zero]
  exact base16_decode_encode_symbols bytes hb hn 1 1

/-- C1: for every finite byte sequence and every codec (Base16, Base32,
Base32Hex, Base64, Base64Url), decoding the encoding yields the original
bytes.  Base16 and Base32 encoders take a wrap width: any width round-trips
when newline handling is enabled on decode, and unwrapped output (width 0)
round-trips under either flag.  The Base64 encoder never wraps and its
output round-trips under either flag. -/
theorem c1_round_trip (bytes : List Nat) (hb : ∀ b ∈ bytes, b < 256) :
    (∀ wrapat : Nat,
      Base16.decode (Base16.do_encode bytes wrapat) true = .ok bytes ∧
      Base32Base.decode Base32Base.base32
        (Base32Base.do_encode Base32Base.base32 bytes wrapat) true = .ok bytes ∧
      Base32Base.decode Base32Base.base32hex
        (Base32Base.do_encode Base32Base.base32hex bytes wrapat) true = .ok bytes) ∧
    (∀ hn : Bool,
      Base16.decode (Base16.do_encode bytes 0) hn = .ok bytes ∧
      Base32Base.decode Base32Base.base32
        (Base32Base.do_encode Base32Base.base32 bytes 0) hn = .ok bytes ∧
      Base32Base.decode Base32Base.base32hex
        (Base32Base.do_encode Base32Base.base32hex bytes 0) hn = .ok bytes ∧
      Base64Base.do_decode Base64Base.base64
        (Base64Base.do_encode Base64Base.base64 bytes) hn = .ok bytes ∧
      Base64Base.do_decode Base64Base.base64url
        (Base64Base.do_encode Base64Base.base64url bytes) hn = .ok bytes) := by
  refine ⟨fun wrapat => ⟨?_, ?_, ?_⟩, fun hn => ⟨?_, ?_, ?_, ?_, ?_⟩⟩
  · exact base16_round_trip_wrapped bytes hb wrapat
  · exact b32_round_trip_wrapped b32_good_base32 bytes hb wrapat
  · exact b32_round_trip_wrapped b32_good_base32hex bytes hb wrapat
  · exact base16_round_trip_plain bytes hb hn
  · exact b32_round_trip_plain b32_good_base32 bytes hb hn
  · exact b32_round_trip_plain b32_good_base32hex bytes hb hn
  · cases hn
    · exact b64_round_trip_pure b64_good_base64 bytes hb
    · exact b64_round_trip_impure b64_good_base64 bytes hb
  · cases hn
    · exact b64_round_trip_pure b64_good_base64url bytes hb
    · exact b64_round_trip_impure b64_good_base64url bytes hb

/-- Witness for C1 at the bytes of "foobar" and wrap width 5. -/
theorem c1_round_trip_witness :
    (∀ b ∈ [102, 111, 111, 98, 97, 114], b < 256) ∧
    Base16.decode (Base16.do_encode [102, 111, 111, 98, 97, 114] 5) true =
      .ok [102, 111, 111, 98, 97, 114] ∧
    Base32Base.decode Base32Base.base32
      (Base32Base.do_encode Base32Base.base32 [102, 111, 111, 98, 97, 114] 5) true =
      .ok [102, 111, 111, 98, 97, 114] ∧
    Base64Base.do_decode Base64Base.base64
      (Base64Base.do_encode Base64Base.base64 [102, 111, 111, 98, 97, 114]) false =
      .ok [102, 111, 111, 98, 97, 114] :=
  ⟨by decide,
   ((c1_round_trip [102, 111, 111, 98, 97, 114] (by decide)).1 5).1,
   ((c1_round_trip [102, 111, 111, 98, 97, 114] (by decide)).1 5).2.1,
   ((c1_round_trip [102, 111, 111, 98, 97, 114] (by decide)).2 false).2.2.2.1⟩

theorem decode_eights_length (p : Base32Base.Params) (s : List Char) :
    (Base32Base.decode_eights p s).length = 5 := rfl

/-- Running `Base32Base::do_decode` over valid characters only accumulates
them into the `eights` array while the array stays below eight entries. -/
theorem b32_run_acc {p : Base32Base.Params} (hn : Bool) :
    ∀ s : List Char, (∀ c ∈ s, p.is_valid_character c = true) →
      ∀ (eights : List Char) (l pos : Nat), eights.length + s.length ≤ 7 →
        Base32Base.do_decode p hn s eights l pos 0 =
          Base32Base.decode_leftover p (eights ++ s) := by
  intro s
  induction s with
  | nil =>
    intro _ eights l pos _
    rw [b32_step_done, List.append_nil]
  | cons c rest ih =>
    intro h eights l pos hlen
    rw [b32_step_acc (h c (by simp)) (by simp at hlen; omega)]
    rw [ih (fun x hx => h x (by simp [hx])) (eights ++ [c]) l (pos + 1)
      (by simp at hlen ⊢; omega)]
    rw [List.append_assoc]
    rfl

/-- C6 amended: a leftover final partial group of 2, 3, 4, 5, 6 or 7 valid
symbols decodes to 1, 2, 2, 3, 4 and 4 output bytes respectively (the
`eights_pos` switch maps lengths 3 and 4 both to 2 bytes and lengths 6 and
7 both to 4 bytes). -/
theorem c6_amended (p : Base32Base.Params) (s : List Char) (hn : Bool)
    (hv : ∀ c ∈ s, p.is_valid_character c = true) :
    (s.length = 2 → (Base32Base.decode p s hn).map List.length = .ok 1) ∧
    (s.length = 3 → (Base32Base.decode p s hn).map List.length = .ok 2) ∧
    (s.length = 4 → (Base32Base.decode p s hn).map List.length = .ok 2) ∧
    (s.length = 5 → (Base32Base.decode p s hn).map List.length = .ok 3) ∧
    (s.length = 6 → (Base32Base.decode p s hn).map List.length = .ok 4) ∧
    (s.length = 7 → (Base32Base.decode p s hn).map List.length = .ok 4) := by
  refine ⟨fun h => ?_, fun h => ?_, fun h => ?_, fun h => ?_, fun h => ?_, fun h => ?_⟩ <;>
  · unfold Base32Base.decode
    rw [b32_run_acc hn s hv [] 1 1 (by simp [h])]
    rw [List.nil_append, Base32Base.decode_leftover, h]
    norm_num
    simp [except_map_ok_val, List.length_take, decode_eights_length]

/-- Witness for C6 at the Base32 alphabet: the prefixes of "MZXW6YT" of
lengths 2 through 7 decode to 1, 2, 2, 3, 4 and 4 bytes. -/
theorem c6_amended_witness :
    (∀ c ∈ ['M', 'Z', 'X', 'W', '6', 'Y', 'T'],
      Base32Base.base32.is_valid_character c = true) ∧
    (Base32Base.decode Base32Base.base32 ['M', 'Z'] false).map List.length = .ok 1 ∧
    (Base32Base.decode Base32Base.base32 ['M', 'Z', 'X'] false).map List.length = .ok 2 ∧
    (Base32Base.decode Base32Base.base32 ['M', 'Z', 'X', 'W'] false).map List.length =
      .ok 2 ∧
    (Base32Base.decode Base32Base.base32 ['M', 'Z', 'X', 'W', '6'] false).map
      List.length = .ok 3 ∧
    (Base32Base.decode Base32Base.base32 ['M', 'Z', 'X', 'W', '6', 'Y'] false).map
      List.length = .ok 4 ∧
    (Base32Base.decode Base32Base.base32 ['M', 'Z', 'X', 'W', '6', 'Y', 'T'] false).map
      List.length = .ok 4 :=
  ⟨by decide,
   (c6_amended Base32Base.base32 ['M', 'Z'] false (by decide)).1 rfl,
   (c6_amended Base32Base.base32 ['M', 'Z', 'X'] false (by decide)).2.1 rfl,
   (c6_amended Base32Base.base32 ['M', 'Z', 'X', 'W'] false (by decide)).2.2.1 rfl,
   (c6_amended Base32Base.base32 ['M', 'Z', 'X', 'W', '6'] false (by decide)).2.2.2.1 rfl,
   (c6_amended Base32Base.base32 ['M', 'Z', 'X', 'W', '6', 'Y'] false
     (by decide)).2.2.2.2.1 rfl,
   (c6_amended Base32Base.base32 ['M', 'Z', 'X', 'W', '6', 'Y', 'T'] false
     (by decide)).2.2.2.2.2 rfl⟩

theorem except_map_error {e a b : Type} (f : a → b) (err : e) :
    (Except.error err : Except e a).map f = .error err := rfl

/-- An odd stream of valid Base16 symbols always ends in the "Length error"
report, carried at the current line/position state. -/
theorem base16_run_odd (hn : Bool) :
    ∀ s : List Char, (∀ c ∈ s, Base16.is_valid_character c = true) →
      ∀ (duo : List Char) (l pos : Nat), duo.length ≤ 1 →
        (duo.length + s.length) % 2 = 1 →
        Base16.do_decode hn s duo l pos = .error ⟨l, pos, "Length error"⟩ := by
  intro s
  induction s with
  | nil =>
    intro _ duo l pos hd hpar
    have h0 : duo.length ≠ 0 := by simp at hpar; omega
    rw [Base16.do_decode]
    simp [h0]
  | cons c rest ih =>
    intro h duo l pos hd hpar
    by_cases hd1 : duo.length = 1
    · obtain ⟨c0, rfl⟩ := List.length_eq_one.mp hd1
      rw [base16_step_second (h c (by simp))]
      rw [ih (fun x hx => h x (by simp [hx])) [] l pos (by simp)
        (by simp at hpar ⊢; omega)]
      rw [except_map_error]
    · rw [base16_step_acc (h c (by simp)) hd1]
      exact ih (fun x hx => h x (by simp [hx])) [c] l pos (by simp)
        (by simp at hpar ⊢; omega)

/-- A stream of valid Base64 symbols whose total count is not a multiple of
four always ends in the "Invalid length or padding" report, at the position
one past the last character. -/
theorem b64_run_odd {p : Base64Base.Params} :
    ∀ s : List Char, (∀ c ∈ s, p.is_valid_character c = true) →
      ∀ (quads : List Char) (l pos : Nat), quads.length ≤ 3 →
        (quads.length + s.length) % 4 ≠ 0 →
        Base64Base.decode_impure p s quads false false l pos =
          .error ⟨l, pos + s.length, "Invalid length or padding"⟩ := by
  intro s
  induction s with
  | nil =>
    intro _ quads l pos hq hpar
    have h0 : quads.length ≠ 0 := by simp at hpar; omega
    rw [Base64Base.decode_impure]
    simp [h0]
  | cons c rest ih =>
    intro h quads l pos hq hpar
    simp only [List.length_cons]
    have e : pos + (rest.length + 1) = pos + 1 + rest.length := by omega
    rw [e]
    by_cases h3 : quads.length = 3
    · rw [b64_step_flush (h c (by simp)) h3]
      rw [ih (fun x hx => h x (by simp [hx])) [] l (pos + 1) (by simp)
        (by simp at hpar ⊢; omega)]
      rw [except_map_error]
    · rw [b64_step_acc (h c (by simp)) h3]
      exact ih (fun x hx => h x (by simp [hx])) (quads ++ [c]) l (pos + 1)
        (by simp; omega) (by simp at hpar ⊢; omega)

/-- C7 amended: Base16 reports "Length error" for any odd count of valid
symbols (at the never-advanced position (1,1)); Base32 silently accepts a
single leftover symbol with no output; Base64 reports "Invalid length or
padding" on the newline-handling path and "Invalid length" on the default
path when the count of valid symbols is not a multiple of four. -/
theorem c7_amended :
    (∀ (s : List Char) (hn : Bool), (∀ c ∈ s, Base16.is_valid_character c = true) →
      s.length % 2 = 1 → Base16.decode s hn = .error ⟨1, 1, "Length error"⟩) ∧
    (∀ (p : Base32Base.Params) (s : List Char) (hn : Bool),
      (∀ c ∈ s, p.is_valid_character c = true) → s.length = 1 →
      Base32Base.decode p s hn = .ok []) ∧
    (∀ (p : Base64Base.Params) (s : List Char),
      (∀ c ∈ s, p.is_valid_character c = true) → s.length % 4 ≠ 0 →
      Base64Base.do_decode p s true =
        .error ⟨1, 1 + s.length, "Invalid length or padding"⟩ ∧
      Base64Base.do_decode p s false = .error ⟨0, s.length, "Invalid length"⟩) := by
  refine ⟨?_, ?_, ?_⟩
  · intro s hn hv hodd
    unfold Base16.decode
    exact base16_run_odd hn s hv [] 1 1 (by simp) (by simpa using hodd)
  · intro p s hn hv h1
    unfold Base32Base.decode
    rw [b32_run_acc hn s hv [] 1 1 (by simp [h1]), List.nil_append,
      Base32Base.decode_leftover, h1]
    norm_num
  · intro p s hv h4
    have hne : s.length ≠ 0 := by omega
    have hval : Base64Base.validate_str p s = some ⟨0, s.length, "Invalid length"⟩ := by
      rw [Base64Base.validate_str, if_pos h4]
    constructor
    · unfold Base64Base.do_decode
      rw [if_neg hne, if_neg (by simp)]
      exact b64_run_odd s hv [] 1 1 (by simp) (by simpa using h4)
    · unfold Base64Base.do_decode
      rw [if_neg hne, if_pos rfl, hval]

/-- Witness for C7: "F" (Base16), "M" (Base32) and "Zm9" (Base64). -/
theorem c7_amended_witness :
    (∀ c ∈ ['F'], Base16.is_valid_character c = true) ∧
    Base16.decode ['F'] false = .error ⟨1, 1, "Length error"⟩ ∧
    Base32Base.decode Base32Base.base32 ['M'] true = .ok [] ∧
    Base64Base.do_decode Base64Base.base64 ['Z', 'm', '9'] true =
      .error ⟨1, 4, "Invalid length or padding"⟩ ∧
    Base64Base.do_decode Base64Base.base64 ['Z', 'm', '9'] false =
      .error ⟨0, 3, "Invalid length"⟩ :=
  ⟨by decide,
   c7_amended.1 ['F'] false (by decide) (by decide),
   c7_amended.2.1 Base32Base.base32 ['M'] true (by decide) rfl,
   (c7_amended.2.2 Base64Base.base64 ['Z', 'm', '9'] (by decide) (by decide)).1,
   (c7_amended.2.2 Base64Base.base64 ['Z', 'm', '9'] (by decide) (by decide)).2⟩

theorem b32_leftover_ok (p : Base32Base.Params) (eights : List Char) :
    ∃ v, Base32Base.decode_leftover p eights = .ok v := by
  rw [Base32Base.decode_leftover]
  split
  · exact ⟨[], rfl⟩
  · dsimp only
    split <;> exact ⟨_, rfl⟩

/-- A stream of valid Base32 symbols always decodes successfully. -/
theorem b32_run_ok {p : Base32Base.Params} (hn : Bool) :
    ∀ s : List Char, (∀ c ∈ s, p.is_valid_character c = true) →
      ∀ (eights : List Char) (l pos : Nat), eights.length ≤ 7 →
        ∃ v, Base32Base.do_decode p hn s eights l pos 0 = .ok v := by
  intro s
  induction s with
  | nil =>
    intro _ eights l pos _
    rw [b32_step_done]
    exact b32_leftover_ok p eights
  | cons c rest ih =>
    intro h eights l pos he
    by_cases h7 : eights.length = 7
    · rw [b32_step_flush (h c (by simp)) h7]
      obtain ⟨v, hv⟩ := ih (fun x hx => h x (by simp [hx])) [] l (pos + 1) (by simp)
      rw [hv, except_map_ok_val]
      exact ⟨_, rfl⟩
    · rw [b32_step_acc (h c (by simp)) h7]
      exact ih (fun x hx => h x (by simp [hx])) (eights ++ [c]) l (pos + 1)
        (by simp; omega)

/-- Up to six pad characters at the end of the input are consumed without
any effect on the result. -/
theorem b32_run_pads {p : Base32Base.Params}
    (heqv : p.is_valid_character '=' = false) (hn : Bool) :
    ∀ k (eights : List Char) (l pos pad : Nat), pad + k ≤ 6 →
      Base32Base.do_decode p hn (List.replicate k '=') eights l pos pad =
        Base32Base.decode_leftover p eights := by
  intro k
  induction k with
  | zero =>
    intro eights l pos pad _
    exact b32_step_done p hn eights l pos pad
  | succ k ihk =>
    intro eights l pos pad hp
    rw [List.replicate_succ]
    rw [b32_step_pad heqv (by omega)]
    exact ihk eights l (pos + 1) (pad + 1) (by omega)

theorem b32_run_same {p : Base32Base.Params}
    (heqv : p.is_valid_character '=' = false) (hn : Bool) :
    ∀ s : List Char, (∀ c ∈ s, p.is_valid_character c = true) →
      ∀ k, k ≤ 6 → ∀ (eights : List Char) (l pos : Nat),
        Base32Base.do_decode p hn (s ++ List.replicate k '=') eights l pos 0 =
          Base32Base.do_decode p hn s eights l pos 0 := by
  intro s
  induction s with
  | nil =>
    intro _ k hk eights l pos
    rw [List.nil_append, b32_run_pads heqv hn k eights l pos 0 (by omega), b32_step_done]
  | cons c rest ih =>
    intro h k hk eights l pos
    simp only [List.cons_append]
    by_cases h7 : eights.length = 7
    · rw [b32_step_flush (h c (by simp)) h7, b32_step_flush (h c (by simp)) h7]
      rw [ih (fun x hx => h x (by simp [hx])) k hk [] l (pos + 1)]
    · rw [b32_step_acc (h c (by simp)) h7, b32_step_acc (h c (by simp)) h7]
      exact ih (fun x hx => h x (by simp [hx])) k hk (eights ++ [c]) l (pos + 1)

/-- Error continuation: a run over valid symbols followed by a tail that
errors at offset `d` from its start errors at the corresponding absolute
position. -/
theorem b32_run_err {p : Base32Base.Params} (hn : Bool) (tail : List Char)
    (d : Nat) (m : String)
    (htail : ∀ (eights : List Char) (l pos : Nat), eights.length ≤ 7 →
      Base32Base.do_decode p hn tail eights l pos 0 = .error ⟨l, pos + d, m⟩) :
    ∀ s : List Char, (∀ c ∈ s, p.is_valid_character c = true) →
      ∀ (eights : List Char) (l pos : Nat), eights.length ≤ 7 →
        Base32Base.do_decode p hn (s ++ tail) eights l pos 0 =
          .error ⟨l, pos + s.length + d, m⟩ := by
  intro s
  induction s with
  | nil =>
    intro _ eights l pos he
    rw [List.nil_append, htail eights l pos he]
    simp
  | cons c rest ih =>
    intro h eights l pos he
    simp only [List.cons_append, List.length_cons]
    have e : pos + (rest.length + 1) + d = pos + 1 + rest.length + d := by omega
    rw [e]
    by_cases h7 : eights.length = 7
    · rw [b32_step_flush (h c (by simp)) h7]
      rw [ih (fun x hx => h x (by simp [hx])) [] l (pos + 1) (by simp)]
      rw [except_map_error]
    · rw [b32_step_acc (h c (by simp)) h7]
      exact ih (fun x hx => h x (by simp [hx])) (eights ++ [c]) l (pos + 1)
        (by simp; omega)

theorem b32_pads7_err {p : Base32Base.Params}
    (heqv : p.is_valid_character '=' = false) (hn : Bool) :
    ∀ (eights : List Char) (l pos : Nat), eights.length ≤ 7 →
      Base32Base.do_decode p hn (List.replicate 7 '=') eights l pos 0 =
        .error ⟨l, pos + 6, "Invalid character"⟩ := by
  intro eights l pos _
  show Base32Base.do_decode p hn
    ('=' :: '=' :: '=' :: '=' :: '=' :: '=' :: '=' :: []) eights l pos 0 = _
  rw [b32_step_pad heqv (by omega), b32_step_pad heqv (by omega),
    b32_step_pad heqv (by omega), b32_step_pad heqv (by omega),
    b32_step_pad heqv (by omega), b32_step_pad heqv (by omega)]
  rw [b32_step_pad7 heqv]

theorem b32_mixed_err {p : Base32Base.Params}
    (heqv : p.is_valid_character '=' = false) (hn : Bool) (c : Char)
    (hc : p.is_valid_character c = true) :
    ∀ (eights : List Char) (l pos : Nat), eights.length ≤ 7 →
      Base32Base.do_decode p hn ('=' :: [c]) eights l pos 0 =
        .error ⟨l, pos + 1, "Invalid character"⟩ := by
  intro eights l pos _
  rw [b32_step_pad heqv (by omega)]
  exact b32_step_mixed_pad hc (by omega) hn [] eights l (pos + 1)

/-- C10: Base32 decode never reconciles the trailing pad count with the
leftover partial-group length: appending 0 through 6 pads to any stream of
valid symbols leaves the (always successful) result unchanged, while a
seventh pad, or a valid symbol after a pad, is reported as an "Invalid
character" error at its own position. -/
theorem c10_pad_handling (p : Base32Base.Params) (s : List Char) (hn : Bool)
    (hv : ∀ c ∈ s, p.is_valid_character c = true)
    (heqv : p.is_valid_character '=' = false) :
    (∀ k, k ≤ 6 →
      Base32Base.decode p (s ++ List.replicate k '=') hn = Base32Base.decode p s hn) ∧
    (∃ v, Base32Base.decode p s hn = .ok v) ∧
    Base32Base.decode p (s ++ List.replicate 7 '=') hn =
      .error ⟨1, s.length + 7, "Invalid character"⟩ ∧
    (∀ c, p.is_valid_character c = true →
      Base32Base.decode p (s ++ ['=', c]) hn =
        .error ⟨1, s.length + 2, "Invalid character"⟩) := by
  refine ⟨?_, ?_, ?_, ?_⟩
  · intro k hk
    unfold Base32Base.decode
    exact b32_run_same heqv hn s hv k hk [] 1 1
  · unfold Base32Base.decode
    exact b32_run_ok hn s hv [] 1 1 (by simp)
  · unfold Base32Base.decode
    have h := b32_run_err hn (List.replicate 7 '=') 6 "Invalid character"
      (b32_pads7_err heqv hn) s hv [] 1 1 (by simp)
    rw [show 1 + s.length + 6 = s.length + 7 from by omega] at h
    exact h
  · intro c hc
    unfold Base32Base.decode
    have h := b32_run_err hn ('=' :: [c]) 1 "Invalid character"
      (b32_mixed_err heqv hn c hc) s hv [] 1 1 (by simp)
    rw [show 1 + s.length + 1 = s.length + 2 from by omega] at h
    exact h

/-- Witness for C10 at "MY": pads 0-6 leave the result (the byte of "f")
unchanged; a seventh pad errors at position 9 and "MY=M" errors at
position 4. -/
theorem c10_pad_handling_witness :
    (∀ c ∈ ['M', 'Y'], Base32Base.base32.is_valid_character c = true) ∧
    Base32Base.base32.is_valid_character '=' = false ∧
    Base32Base.decode Base32Base.base32 (['M', 'Y'] ++ List.replicate 6 '=') false =
      Base32Base.decode Base32Base.base32 ['M', 'Y'] false ∧
    Base32Base.decode Base32Base.base32 ['M', 'Y'] false = .ok [102] ∧
    Base32Base.decode Base32Base.base32 (['M', 'Y'] ++ List.replicate 7 '=') false =
      .error ⟨1, 9, "Invalid character"⟩ ∧
    Base32Base.decode Base32Base.base32 (['M', 'Y'] ++ ['=', 'M']) false =
      .error ⟨1, 4, "Invalid character"⟩ :=
  ⟨by decide, by decide,
   (c10_pad_handling Base32Base.base32 ['M', 'Y'] false (by decide) (by decide)).1 6
     (by decide),
   by decide,
   (c10_pad_handling Base32Base.base32 ['M', 'Y'] false (by decide) (by decide)).2.2.1,
   (c10_pad_handling Base32Base.base32 ['M', 'Y'] false (by decide) (by decide)).2.2.2 'M'
     (by decide)⟩

set_option maxRecDepth 10000 in
/-- C2: encoding produces exactly the listed strings for the listed inputs
and decoding those strings (default path, newline handling off) returns the
original inputs; `MD5.compute_hash_string("")` is the listed digest string.
The byte lists are the ASCII codes of "f", "fo", "foo" and "foobar". -/
theorem c2_known_test_vectors :
    (Base64Base.do_encode Base64Base.base64 [] = [] ∧
     Base64Base.do_decode Base64Base.base64 [] false = .ok []) ∧
    (Base64Base.do_encode Base64Base.base64 [102] = "Zg==".toList ∧
     Base64Base.do_decode Base64Base.base64 ("Zg==".toList) false = .ok [102]) ∧
    (Base64Base.do_encode Base64Base.base64 [102, 111] = "Zm8=".toList ∧
     Base64Base.do_decode Base64Base.base64 ("Zm8=".toList) false = .ok [102, 111]) ∧
    (Base64Base.do_encode Base64Base.base64 [102, 111, 111] = "Zm9v".toList ∧
     Base64Base.do_decode Base64Base.base64 ("Zm9v".toList) false = .ok [102, 111, 111]) ∧
    (Base64Base.do_encode Base64Base.base64 [102, 111, 111, 98, 97, 114] = "Zm9vYmFy".toList ∧
     Base64Base.do_decode Base64Base.base64 ("Zm9vYmFy".toList) false =
       .ok [102, 111, 111, 98, 97, 114]) ∧
    (Base32Base.do_encode Base32Base.base32 [102] 0 = "MY======".toList ∧
     Base32Base.decode Base32Base.base32 ("MY======".toList) false = .ok [102]) ∧
    (Base32Base.do_encode Base32Base.base32 [102, 111, 111, 98, 97, 114] 0 =
       "MZXW6YTBOI======".toList ∧
     Base32Base.decode Base32Base.base32 ("MZXW6YTBOI======".toList) false =
       .ok [102, 111, 111, 98, 97, 114]) ∧
    (Base16.do_encode [102] 0 = "66".toList ∧
     Base16.decode ("66".toList) false = .ok [102]) ∧
    (Base16.do_encode [102, 111, 111, 98, 97, 114] 0 = "666F6F626172".toList ∧
     Base16.decode ("666F6F626172".toList) false = .ok [102, 111, 111, 98, 97, 114]) ∧
    HashAlgorithm.hash_to_string (MD5.compute_hash MD5.reset []).1 =
      "D41D8CD98F00B204E9800998ECF8427E".toList := by
  decide

/-- C3 counterexample: with newline handling enabled, Base64 decoding of
"Zm9vYmFy=" (one stray pad after a complete final group) does NOT report a
parse error; `decode_impure` never checks trailing pads when the final quad
is complete, and decoding succeeds with the bytes of "foobar". -/
theorem c3_counterexample :
    Base64Base.do_decode Base64Base.base64 ("Zm9vYmFy=".toList) true =
      .ok [102, 111, 111, 98, 97, 114] := by
  decide

/-- C3 amended: decoding "Zm9vYmFy=" with newline handling disabled is a
parse error (length not a multiple of four, reported at line 0, position 9);
with newline handling enabled the stray pad after the complete final group
is silently ignored and decoding succeeds with the bytes of "foobar". -/
theorem c3_amended :
    Base64Base.do_decode Base64Base.base64 ("Zm9vYmFy=".toList) false =
      .error ⟨0, 9, "Invalid length"⟩ ∧
    Base64Base.do_decode Base64Base.base64 ("Zm9vYmFy=".toList) true =
      .ok [102, 111, 111, 98, 97, 114] := by
  decide

/-- C6 counterexample: a leftover partial group of 3 valid Base32 symbols
decodes to 2 output bytes (not 1, as claimed), and a leftover of 6 symbols
decodes to 4 bytes (not 3, as claimed). -/
theorem c6_counterexample :
    Base32Base.decode Base32Base.base32 ("MZX".toList) false = .ok [102, 110] ∧
    (Base32Base.decode Base32Base.base32 ("MZXW6Y".toList) false).map List.length =
      .ok 4 := by
  decide

/-- C7 counterexample: Base32 decoding of a single leftover symbol is NOT a
parse error: the leftover switch in `Base32Base::do_decode` has no case for
`eights_pos == 1`, so decoding "M" succeeds and produces no output bytes,
for both values of the newline-handling flag. -/
theorem c7_counterexample :
    Base32Base.decode Base32Base.base32 ("M".toList) false = .ok [] ∧
    Base32Base.decode Base32Base.base32 ("M".toList) true = .ok [] := by
  decide

/-- C8: the code contradicts the claim for Base16.  `Base16::do_decode`
never increments its `pos` counter (unlike Base32 and Base64), so the
reported column is stuck at its initial value: decoding "0G", whose single
malformed character 'G' is at line 1 column 2, reports the error at
position (1, 1). -/
theorem c8_base16_error_position :
    Base16.decode ("0G".toList) false = .error ⟨1, 1, "Invalid character"⟩ ∧
    Base16.decode ("0G".toList) true = .error ⟨1, 1, "Invalid character"⟩ := by
  decide

/-- Projection lemma: the low count word after `MD5::do_hash` (the
`_count[0] += (length << 3)` line, both branches of the buffering split). -/
theorem md5_do_hash_count0 (st : MD5.State) (input : List Nat) :
    (MD5.do_hash st input).count0 =
      (st.count0 + (input.length <<< 3) % 2 ^ 64) % 2 ^ 32 := by
  dsimp only [MD5.do_hash]
  split <;> rfl

/-- Projection lemma: the high count word after `MD5::do_hash` (the carry
test against the unterminated 64-bit `length << 3` plus the
`_count[1] += (length >> 29)` line). -/
theorem md5_do_hash_count1 (st : MD5.State) (input : List Nat) :
    (MD5.do_hash st input).count1 =
      ((if (st.count0 + (input.length <<< 3) % 2 ^ 64) % 2 ^ 32 < (input.length <<< 3) % 2 ^ 64
        then (st.count1 + 1) % 2 ^ 32 else st.count1) + input.length >>> 29) % 2 ^ 32 := by
  dsimp only [MD5.do_hash]
  split <;> rfl

/-- Projection lemma: `MD5::do_hash` leaves `_finalized` untouched. -/
theorem md5_do_hash_finalized (st : MD5.State) (input : List Nat) :
    (MD5.do_hash st input).finalized = st.finalized := by
  dsimp only [MD5.do_hash]
  split <;> rfl

/-- Projection lemma: `MD5::do_hash` leaves `_digest` untouched. -/
theorem md5_do_hash_digest (st : MD5.State) (input : List Nat) :
    (MD5.do_hash st input).digest = st.digest := by
  dsimp only [MD5.do_hash]
  split <;> rfl

/-- C4 counterexample: MD5 does not use the overflow-checked `HashLength`
counter; `MD5::do_hash` maintains its own pair of 32-bit words and never
throws.  Starting from a counter holding 2^64 - 2^32 message bits (high
word at its maximum) and updating with 2^29 further bytes (2^32 bits,
taking the true total past the counter's maximum), `do_hash` returns
normally with the counter silently wrapped to 2^32 bits. -/
theorem c4_counterexample :
    (MD5.do_hash { MD5.reset with count1 := 2 ^ 32 - 1 } (List.replicate (2 ^ 29) 0)).count0 = 0 ∧
    (MD5.do_hash { MD5.reset with count1 := 2 ^ 32 - 1 } (List.replicate (2 ^ 29) 0)).count1 = 1 ∧
    (2 ^ 32 - 1) * 2 ^ 32 + 8 * 2 ^ 29 > 2 ^ 64 - 1 := by
  refine ⟨?_, ?_, by norm_num⟩
  · rw [md5_do_hash_count0, List.length_replicate]
    decide
  · rw [md5_do_hash_count1, List.length_replicate]
    decide

/-- C9: evaluation of the MD5 bit-counter update at the failing input.  The
source dropped the `(UINT4)` cast that RFC 1321's reference code applies to
`length << 3` before the carry comparison, so a single `do_hash` call of
2^29 bytes adds a spurious carry: the counter ends at 2^33 bits (count1 = 2)
instead of the correct 2^32 bits, while the same bytes fed as two 2^28-byte
calls count correctly (count1 = 1).  The length field of the final padded
block, and hence the digest, therefore differs between the two schedules. -/
theorem c9_md5_incremental_counter :
    (MD5.do_hash MD5.reset (List.replicate (2 ^ 29) 0)).count0 = 0 ∧
    (MD5.do_hash MD5.reset (List.replicate (2 ^ 29) 0)).count1 = 2 ∧
    (MD5.do_hash (MD5.do_hash MD5.reset (List.replicate (2 ^ 28) 0))
      (List.replicate (2 ^ 28) 0)).count0 = 0 ∧
    (MD5.do_hash (MD5.do_hash MD5.reset (List.replicate (2 ^ 28) 0))
      (List.replicate (2 ^ 28) 0)).count1 = 1 ∧
    2 * 2 ^ 32 + 0 ≠ 8 * 2 ^ 29 := by
  refine ⟨?_, ?_, ?_, ?_, by norm_num⟩
  · rw [md5_do_hash_count0, List.length_replicate]
    decide
  · rw [md5_do_hash_count1, List.length_replicate]
    decide
  · rw [md5_do_hash_count0, md5_do_hash_count0, List.length_replicate]
    decide
  · rw [md5_do_hash_count1, md5_do_hash_count0, md5_do_hash_count1, List.length_replicate]
    decide

/-- C4 amended: for SHA-1 and both SHA-2 families, an update that would
increment the message-bit-length counter past its maximum representable
value raises the "Hash maximum length exceeded." error: with the counter at
its maximum (low word at 2^w - 8 bits, high word at 2^w - 1), absorbing any
further byte fails.  MD5 is the exception: it silently wraps (see the
counterexample). -/
theorem c4_amended :
    (∀ st : SHA1.State, st.lenHigh = 2 ^ 32 - 1 → st.lenLow = 2 ^ 32 - 8 → ∀ b bs,
      SHA1.do_hash st (b :: bs) = .error "Hash maximum length exceeded.") ∧
    (∀ st : sha2_32.State, st.lenHigh = 2 ^ 32 - 1 → st.lenLow = 2 ^ 32 - 8 → ∀ b bs,
      sha2_32.do_hash st (b :: bs) = .error "Hash maximum length exceeded.") ∧
    (∀ st : sha2_64.State, st.lenHigh = 2 ^ 64 - 1 → st.lenLow = 2 ^ 64 - 8 → ∀ b bs,
      sha2_64.do_hash st (b :: bs) = .error "Hash maximum length exceeded.") := by
  refine ⟨?_, ?_, ?_⟩ <;>
    · intro st h1 h2 b bs
      simp [SHA1.do_hash, sha2_32.do_hash, sha2_64.do_hash,
        HashAlgorithm.HashLength_inc, h1, h2]

/-- C4 amended, witness: a SHA-1, SHA-2-32 and SHA-2-64 state with the
length counter at its maximum each reject one further byte. -/
theorem c4_amended_witness :
    SHA1.do_hash { SHA1.reset with lenHigh := 2 ^ 32 - 1, lenLow := 2 ^ 32 - 8 } [0] =
      .error "Hash maximum length exceeded." ∧
    sha2_32.do_hash
      { sha2_32.init_state sha2_32.H256 with lenHigh := 2 ^ 32 - 1, lenLow := 2 ^ 32 - 8 } [0] =
      .error "Hash maximum length exceeded." ∧
    sha2_64.do_hash
      { sha2_64.init_state sha2_64.H512 with lenHigh := 2 ^ 64 - 1, lenLow := 2 ^ 64 - 8 } [0] =
      .error "Hash maximum length exceeded." :=
  ⟨c4_amended.1 _ rfl rfl 0 [], c4_amended.2.1 _ rfl rfl 0 [], c4_amended.2.2 _ rfl rfl 0 []⟩

/-- C5 amended: for SHA-1 and both SHA-2 families, `finalize_hash` resets
the object state to its freshly-constructed value, so after hashing any
`b1` and finalizing, hashing `b2` on the same object yields exactly what a
fresh object yields for `b2`.  MD5 instead latches `_finalized` without
resetting the state words, and any further `compute_hash` on the object
returns the cached digest of the first message. -/
theorem c5_amended :
    (∀ b1 b2 st', SHA1.do_hash SHA1.reset b1 = .ok st' →
      SHA1.compute_hash (SHA1.finalize_hash st').2 b2 = SHA1.compute_hash SHA1.reset b2) ∧
    (∀ hs H b1 b2 st', sha2_32.do_hash (sha2_32.init_state H) b1 = .ok st' →
      sha2_32.compute_hash hs H (sha2_32.finalize_hash hs H st').2 b2 =
        sha2_32.compute_hash hs H (sha2_32.init_state H) b2) ∧
    (∀ hs H b1 b2 st', sha2_64.do_hash (sha2_64.init_state H) b1 = .ok st' →
      sha2_64.compute_hash hs H (sha2_64.finalize_hash hs H st').2 b2 =
        sha2_64.compute_hash hs H (sha2_64.init_state H) b2) ∧
    (∀ (st : MD5.State) input, st.finalized = true →
      (MD5.compute_hash st input).1 = st.digest) := by
  refine ⟨fun b1 b2 st' _ => rfl, fun hs H b1 b2 st' _ => rfl, fun hs H b1 b2 st' _ => rfl,
    fun st input h => ?_⟩
  have hf : (MD5.do_hash st input).finalized = true := by rw [md5_do_hash_finalized, h]
  simp only [MD5.compute_hash, MD5.finalize_hash, hf, md5_do_hash_digest, h,
    Bool.true_eq_false, if_false]

/-- C5 amended, witness: instantiated at concrete one-byte messages (the
empty message for `b1`, so the absorbed state is the reset state itself). -/
theorem c5_amended_witness :
    SHA1.compute_hash (SHA1.finalize_hash SHA1.reset).2 [97] =
      SHA1.compute_hash SHA1.reset [97] ∧
    sha2_32.compute_hash 256 sha2_32.H256
      (sha2_32.finalize_hash 256 sha2_32.H256 (sha2_32.init_state sha2_32.H256)).2 [97] =
      sha2_32.compute_hash 256 sha2_32.H256 (sha2_32.init_state sha2_32.H256) [97] ∧
    sha2_64.compute_hash 512 sha2_64.H512
      (sha2_64.finalize_hash 512 sha2_64.H512 (sha2_64.init_state sha2_64.H512)).2 [97] =
      sha2_64.compute_hash 512 sha2_64.H512 (sha2_64.init_state sha2_64.H512) [97] ∧
    (MD5.compute_hash { MD5.reset with finalized := true, digest := List.replicate 16 7 }
      [98]).1 = List.replicate 16 7 :=
  ⟨c5_amended.1 [] [97] SHA1.reset rfl,
   c5_amended.2.1 256 sha2_32.H256 [] [97] (sha2_32.init_state sha2_32.H256) rfl,
   c5_amended.2.2.1 512 sha2_64.H512 [] [97] (sha2_64.init_state sha2_64.H512) rfl,
   c5_amended.2.2.2 _ [98] rfl⟩

set_option maxRecDepth 10000 in
/-- C5 counterexample: MD5's `finalize_hash` does not reset the object
(it only latches `_finalized` and caches the digest), so computing the hash
of "b" (byte 98) on an MD5 object that already hashed "a" (byte 97) returns
the digest of "a" again, which differs from the digest a fresh object
computes for "b". -/
theorem c5_counterexample :
    (MD5.compute_hash (MD5.compute_hash MD5.reset [97]).2 [98]).1 =
      (MD5.compute_hash MD5.reset [97]).1 ∧
    (MD5.compute_hash (MD5.compute_hash MD5.reset [97]).2 [98]).1 ≠
      (MD5.compute_hash MD5.reset [98]).1 := by
  decide

/-! ### Validation of the embedding against published test vectors

These evaluations pin the embedded codecs and hash functions to the
Base16/Base32/Base64 vectors of RFC 4648, the MD5 vectors of RFC 1321 and
the SHA vectors of FIPS 180, matching the values in the repository's test
suite. -/

theorem valid_base16_vectors :
    Base16.do_encode [102] 0 = "66".toList ∧
    Base16.do_encode [102, 111, 111, 98, 97, 114] 0 = "666F6F626172".toList ∧
    Base16.decode "666F6F626172".toList false = .ok [102, 111, 111, 98, 97, 114] := by
  decide

theorem valid_base32_vectors :
    Base32Base.do_encode Base32Base.base32 [102] 0 = "MY======".toList ∧
    Base32Base.do_encode Base32Base.base32 [102, 111, 111, 98, 97, 114] 0 =
      "MZXW6YTBOI======".toList ∧
    Base32Base.decode Base32Base.base32 "MZXW6YTBOI======".toList false =
      .ok [102, 111, 111, 98, 97, 114] ∧
    Base32Base.do_encode Base32Base.base32hex [102, 111, 111, 98, 97, 114] 0 =
      "CPNMUOJ1E8======".toList ∧
    Base32Base.decode Base32Base.base32hex "CPNMUOJ1E8======".toList false =
      .ok [102, 111, 111, 98, 97, 114] := by
  decide

theorem valid_base64_vectors :
    Base64Base.do_encode Base64Base.base64 [102] = "Zg==".toList ∧
    Base64Base.do_encode Base64Base.base64 [102, 111] = "Zm8=".toList ∧
    Base64Base.do_encode Base64Base.base64 [102, 111, 111] = "Zm9v".toList ∧
    Base64Base.do_decode Base64Base.base64 "Zg==".toList false = .ok [102] ∧
    Base64Base.do_decode Base64Base.base64 "Zm8=".toList false = .ok [102, 111] ∧
    Base64Base.do_decode Base64Base.base64 "Zm9vYmFy".toList true =
      .ok [102, 111, 111, 98, 97, 114] ∧
    Base64Base.do_encode Base64Base.base64url [102, 111, 111, 98, 0xC3, 0xBE] =
      "Zm9vYsO-".toList ∧
    Base64Base.do_decode Base64Base.base64url "Zm9vYsO-".toList false =
      .ok [102, 111, 111, 98, 0xC3, 0xBE] := by
  decide

set_option maxRecDepth 10000 in
theorem valid_md5_vectors :
    HashAlgorithm.hash_to_string (MD5.compute_hash MD5.reset []).1 =
      "D41D8CD98F00B204E9800998ECF8427E".toList ∧
    HashAlgorithm.hash_to_string
        (MD5.compute_hash MD5.reset ("abc".toList.map Char.toNat)).1 =
      "900150983CD24FB0D6963F7D28E17F72".toList := by
  decide

set_option maxRecDepth 10000 in
theorem valid_sha1_vector :
    (SHA1.compute_hash SHA1.reset ("abc".toList.map Char.toNat)).map
      (fun pr => HashAlgorithm.hash_to_string pr.1) =
    .ok "A9993E364706816ABA3E25717850C26C9CD0D89D".toList := by
  decide

set_option maxRecDepth 10000 in
theorem valid_sha256_vector :
    (sha2_32.compute_hash 256 sha2_32.H256 (sha2_32.init_state sha2_32.H256)
        ("abc".toList.map Char.toNat)).map
      (fun pr => HashAlgorithm.hash_to_string pr.1) =
    .ok "BA7816BF8F01CFEA414140DE5DAE2223B00361A396177A9CB410FF61F20015AD".toList := by
  decide

set_option maxRecDepth 10000 in
theorem valid_sha224_vector :
    (sha2_32.compute_hash 224 sha2_32.H224 (sha2_32.init_state sha2_32.H224) []).map
      (fun pr => HashAlgorithm.hash_to_string pr.1) =
    .ok "D14A028C2A3A2BC9476102BB288234C415A2B01F828EA62AC5B3E42F".toList := by
  decide

set_option maxRecDepth 10000 in
theorem valid_sha512_vector :
    (sha2_64.compute_hash 512 sha2_64.H512 (sha2_64.init_state sha2_64.H512)
        ("abc".toList.map Char.toNat)).map
      (fun pr => HashAlgorithm.hash_to_string pr.1) =
    .ok ("DDAF35A193617ABACC417349AE20413112E6FA4E89A97EA20A9EEEE64B55D39A2192992A274FC1A836BA3C23A3FEEBBD454D4423643CE80E2A9AC94FA54CA49F".toList) := by
  decide

end Brace
